import Mathlib

/-! Policy compatibility and user-input validation of the anax agent.

A shallow embedding of the decision logic of `compcheck` (policy compatibility),
of `cli/exchange/node.go` (user-input validation and node update) and of
`exchange/policy.go` (node policy of the Exchange), with the properties the
specification states about them.

Go pointers that may be nil are `Option`s, `(value, error)` results are
`Except String` or a pair with an `Option String`, Go maps are association lists
in iteration order, strings built with `Sprintf` are built with `++`, and a
recursion or loop the source does not bound takes a `fuel` and gives `none` when
it runs out.
-/

namespace Anax

/-! ## Data model -/

deriving instance DecidableEq for Except

/-- Value of a property: a scalar or a list of strings. -/
inductive PropertyValue where
  | str (s : String)
  | int (n : Int)
  | bool (b : Bool)
  | list (l : List String)
  deriving DecidableEq, Repr

/-- Property of the policy model: `(name, value)`. -/
structure Property where
  Name : String
  Value : PropertyValue
  deriving DecidableEq, Repr

/-- Constructor used by the tests: `externalpolicy.Property_Factory(name, value)`. -/
def Property_Factory (name value : String) : Property :=
  ⟨name, PropertyValue.str value⟩

/-- Ordered collection of properties. -/
abbrev PropertyList := List Property

/-- Ordered list of constraint expressions, opaque text for this engine. -/
abbrev ConstraintExpression := List String

/-- The atomic compatibility unit: `ExternalPolicy = (Properties, Constraints)`. -/
structure ExternalPolicy where
  Properties : PropertyList := []
  Constraints : ConstraintExpression := []
  deriving DecidableEq, Repr

/-- Names declared by a property list, in order. -/
def PropertyList.names (pl : PropertyList) : List String :=
  pl.map Property.Name

/-- Data-model invariant of a property list: unique by name. -/
def PropertyList.WellFormed (pl : PropertyList) : Prop :=
  (PropertyList.names pl).Nodup

instance (pl : PropertyList) : Decidable (PropertyList.WellFormed pl) := by
  unfold PropertyList.WellFormed
  infer_instance

/-- Whether the list declares a property of the given name. -/
def PropertyList.HasProperty (pl : PropertyList) (name : String) : Bool :=
  pl.any (fun p => p.Name == name)

/-- Modelled from the spec: `PropertyList.Add_Property(prop, overwrite)` of package
`externalpolicy` (section 3): inserting a name that is already present overwrites
the entry in place when `overwrite` is set and is rejected otherwise; a new name
is appended. The text of the rejection is not fixed by the spec. -/
def PropertyList.Add_Property (pl : PropertyList) (p : Property) (overwrite : Bool) :
    Except String PropertyList :=
  if PropertyList.HasProperty pl p.Name then
    if overwrite then
      Except.ok (pl.map (fun q => if q.Name == p.Name then p else q))
    else
      Except.error ("Property " ++ p.Name ++ " already exists")
  else
    Except.ok (pl ++ [p])

/-- Modelled from the spec: `PropertyList.MergeWith(other, overwrite)` of package
`externalpolicy`: every property of `other` is inserted in order with the given
flag; a rejected insertion leaves the list as it is, so an authored property is
never replaced when `overwrite` is false. -/
def PropertyList.MergeWith (pl other : PropertyList) (overwrite : Bool) : PropertyList :=
  other.foldl
    (fun acc p =>
      match PropertyList.Add_Property acc p overwrite with
      | Except.ok acc2 => acc2
      | Except.error _ => acc)
    pl

/-- Modelled from the spec: `ConstraintExpression.MergeWith(other)` of package
`externalpolicy`, the constraint part of the policy merge (section 4.2). The
constraints of `other` are added in order; one that is already present is not
added again, which is what `Test_MergeFullServicePolicyToBusinessPolicy` and
`Test_CheckPolicyCompatiblility` assert (two business constraints and one service
constraint equal to one of them give two constraints). -/
def ConstraintExpression.MergeWith (c other : ConstraintExpression) : ConstraintExpression :=
  other.foldl (fun acc e => if e ∈ acc then acc else acc ++ [e]) c

/-- Modelled from the spec: the constant `externalpolicy.PROP_NODE_ARCH`, the name of
the node architecture property the spec writes `node.arch`; the repository's
built-in names carry the `openhorizon.` namespace, as the service ones in the
tests do. -/
def PROP_NODE_ARCH : String := "openhorizon.arch"

def PROP_SVC_URL : String := "openhorizon.service.url"
def PROP_SVC_NAME : String := "openhorizon.service.name"
def PROP_SVC_ORG : String := "openhorizon.service.org"
def PROP_SVC_VERSION : String := "openhorizon.service.version"
def PROP_SVC_ARCH : String := "openhorizon.service.arch"

/-! ## Policy merge (section 4.2) -/

/-- Modelled from the spec: `compcheck.addNodeArchToPolicy` (`addArchitecture` in
section 4.2; `compcheck/policy_check.go` is not among the sources). A nil policy
gives nil and no error (`Test_addNodeArchToPolicy`), an empty architecture gives
the input policy, and otherwise the result is the policy with
`PROP_NODE_ARCH = arch` appended to its properties. -/
def addNodeArchToPolicy (nodePolicy : Option ExternalPolicy) (nodeArch : String) :
    Except String (Option ExternalPolicy) :=
  match nodePolicy with
  | none => Except.ok none
  | some p =>
    if nodeArch = "" then
      Except.ok (some p)
    else
      Except.ok (some { p with Properties := p.Properties ++ [Property_Factory PROP_NODE_ARCH nodeArch] })

/-- Store of policy objects; a reference is an index into it. -/
structure Heap where
  cells : List ExternalPolicy
  deriving DecidableEq, Repr

abbrev Ref := Nat

/-- Object a reference points to. -/
def Heap.deref (h : Heap) (r : Ref) : Option ExternalPolicy :=
  h.cells[r]?

/-- Allocation of a new object: the store grows by one cell. -/
def Heap.alloc (h : Heap) (p : ExternalPolicy) : Heap × Ref :=
  (⟨h.cells ++ [p]⟩, h.cells.length)

/-- Modelled from the spec: `compcheck.addNodeArchToPolicy` on references (section
4.2, `addArchitecture`): with an empty architecture the input reference is
returned and nothing is allocated; otherwise the result of `addNodeArchToPolicy`
is a new object and the object behind the input reference is not written. -/
def addNodeArchToPolicyRef (h : Heap) (nodePolicy : Option Ref) (nodeArch : String) :
    Heap × Except String (Option Ref) :=
  match nodePolicy with
  | none => (h, Except.ok none)
  | some r =>
    if nodeArch = "" then
      (h, Except.ok (some r))
    else
      match addNodeArchToPolicy (Heap.deref h r) nodeArch with
      | Except.ok (some q) =>
        let a := Heap.alloc h q
        (a.1, Except.ok (some a.2))
      | Except.ok none => (h, Except.ok none)
      | Except.error e => (h, Except.error e)

/-- Modelled from the spec: `compcheck.AddDefaultPropertiesToServicePolicy`
(`mergeBuiltinIdentity` in section 4.2): the service policy's properties and
constraints plus the built-in properties whose name is not already present; with
no service policy, only the built-in properties; the result is never nil
(`Test_AddDefaultPropertiesToServicePolicy`). -/
def AddDefaultPropertiesToServicePolicy (servicePol defaultSvcProps : Option ExternalPolicy) :
    ExternalPolicy :=
  match servicePol, defaultSvcProps with
  | some s, some d =>
    { Properties := PropertyList.MergeWith s.Properties d.Properties false,
      Constraints := s.Constraints }
  | some s, none => { Properties := s.Properties, Constraints := s.Constraints }
  | none, some d => { Properties := d.Properties, Constraints := [] }
  | none, none => { Properties := [], Constraints := [] }

/-- Modelled from the spec: `compcheck.MergeFullServicePolicyToBusinessPolicy`
(`mergeBusinessAndServicePolicy` in section 4.2). A nil business policy is an
error (its text is not fixed by the spec or the tests), a nil service policy
gives the business policy, and otherwise the service policy's properties are
merged into a copy of the business policy without overwriting, and its
constraints are merged in. -/
def MergeFullServicePolicyToBusinessPolicy (businessPolicy servicePolicy : Option ExternalPolicy) :
    Except String ExternalPolicy :=
  match businessPolicy, servicePolicy with
  | none, _ => Except.error "The given business policy should not be nil."
  | some b, none => Except.ok b
  | some b, some s =>
    Except.ok
      { Properties := PropertyList.MergeWith b.Properties s.Properties false,
        Constraints := ConstraintExpression.MergeWith b.Constraints s.Constraints }

/-! ## Compatibility decision (section 4.3) -/

/-- Modelled from the spec: the constraint-expression evaluator, an external
collaborator of this engine (sections 3 and 9): `Validate` is the syntax check of
a constraint list (`none` when it is well-formed, otherwise the error text) and
`IsSatisfiedBy` decides one constraint against a property list. -/
structure ConstraintLanguage where
  Validate : ConstraintExpression → Option String
  IsSatisfiedBy : String → PropertyList → Bool

def COMPATIBLE : String := "Compatible"

def INCOMPATIBLE : String := "Incompatible"

/-- First constraint of `cs` that `props` does not satisfy. -/
def firstUnsatisfied (L : ConstraintLanguage) (cs : ConstraintExpression) (props : PropertyList) :
    Option String :=
  cs.find? (fun c => !L.IsSatisfiedBy c props)

/-- Reason of a decision: the `Compatible` sentinel, or the first failing
constraint of either side. -/
def compatibilityReason (producerFailure consumerFailure : Option String) : String :=
  match producerFailure, consumerFailure with
  | none, none => COMPATIBLE
  | some c, none => c
  | none, some c => c
  | some c1, some c2 => c1 ++ ", " ++ c2

/-- Modelled from the spec: `compcheck.CheckPolicyCompatiblility` (section 4.3;
`compcheck/policy_check.go` is not among the sources). The three nil checks come
first, in the order node, business, merged service; then the producer is the
node policy with the node architecture, the consumer is the business policy
merged with the service policy, and the decision is bilateral satisfaction. The
result is `(compatible, reason, producer, consumer)`. -/
def CheckPolicyCompatiblility (L : ConstraintLanguage)
    (nodePolicy businessPolicy mergedServicePolicy : Option ExternalPolicy) (nodeArch : String) :
    Except String (Bool × String × Option ExternalPolicy × Option ExternalPolicy) :=
  match nodePolicy with
  | none => Except.error "Node policy cannot be null."
  | some _ =>
    match businessPolicy with
    | none => Except.error "Business policy cannot be null."
    | some _ =>
      match mergedServicePolicy with
      | none => Except.error "Merged service policy cannot be null."
      | some _ =>
        match addNodeArchToPolicy nodePolicy nodeArch with
        | Except.error e => Except.error e
        | Except.ok none => Except.error "Node policy cannot be null."
        | Except.ok (some producer) =>
          match MergeFullServicePolicyToBusinessPolicy businessPolicy mergedServicePolicy with
          | Except.error e => Except.error e
          | Except.ok consumer =>
            let pf := firstUnsatisfied L producer.Constraints consumer.Properties
            let cf := firstUnsatisfied L consumer.Constraints producer.Properties
            Except.ok (pf.isNone && cf.isNone, compatibilityReason pf cf, some producer, some consumer)

/-! ## Candidate enumeration (section 4.4) -/

/-- One version of the service a business policy names (`businesspolicy.WorkloadChoice`). -/
structure WorkloadChoice where
  Version : String
  deriving DecidableEq, Repr

/-- Service reference of a business policy (`businesspolicy.ServiceRef`). -/
structure ServiceRef where
  Name : String
  Org : String
  Arch : String
  ServiceVersions : List WorkloadChoice
  deriving DecidableEq, Repr

/-- Business (deployment) policy (`businesspolicy.BusinessPolicy`). -/
structure BusinessPolicy where
  Service : ServiceRef
  Properties : PropertyList := []
  Constraints : ConstraintExpression := []
  deriving DecidableEq, Repr

/-- Node record of the registry (`exchange.Device`), with the fields the tests set
and the pattern of the node, which `NodeUpdate` reads. -/
structure Device where
  Name : String := ""
  Owner : String := ""
  Arch : String := ""
  Pattern : String := ""
  deriving DecidableEq, Repr

/-- Declared input of a service (`exchange.UserInput`); `Type_` is its field `Type`. -/
structure UserInput where
  Label : String := ""
  Type_ : String := ""
  Name : String
  DefaultValue : String := ""
  deriving DecidableEq, Repr

/-- Declared dependency of a service (`exchange.ServiceDependency`). -/
structure ServiceDependency where
  URL : String
  Org : String
  VersionRange : String := ""
  Arch : String := ""
  deriving DecidableEq, Repr

/-- Service definition of the registry (`exchange.ServiceDefinition`), with the
fields this engine reads. -/
structure ServiceDefinition where
  Owner : String := ""
  URL : String
  Version : String
  Arch : String
  RequiredServices : List ServiceDependency := []
  UserInputs : List UserInput := []
  deriving DecidableEq, Repr

/-- Request of a compatibility check (`compcheck.PolicyCompInput`). -/
structure PolicyCompInput where
  NodeId : String := ""
  NodeArch : String := ""
  NodePolicy : Option ExternalPolicy := none
  BusinessPolId : String := ""
  BusinessPolicy : Option BusinessPolicy := none
  ServicePolicy : Option ExternalPolicy := none
  deriving DecidableEq, Repr

/-- Result of a compatibility check (`compcheck.PolicyCompOutput`): the overall flag
and the map from service identity to reason. -/
structure PolicyCompOutput where
  Compatible : Bool
  Reason : List (String × String)
  deriving DecidableEq, Repr

/-- Assignment `m[k] = v` of a Go map kept as an association list. -/
def mapInsert {α : Type} (m : List (String × α)) (k : String) (v : α) : List (String × α) :=
  match m with
  | [] => [(k, v)]
  | (k2, v2) :: rest => if k2 = k then (k, v) :: rest else (k2, v2) :: mapInsert rest k v

/-- Read `m[k]` of a Go map kept as an association list. -/
def mapLookup {α : Type} (m : List (String × α)) (k : String) : Option α :=
  match m with
  | [] => none
  | (k2, v2) :: rest => if k2 = k then some v2 else mapLookup rest k

/-- Keys of a map. -/
def mapKeys {α : Type} (m : List (String × α)) : List String :=
  m.map Prod.fst

/-- Handlers through which the engine reads the registry (section 6). A map result
is an association list in iteration order. -/
structure ExchangeHandlers where
  getDevice : String → Except String Device
  nodePolicyHandler : String → Except String (Option ExternalPolicy)
  getBusinessPolicies : String → String → Except String (List (String × BusinessPolicy))
  servicePolicyHandler :
    String → String → String → String → Except String (Option ExternalPolicy × String)
  getSelectedServices :
    String → String → String → String → Except String (List (String × ServiceDefinition))

/-- Fully-qualified service identity `org/url_version_arch`. -/
def serviceIdentity (org url version arch : String) : String :=
  org ++ "/" ++ url ++ "_" ++ version ++ "_" ++ arch

/-- Organization and name of an id of the form `org/name`. -/
def splitOrgId (id : String) : String × String :=
  (String.mk (id.data.takeWhile (fun c => c != '/')),
   String.mk ((id.data.dropWhile (fun c => c != '/')).drop 1))

/-- Modelled from the spec: the built-in identity properties of a service (section 3),
under the names the tests use; the service name is its url. -/
def CreateServiceBuiltInPolicy (url org version arch : String) : ExternalPolicy :=
  { Properties :=
      [ Property_Factory PROP_SVC_URL url, Property_Factory PROP_SVC_NAME url,
        Property_Factory PROP_SVC_ORG org, Property_Factory PROP_SVC_VERSION version,
        Property_Factory PROP_SVC_ARCH arch ],
    Constraints := [] }

/-- External-policy view of a business policy: its properties and constraints. -/
def BusinessPolicy.toExternalPolicy (b : BusinessPolicy) : ExternalPolicy :=
  { Properties := b.Properties, Constraints := b.Constraints }

/-- Modelled from the spec: step 1 of `policyCompatible` (section 4.4). For a request
that names a node the architecture is read from the node record; an explicit
architecture that differs from it is the mismatch error. A request without a
node id has no record to read (`Test_policyCompatible_with_Pols`). -/
def resolveNodeArch (H : ExchangeHandlers) (input : PolicyCompInput) : Except String String :=
  if input.NodeId = "" then
    Except.ok input.NodeArch
  else
    match H.getDevice input.NodeId with
    | Except.error e => Except.error e
    | Except.ok dev =>
      if input.NodeArch = "" then
        Except.ok dev.Arch
      else if dev.Arch = input.NodeArch then
        Except.ok input.NodeArch
      else
        Except.error ("The input node architecture " ++ input.NodeArch ++
          " does not match the exchange node architecture " ++ dev.Arch ++
          " for node " ++ input.NodeId ++ ".")

/-- Syntax check of a fetched or supplied policy (section 4.1). -/
def validatePolicy (L : ConstraintLanguage) (kind : String) (p : ExternalPolicy) :
    Except String (Option ExternalPolicy) :=
  match L.Validate p.Constraints with
  | some e => Except.error ("Failed to validate the " ++ kind ++ " policy: " ++ e)
  | none => Except.ok (some p)

/-- Modelled from the spec: step 2 of `policyCompatible`: the node policy of the
request, or else the one fetched for the node id; an absent policy is not an
error at this step. -/
def getNodePolicy (L : ConstraintLanguage) (H : ExchangeHandlers) (input : PolicyCompInput) :
    Except String (Option ExternalPolicy) :=
  match input.NodePolicy with
  | some p => validatePolicy L "node" p
  | none =>
    if input.NodeId = "" then
      Except.ok none
    else
      match H.nodePolicyHandler input.NodeId with
      | Except.error e => Except.error ("Error trying to query node policy: " ++ e)
      | Except.ok none => Except.ok none
      | Except.ok (some p) => validatePolicy L "node" p

/-- Modelled from the spec: step 3 of `policyCompatible`: the business policy of the
request, or else the one registered under `BusinessPolId`. -/
def getBusinessPolicy (L : ConstraintLanguage) (H : ExchangeHandlers) (input : PolicyCompInput) :
    Except String BusinessPolicy :=
  match input.BusinessPolicy with
  | some b =>
    match L.Validate b.Constraints with
    | some e => Except.error ("Failed to validate the business policy: " ++ e)
    | none => Except.ok b
  | none =>
    match H.getBusinessPolicies (splitOrgId input.BusinessPolId).1 (splitOrgId input.BusinessPolId).2 with
    | Except.error e => Except.error ("Unable to get business policy: " ++ e)
    | Except.ok [] =>
      Except.error ("Unable to get business policy: no business policy found for " ++
        input.BusinessPolId)
    | Except.ok (kv :: _) =>
      match L.Validate kv.2.Constraints with
      | some e => Except.error ("Failed to validate the business policy: " ++ e)
      | none => Except.ok kv.2

/-- Modelled from the spec: step 4 of `policyCompatible`: the service policy of the
request, or else the one fetched for the candidate `(url, org, version, arch)`. -/
def getServicePolicy (L : ConstraintLanguage) (H : ExchangeHandlers) (input : PolicyCompInput)
    (url org version arch : String) : Except String (Option ExternalPolicy) :=
  match input.ServicePolicy with
  | some p => validatePolicy L "service" p
  | none =>
    match H.servicePolicyHandler url org version arch with
    | Except.error e => Except.error ("Error trying to query service policy: " ++ e)
    | Except.ok (none, _) => Except.ok none
    | Except.ok (some p, _) => validatePolicy L "service" p

/-- Candidate of a placement decision: one version and one architecture of the
service the business policy names. -/
structure Candidate where
  Version : String
  Arch : String
  deriving DecidableEq, Repr

/-- Modelled from the spec: the architectures of step 5 for one declared version:
the declared architecture, or for the wildcard the architectures of the service
definitions the registry has for that url and version. When the node
architecture is known, only that architecture is kept from a wildcard expansion:
`Test_policyCompatible_with_IDs` and `Test_policyCompatible_with_Pols` get 2
entries, not 4, from two versions published on two architectures. -/
def candidateArchs (H : ExchangeHandlers) (svc : ServiceRef) (nodeArch version : String) :
    Except String (List String) :=
  if svc.Arch = "*" then
    match H.getSelectedServices svc.Name svc.Org version svc.Arch with
    | Except.error e =>
      Except.error ("Failed to get services for all archetctures for " ++ svc.Org ++ "/" ++
        svc.Name ++ " version " ++ version ++ ". " ++ e)
    | Except.ok defs =>
      Except.ok ((defs.map (fun kv => kv.2.Arch)).filter (fun a => nodeArch = "" ∨ a = nodeArch))
  else
    Except.ok [svc.Arch]

/-- Modelled from the spec: step 5 of `policyCompatible`: the candidates, version by
version in declaration order; a registry failure fails the enumeration (step 7). -/
def enumerateCandidates (H : ExchangeHandlers) (svc : ServiceRef) (nodeArch : String) :
    List WorkloadChoice → Except String (List Candidate)
  | [] => Except.ok []
  | w :: ws =>
    match candidateArchs H svc nodeArch w.Version with
    | Except.error e => Except.error e
    | Except.ok archs =>
      match enumerateCandidates H svc nodeArch ws with
      | Except.error e => Except.error e
      | Except.ok rest => Except.ok (archs.map (fun a => Candidate.mk w.Version a) ++ rest)

/-- Verdict recorded for one candidate: identity, compatibility, reason. -/
structure CandidateResult where
  Id : String
  Compatible : Bool
  Reason : String
  deriving DecidableEq, Repr

/-- Modelled from the spec: the body of step 6 of `policyCompatible` for one
candidate: the service policy is merged with the identity properties of exactly
this candidate and `CheckPolicyCompatiblility` decides. A candidate whose
architecture is not the known node architecture is recorded as incompatible
with `Architecture does not match` (`Test_policyCompatible_with_IDs`). -/
def checkCandidate (L : ConstraintLanguage) (H : ExchangeHandlers) (input : PolicyCompInput)
    (nodePol : Option ExternalPolicy) (bp : BusinessPolicy) (nodeArch : String) (c : Candidate) :
    Except String CandidateResult :=
  let sId := serviceIdentity bp.Service.Org bp.Service.Name c.Version c.Arch
  if nodeArch ≠ "" ∧ c.Arch ≠ nodeArch then
    Except.ok ⟨sId, false, INCOMPATIBLE ++ ": " ++ "Architecture does not match."⟩
  else
    match getServicePolicy L H input bp.Service.Name bp.Service.Org c.Version c.Arch with
    | Except.error e => Except.error e
    | Except.ok sPol =>
      match CheckPolicyCompatiblility L nodePol (some (BusinessPolicy.toExternalPolicy bp))
          (some (AddDefaultPropertiesToServicePolicy sPol
            (some (CreateServiceBuiltInPolicy bp.Service.Name bp.Service.Org c.Version c.Arch))))
          nodeArch with
      | Except.error e => Except.error e
      | Except.ok (true, _, _, _) => Except.ok ⟨sId, true, COMPATIBLE⟩
      | Except.ok (false, reason, _, _) => Except.ok ⟨sId, false, INCOMPATIBLE ++ ": " ++ reason⟩

/-- Modelled from the spec: the loop of step 6 of `policyCompatible`: candidates are
evaluated in enumeration order; without `checkAll` the loop stops after the
first candidate evaluated, whatever its outcome. -/
def checkCandidates (L : ConstraintLanguage) (H : ExchangeHandlers) (input : PolicyCompInput)
    (nodePol : Option ExternalPolicy) (bp : BusinessPolicy) (nodeArch : String) (checkAll : Bool) :
    List Candidate → Except String (List CandidateResult)
  | [] => Except.ok []
  | c :: cs =>
    match checkCandidate L H input nodePol bp nodeArch c with
    | Except.error e => Except.error e
    | Except.ok r =>
      if checkAll then
        match checkCandidates L H input nodePol bp nodeArch checkAll cs with
        | Except.error e => Except.error e
        | Except.ok rs => Except.ok (r :: rs)
      else
        Except.ok [r]

/-- The reason map after recording a list of verdicts in order, starting from `m`:
one assignment `m[id] = reason` per verdict. -/
def recordReasons (results : List CandidateResult) (m : List (String × String)) :
    List (String × String) :=
  results.foldl (fun m r => mapInsert m r.Id r.Reason) m

/-- Output built from the recorded verdicts: the AND of the verdicts and the map
from identity to reason. -/
def NewPolicyCompOutput (results : List CandidateResult) : PolicyCompOutput :=
  { Compatible := results.all (fun r => r.Compatible),
    Reason := recordReasons results [] }

/-- Modelled from the spec: steps 1 to 5 of `policyCompatible` followed by the
evaluation of every candidate: the candidates of a request and their verdicts. -/
def candidateResults (L : ConstraintLanguage) (H : ExchangeHandlers) (input : PolicyCompInput)
    (checkAll : Bool) : Except String (List Candidate × List CandidateResult) :=
  match resolveNodeArch H input with
  | Except.error e => Except.error e
  | Except.ok nodeArch =>
    match getNodePolicy L H input with
    | Except.error e => Except.error e
    | Except.ok nodePol =>
      match getBusinessPolicy L H input with
      | Except.error e => Except.error e
      | Except.ok bp =>
        match enumerateCandidates H bp.Service nodeArch bp.Service.ServiceVersions with
        | Except.error e => Except.error e
        | Except.ok cands =>
          match checkCandidates L H input nodePol bp nodeArch checkAll cands with
          | Except.error e => Except.error e
          | Except.ok results => Except.ok (cands, results)

/-- Modelled from the spec: `compcheck.policyCompatible` (section 4.4;
`compcheck/policy_check.go` is not among the sources): node architecture, node
policy, business policy, candidate enumeration, then one decision per candidate
and the aggregation of the recorded verdicts. -/
def policyCompatible (L : ConstraintLanguage) (H : ExchangeHandlers) (input : PolicyCompInput)
    (checkAll : Bool) : Except String PolicyCompOutput :=
  match candidateResults L H input checkAll with
  | Except.error e => Except.error e
  | Except.ok cr => Except.ok (NewPolicyCompOutput cr.2)

/-! ## User-input validation (`cli/exchange/node.go`) -/

/-- Supplied input of a user input (`policy.Input`); the value is any JSON value. -/
structure Input (V : Type) where
  Name : String
  Value : V

/-- Rendering of a string slice by `%v`: `[a b c]`. -/
def sprintNames (names : List String) : String :=
  "[" ++ String.intercalate " " names ++ "]"

/-- Loop over the supplied inputs in `compareUserInput`, with the names collected so far. -/
def compareUserInputLoop {V : Type} (verifyWorkloadVarTypes : V → String → Option String)
    (serviceUserInputsMap : List (String × UserInput)) :
    List (Input V) → List String → Bool × Option String
  | [], inputNameNotDefinedInService =>
    if inputNameNotDefinedInService.length ≠ 0 then
      (true, some ("The following variables are not defined in userInput for service in its highest version: "
        ++ sprintNames inputNameNotDefinedInService ++ " \n"))
    else
      (true, none)
  | policyInput :: rest, inputNameNotDefinedInService =>
    match mapLookup serviceUserInputsMap policyInput.Name with
    | none =>
      compareUserInputLoop verifyWorkloadVarTypes serviceUserInputsMap rest
        (inputNameNotDefinedInService ++ [policyInput.Name])
    | some serviceInput =>
      match verifyWorkloadVarTypes policyInput.Value serviceInput.Type_ with
      | some err =>
        (false, some ("Error validating the type of userInput variable " ++ policyInput.Name ++
          ". error: " ++ err))
      | none =>
        compareUserInputLoop verifyWorkloadVarTypes serviceUserInputsMap rest
          inputNameNotDefinedInService

/-- Map from name to declared input built by the first loop of `compareUserInput`. -/
def serviceUserInputsMap (sdefUserInputs : List UserInput) : List (String × UserInput) :=
  sdefUserInputs.foldl (fun m serviceInput => mapInsert m serviceInput.Name serviceInput) []

/-- `compareUserInput` of `cli/exchange/node.go`. The type check
`cutil.VerifyWorkloadVarTypes` is not among the sources and is a parameter; it
gives `none` when the value has the declared type and the error text otherwise.
The result is `(ok, error)`. -/
def compareUserInput {V : Type} (verifyWorkloadVarTypes : V → String → Option String)
    (sdefUserInputs : List UserInput) (cmdUserInputs : List (Input V)) : Bool × Option String :=
  compareUserInputLoop verifyWorkloadVarTypes (serviceUserInputsMap sdefUserInputs)
    cmdUserInputs []

/-- The input a service declares under a name: the last entry of that name in the
declaration list, which is the one the map of `compareUserInput` keeps. -/
def declaredInput (sdefUserInputs : List UserInput) (name : String) : Option UserInput :=
  sdefUserInputs.reverse.find? (fun u => u.Name == name)

/-- A type check for the examples, in the manner of `cutil.VerifyWorkloadVarTypes`:
a value is checked against the declared type by its constructor. -/
def exampleVerifyWorkloadVarTypes (v : PropertyValue) (expectedType : String) : Option String :=
  match v, expectedType with
  | PropertyValue.str _, "string" => none
  | PropertyValue.int _, "int" => none
  | PropertyValue.bool _, "boolean" => none
  | PropertyValue.list _, "list of strings" => none
  | _, t => some ("type mismatch, expecting " ++ t)

/-- Supplied user input for one service (`policy.UserInput`). -/
structure policy.UserInput (V : Type) where
  ServiceOrgid : String := ""
  ServiceUrl : String := ""
  ServiceArch : String := ""
  ServiceVersionRange : String := ""
  Inputs : List (Input V) := []

/-- One version of a service a pattern names (`ServiceChoice`), with the field this
code reads. -/
structure ServiceChoice where
  Version : String
  deriving DecidableEq, Repr

/-- Top-level service of a pattern (`ServiceReference`), with the fields this code
reads. -/
structure ServiceReference where
  ServiceURL : String
  ServiceOrg : String
  ServiceArch : String := ""
  ServiceVersions : List ServiceChoice := []
  deriving DecidableEq, Repr

/-- The operations of package `semanticversion` this code calls; the package is not
among the sources and is a parameter. `VE` is the type of a version expression;
`IntersectsWith` gives `none` when the two expressions intersect and the error
text otherwise, and its argument is `none` for the nil expression a failed
`Version_Expression_Factory` leaves behind. -/
structure SemanticVersion (VE : Type) where
  Version_Expression_Factory : String → Except String VE
  Is_within_range : VE → String → Bool
  IntersectsWith : VE → Option VE → Option String
  Get_expression : VE → String

/-- What `ValidateUserInput` reads from outside: the type check of
`cutil.VerifyWorkloadVarTypes`, package `semanticversion`, and the service
resolver `exchange.GetHTTPServiceDefResolverHandler(ec)`, applied to
`(url, org, version, arch)` and giving the service definition (nil when `none`)
and the error (nil when `none`). -/
structure ValidationEnv (V VE : Type) where
  VerifyWorkloadVarTypes : V → String → Option String
  sv : SemanticVersion VE
  serviceDefResolverHandler :
    String → String → String → String → Option ServiceDefinition × Option String

/-- `sliceContains` of `cli/exchange/node.go`. -/
def sliceContains (sliceToCheck : List String) (elem : String) : Bool :=
  match sliceToCheck with
  | [] => false
  | e :: rest => if e = elem then true else sliceContains rest elem

/-- Loop over the declared inputs in `checkDefaultValueInServiceUserInput`. -/
def checkDefaultValueLoop (cmdUserInputNames : List String) :
    List UserInput → Bool × Option String
  | [] => (true, none)
  | serviceInput :: rest =>
    if serviceInput.DefaultValue = "" then
      if sliceContains cmdUserInputNames serviceInput.Name then
        checkDefaultValueLoop cmdUserInputNames rest
      else
        (false, some (serviceInput.Name ++
          " needs to be set in userInput because it has no default value."))
    else
      checkDefaultValueLoop cmdUserInputNames rest

/-- `checkDefaultValueInServiceUserInput` of `cli/exchange/node.go`; the result is
`(ok, error)`. -/
def checkDefaultValueInServiceUserInput {V : Type} (sdefUserInputs : List UserInput)
    (cmdUserInputs : List (Input V)) : Bool × Option String :=
  checkDefaultValueLoop (cmdUserInputs.map (fun u => u.Name)) sdefUserInputs

/-- `cmdInputsContains` of `cli/exchange/node.go`; the result is `(found, error)`. -/
def cmdInputsContains {V : Type} (cmdInputs : List (Input V)) (serviceInputName : String) :
    Bool × Option String :=
  match cmdInputs with
  | [] =>
    (false, some (serviceInputName ++
      " needs to be set in userInput because it has no default value."))
  | input :: rest =>
    if input.Name = serviceInputName then (true, none) else cmdInputsContains rest serviceInputName

/-- The loop `for _, emptyDefaultValue := range emptyDefaultValueUserInput` of
`ValidateUserInput` and `checkDependentServices`: the error of the first recorded
input that `cmdInputsContains` does not find, `none` when all are found. -/
def emptyDefaultValuesLoop {V : Type} (cmdInputs : List (Input V)) :
    List UserInput → Option String
  | [] => none
  | emptyDefaultValue :: rest =>
    match cmdInputsContains cmdInputs emptyDefaultValue.Name with
    | (false, err) => some (err.getD "<nil>")
    | (true, _) => emptyDefaultValuesLoop cmdInputs rest

/-- The default-value check `ValidateUserInput` makes for a top-level service and
`checkDependentServices` for a required service, under the key `<org>/<url>`:
`none` when the check passes, otherwise the error returned. -/
def defaultValueCheck {V : Type} (userInputsMap : List (String × policy.UserInput V))
    (userInputWithEmptyDefaultValueMap : List (String × List UserInput)) (org url : String) :
    Option String :=
  match mapLookup userInputWithEmptyDefaultValueMap (org ++ "/" ++ url) with
  | none => none
  | some emptyDefaultValueUserInput =>
    match mapLookup userInputsMap (org ++ "/" ++ url) with
    | none =>
      some (org ++ " " ++ url ++
        " has userInput that need to be set because they have no default value.")
    | some u => emptyDefaultValuesLoop u.Inputs emptyDefaultValueUserInput

/-- The version range a walk uses for a required service: `0.0.0` when none is
declared. -/
def normalizeVersionRange (versionRange : String) : String :=
  if versionRange = "" then "0.0.0" else versionRange

/-- The expression `Version_Expression_Factory` leaves in the variable when its
error is ignored: nil after a failure. -/
def versionExpOrNil {VE : Type} (sv : SemanticVersion VE) (versionRange : String) : Option VE :=
  match sv.Version_Expression_Factory versionRange with
  | Except.ok e => some e
  | Except.error _ => none

/-- State of a dependency walk: the shared flag `foundMatchService[0]`, and a count
of the resolver calls made so far (a ghost counter, not in the source). -/
structure WalkState where
  foundMatchService : Bool
  resolverCalls : Nat := 0
  deriving DecidableEq, Repr

/-- The loop over `dependentServices` in `checkDependentServices`; `recurse` is the
recursive call on a resolved required service. The result is the three results
of `checkDependentServices` and the state after it; `none` when the recursive
call does not return. -/
def checkDependentServicesLoop {V VE : Type} (E : ValidationEnv V VE)
    (serviceOrg serviceUrl : String) (serviceVersionExp : VE)
    (userInputsMap : List (String × policy.UserInput V))
    (userInputWithEmptyDefaultValueMap : List (String × List UserInput))
    (recurse : ServiceDefinition → WalkState → Option (Bool × Bool × Option String × WalkState)) :
    List ServiceDependency → WalkState → Option (Bool × Bool × Option String × WalkState)
  | [], st =>
    if st.foundMatchService then
      some (true, true, none, st)
    else
      some (false, true,
        some ("Service " ++ serviceOrg ++ ", " ++ serviceUrl ++ ", " ++
          E.sv.Get_expression serviceVersionExp ++ " does not define a dependent service"), st)
  | dependentService :: rest, st =>
    match E.serviceDefResolverHandler dependentService.URL dependentService.Org
        (normalizeVersionRange dependentService.VersionRange) dependentService.Arch with
    | (some dsdef, none) =>
      match defaultValueCheck userInputsMap userInputWithEmptyDefaultValueMap
          dependentService.Org dependentService.URL with
      | some err =>
        some (st.foundMatchService, false, some err,
          { st with resolverCalls := st.resolverCalls + 1 })
      | none =>
        match recurse dsdef
            { foundMatchService :=
                if serviceOrg = dependentService.Org ∧ serviceUrl = dependentService.URL ∧
                    E.sv.IntersectsWith serviceVersionExp
                      (versionExpOrNil E.sv (normalizeVersionRange dependentService.VersionRange))
                      = none
                then true else st.foundMatchService,
              resolverCalls := st.resolverCalls + 1 } with
        | none => none
        | some (_, false, err, st2) => some (st2.foundMatchService, false, err, st2)
        | some (_, true, _, st2) =>
          checkDependentServicesLoop E serviceOrg serviceUrl serviceVersionExp userInputsMap
            userInputWithEmptyDefaultValueMap recurse rest st2
    | _ =>
      some (false, true,
        some ("service does not exist " ++ dependentService.Org ++ ", " ++ dependentService.URL ++
          ", " ++ dependentService.Arch ++ ", " ++
          normalizeVersionRange dependentService.VersionRange),
        { st with resolverCalls := st.resolverCalls + 1 })

/-- `checkDependentServices` of `cli/exchange/node.go`. The results are the first
bool (the service is defined among the required services), the second bool (the
default-value check passed), the error, and the state after the call. The
recursion of the source is not bounded; `fuel` bounds its depth here and the
result is `none` when the bound is reached, so a walk that returns in the source
is a walk that returns here for some `fuel`. `patternUserInputsMap` is passed
along and never read, as in the source. -/
def checkDependentServices {V VE : Type} (E : ValidationEnv V VE)
    (serviceOrg serviceUrl : String) (serviceVersionExp : VE)
    (userInputsMap patternUserInputsMap : List (String × policy.UserInput V))
    (userInputWithEmptyDefaultValueMap : List (String × List UserInput)) :
    Nat → ServiceDefinition → WalkState → Option (Bool × Bool × Option String × WalkState)
  | 0, _, _ => none
  | fuel + 1, servToCheckDependentService, st =>
    if servToCheckDependentService.RequiredServices.length = 0 then
      if st.foundMatchService then
        some (true, true, none, st)
      else
        some (false, true,
          some ("No dependent service for service " ++ servToCheckDependentService.Owner ++ ", " ++
            servToCheckDependentService.URL ++ ", " ++ servToCheckDependentService.Arch ++ ", " ++
            servToCheckDependentService.Version), st)
    else
      checkDependentServicesLoop E serviceOrg serviceUrl serviceVersionExp userInputsMap
        userInputWithEmptyDefaultValueMap
        (fun d s =>
          checkDependentServices E serviceOrg serviceUrl serviceVersionExp userInputsMap
            patternUserInputsMap userInputWithEmptyDefaultValueMap fuel d s)
        servToCheckDependentService.RequiredServices st

/-- The loop over `topLevelService.ServiceVersions` in `ValidateUserInput`, on the
variables `sdef` and `foundService`; an error is the `toplevel service does not
exist` return. -/
def topLevelVersionsLoop {V VE : Type} (E : ValidationEnv V VE) (vExp : VE)
    (topLevelService : ServiceReference) :
    List ServiceChoice → ServiceDefinition × Bool → Except String (ServiceDefinition × Bool)
  | [], s => Except.ok s
  | topLevelServiceVersion :: rest, s =>
    if E.sv.Is_within_range vExp topLevelServiceVersion.Version then
      match E.serviceDefResolverHandler topLevelService.ServiceURL topLevelService.ServiceOrg
          topLevelServiceVersion.Version topLevelService.ServiceArch with
      | (some sdef, none) => topLevelVersionsLoop E vExp topLevelService rest (sdef, true)
      | _ =>
        Except.error ("toplevel service does not exist " ++ topLevelService.ServiceOrg ++ ", " ++
          topLevelService.ServiceURL ++ ", " ++ topLevelService.ServiceArch ++ ", " ++
          topLevelServiceVersion.Version)
    else
      topLevelVersionsLoop E vExp topLevelService rest s

/-- The loop over `topLevelServices` in `ValidateUserInput`, on the variables `sdef`
and `foundService`, followed by the test of `foundService` after the loop. The
result is `none` when the source does not return: `ServiceVersions[0]` of a
top-level service without versions, or a walk that does not return. -/
def topLevelServicesLoop {V VE : Type} (E : ValidationEnv V VE) (fuel : Nat)
    (userInput : policy.UserInput V) (nodePattern : String) (vExp : VE) (warningMessage : String)
    (userInputsMap patternUserInputsMap : List (String × policy.UserInput V))
    (userInputWithEmptyDefaultValueMap : List (String × List UserInput)) :
    List ServiceReference → ServiceDefinition × Bool → Option (Bool × String × Option String)
  | [], s =>
    if s.2 then
      some (true, warningMessage, none)
    else
      some (false, warningMessage,
        some ("Service " ++ userInput.ServiceOrgid ++ " " ++ userInput.ServiceUrl ++ " " ++
          userInput.ServiceArch ++ " " ++ E.sv.Get_expression vExp ++
          " in userInput is not defined in pattern " ++ nodePattern ++
          " or its dependent services"))
  | topLevelService :: rest, s =>
    match topLevelService.ServiceVersions with
    | [] => none
    | first :: _ =>
      match E.serviceDefResolverHandler topLevelService.ServiceURL topLevelService.ServiceOrg
          first.Version topLevelService.ServiceArch with
      | (some _, none) =>
        match defaultValueCheck userInputsMap userInputWithEmptyDefaultValueMap
            topLevelService.ServiceOrg topLevelService.ServiceURL with
        | some err => some (false, warningMessage, some err)
        | none =>
          match (if userInput.ServiceOrgid = topLevelService.ServiceOrg ∧
                    userInput.ServiceUrl = topLevelService.ServiceURL then
                  topLevelVersionsLoop E vExp topLevelService topLevelService.ServiceVersions s
                else Except.ok s) with
          | Except.error err => some (false, warningMessage, some err)
          | Except.ok s2 =>
            match checkDependentServices E userInput.ServiceOrgid userInput.ServiceUrl vExp
                userInputsMap patternUserInputsMap userInputWithEmptyDefaultValueMap fuel s2.1
                { foundMatchService := false } with
            | none => none
            | some (_, false, err, _) => some (false, warningMessage, err)
            | some (findMatchInDepService, true, _, _) =>
              topLevelServicesLoop E fuel userInput nodePattern vExp warningMessage userInputsMap
                patternUserInputsMap userInputWithEmptyDefaultValueMap rest
                (s2.1, s2.2 || findMatchInDepService)
      | _ =>
        some (false, warningMessage,
          some ("toplevel service does not exist " ++ topLevelService.ServiceOrg ++ ", " ++
            topLevelService.ServiceURL ++ ", " ++ topLevelService.ServiceArch ++ ", " ++
            first.Version))

/-- The variable `warningMessage` of `ValidateUserInput` after `compareUserInput`
returned `ok = true` with the error `err`: empty when `err` is nil. -/
def compareWarningMessage {V : Type} (userInput : policy.UserInput V) (err : Option String) :
    String :=
  match err with
  | some w =>
    "For service " ++ userInput.ServiceOrgid ++ " " ++ userInput.ServiceUrl ++ " " ++
      userInput.ServiceArch ++ ", got warning message: " ++ w
  | none => ""

/-- `ValidateUserInput` of `cli/exchange/node.go`; the result is `(validated, warning,
error)`, and `none` when the source does not return. The arguments `org` and
`credToUse` only select the resolver, which is in `E`; `fuel` bounds the depth
of the dependency walks. -/
def ValidateUserInput {V VE : Type} (E : ValidationEnv V VE) (fuel : Nat)
    (userInput : policy.UserInput V) (nodePattern : String)
    (topLevelServices : List ServiceReference)
    (userInputsMap patternUserInputsMap : List (String × policy.UserInput V))
    (userInputWithEmptyDefaultValueMap : List (String × List UserInput)) :
    Option (Bool × String × Option String) :=
  match E.sv.Version_Expression_Factory (normalizeVersionRange userInput.ServiceVersionRange) with
  | Except.error err =>
    some (false, "",
      some ("versionRange " ++ userInput.ServiceVersionRange ++
        " cannot be converted to a version expression, error " ++ err))
  | Except.ok vExp =>
    match E.serviceDefResolverHandler userInput.ServiceUrl userInput.ServiceOrgid
        (normalizeVersionRange userInput.ServiceVersionRange) userInput.ServiceArch with
    | (some sdef, none) =>
      match compareUserInput E.VerifyWorkloadVarTypes sdef.UserInputs userInput.Inputs with
      | (false, err) =>
        some (false, "",
          some ("Failed to compare given userInput with service userInput, error: " ++
            err.getD "<nil>"))
      | (true, err) =>
        if topLevelServices.length ≠ 0 then
          topLevelServicesLoop E fuel userInput nodePattern vExp
            (compareWarningMessage userInput err)
            userInputsMap patternUserInputsMap userInputWithEmptyDefaultValueMap
            topLevelServices (sdef, false)
        else
          match checkDefaultValueInServiceUserInput sdef.UserInputs userInput.Inputs with
          | (false, err2) =>
            some (true, compareWarningMessage userInput err ++ "Warning: " ++ err2.getD "<nil>",
              none)
          | (true, _) =>
            some (true, compareWarningMessage userInput err, none)
    | (_, err) => some (false, "", err)

/-- The supplied names the service does not declare, in supplied order. -/
def undeclaredInputNames {V : Type} (sdefUserInputs : List UserInput)
    (cmdUserInputs : List (Input V)) : List String :=
  (cmdUserInputs.filter (fun i => (declaredInput sdefUserInputs i.Name).isNone)).map
    (fun i => i.Name)

/-- The resolver finds the definition `d` for a required service: the call
`checkDependentServices` makes for it gives `d` and no error. -/
def resolvesTo {V VE : Type} (E : ValidationEnv V VE) (dep : ServiceDependency)
    (d : ServiceDefinition) : Prop :=
  E.serviceDefResolverHandler dep.URL dep.Org (normalizeVersionRange dep.VersionRange) dep.Arch =
    (some d, none)

/-- The required services reachable from a service definition through
`RequiredServices`: those it declares, and those reachable from the definition
one of them resolves to. -/
inductive ReachableDependency {V VE : Type} (E : ValidationEnv V VE) :
    ServiceDefinition → ServiceDependency → Prop
  | direct (root : ServiceDefinition) (dep : ServiceDependency) :
      dep ∈ root.RequiredServices → ReachableDependency E root dep
  | through (root : ServiceDefinition) (via : ServiceDependency) (d : ServiceDefinition)
      (dep : ServiceDependency) :
      via ∈ root.RequiredServices → resolvesTo E via d → ReachableDependency E d dep →
      ReachableDependency E root dep

/-- The graph below a service definition is finite and acyclic: every chain of
required services that starts at it ends after fewer than `n` steps. -/
def WalkDepth {V VE : Type} (E : ValidationEnv V VE) : Nat → ServiceDefinition → Prop
  | 0, _ => False
  | n + 1, root => ∀ dep ∈ root.RequiredServices, ∀ d, resolvesTo E dep d → WalkDepth E n d

/-- A required service matches the identity under validation: same org and url, and
a declared version range that intersects the version expression of the user
input. -/
def matchesDependency {V VE : Type} (E : ValidationEnv V VE) (serviceOrg serviceUrl : String)
    (serviceVersionExp : VE) (dep : ServiceDependency) : Prop :=
  serviceOrg = dep.Org ∧ serviceUrl = dep.URL ∧
    E.sv.IntersectsWith serviceVersionExp
      (versionExpOrNil E.sv (normalizeVersionRange dep.VersionRange)) = none

/-- A required service with its version range written out: `0.0.0` for an empty
range. -/
def normalizeDependency (dep : ServiceDependency) : ServiceDependency :=
  { dep with VersionRange := normalizeVersionRange dep.VersionRange }

/-! ## Node update (`NodeUpdate` of `cli/exchange/node.go`) -/

/-- The inner loop of `checkUserInputDefaultValueNotEmpty`: the pattern's input for
the service, when there is one, has an input of this name. -/
def patternInputsContain {V : Type} (patternUserInput : Option (policy.UserInput V))
    (name : String) : Bool :=
  match patternUserInput with
  | none => false
  | some p => p.Inputs.any (fun patternInput => decide (patternInput.Name = name))

/-- `checkUserInputDefaultValueNotEmpty` of `cli/exchange/node.go`; the map it updates
in place is passed in and returned. -/
def checkUserInputDefaultValueNotEmpty {V : Type} (org : String)
    (sdef : Option ServiceDefinition) (patternUserInput : Option (policy.UserInput V))
    (userInputWithEmptyDefaultValueMap : List (String × List UserInput)) :
    List (String × List UserInput) :=
  match sdef with
  | none => userInputWithEmptyDefaultValueMap
  | some sdef =>
    sdef.UserInputs.foldl
      (fun m u =>
        if u.DefaultValue = "" ∧ patternInputsContain patternUserInput u.Name = false then
          match mapLookup m (org ++ "/" ++ sdef.URL) with
          | some emptyDefaultValueNames =>
            mapInsert m (org ++ "/" ++ sdef.URL) (emptyDefaultValueNames ++ [u])
          | none => mapInsert m (org ++ "/" ++ sdef.URL) []
        else m)
      userInputWithEmptyDefaultValueMap

/-- The loop over `dependentServices` in `checkDependentServiceEmptyDefaultValue`;
`recurse` is the recursive call. The result is the map after the loop and the
error, `none` when the recursive call does not return. -/
def checkDependentServiceEmptyDefaultValueLoop {V : Type}
    (serviceHandler : String → String → String → String → Option ServiceDefinition × Option String)
    (patternUserInputsMap : List (String × policy.UserInput V))
    (recurse : ServiceDefinition → List (String × List UserInput) →
      Option (List (String × List UserInput) × Option String)) :
    List ServiceDependency → List (String × List UserInput) →
      Option (List (String × List UserInput) × Option String)
  | [], m => some (m, none)
  | dependentService :: rest, m =>
    match serviceHandler dependentService.URL dependentService.Org dependentService.VersionRange
        dependentService.Arch with
    | (some dsdef, none) =>
      match recurse dsdef
          (checkUserInputDefaultValueNotEmpty dependentService.Org (some dsdef)
            (mapLookup patternUserInputsMap (dependentService.Org ++ "/" ++ dependentService.URL))
            m) with
      | none => none
      | some (m2, some err) => some (m2, some err)
      | some (m2, none) =>
        checkDependentServiceEmptyDefaultValueLoop serviceHandler patternUserInputsMap recurse
          rest m2
    | _ =>
      some (m,
        some ("service does not exist " ++ dependentService.Org ++ ", " ++ dependentService.URL ++
          ", " ++ dependentService.Arch ++ ", " ++ dependentService.VersionRange))

/-- `checkDependentServiceEmptyDefaultValue` of `cli/exchange/node.go`: the map after
the call and the error. `fuel` bounds the depth of the recursion, and the result
is `none` when the bound is reached. -/
def checkDependentServiceEmptyDefaultValue {V : Type}
    (serviceHandler : String → String → String → String → Option ServiceDefinition × Option String)
    (patternUserInputsMap : List (String × policy.UserInput V)) :
    Nat → ServiceDefinition → List (String × List UserInput) →
      Option (List (String × List UserInput) × Option String)
  | 0, _, _ => none
  | fuel + 1, servToCheckDependentService, m =>
    if servToCheckDependentService.RequiredServices.length = 0 then
      some (m, none)
    else
      checkDependentServiceEmptyDefaultValueLoop serviceHandler patternUserInputsMap
        (fun d m2 =>
          checkDependentServiceEmptyDefaultValue serviceHandler patternUserInputsMap fuel d m2)
        servToCheckDependentService.RequiredServices m

/-- `getUserInputWithEmptyDefaultValue` of `cli/exchange/node.go`: the map after the
call and the error; `none` when the source does not return (`ServiceVersions[0]`
of a top-level service without versions, or a walk that does not return). -/
def getUserInputWithEmptyDefaultValue {V : Type}
    (serviceHandler : String → String → String → String → Option ServiceDefinition × Option String)
    (fuel : Nat) (patternUserInputsMap : List (String × policy.UserInput V)) :
    List ServiceReference → List (String × List UserInput) →
      Option (List (String × List UserInput) × Option String)
  | [], m => some (m, none)
  | topLevelService :: rest, m =>
    match topLevelService.ServiceVersions with
    | [] => none
    | first :: _ =>
      match serviceHandler topLevelService.ServiceURL topLevelService.ServiceOrg first.Version
          topLevelService.ServiceArch with
      | (some sdef, none) =>
        match checkDependentServiceEmptyDefaultValue serviceHandler patternUserInputsMap fuel sdef
            (checkUserInputDefaultValueNotEmpty topLevelService.ServiceOrg (some sdef)
              (mapLookup patternUserInputsMap
                (topLevelService.ServiceOrg ++ "/" ++ topLevelService.ServiceURL))
              m) with
        | none => none
        | some (m2, some err) => some (m2, some err)
        | some (m2, none) =>
          getUserInputWithEmptyDefaultValue serviceHandler fuel patternUserInputsMap rest m2
      | _ =>
        some (m,
          some ("toplevel service does not exist " ++ topLevelService.ServiceOrg ++ ", " ++
            topLevelService.ServiceURL ++ ", " ++ topLevelService.ServiceArch ++ ", " ++
            first.Version))

/-- Pattern of the Exchange (`ExchangePatterns`), with the fields `NodeUpdate` reads. -/
structure ExchangePattern (V : Type) where
  Services : List ServiceReference := []
  UserInput : List (policy.UserInput V) := []

/-- Request of `compcheck.UserInputCompatible` (`compcheck.UserInputCheck`), with the
fields `verifyNodeUserInput` sets. -/
structure UserInputCheck (V : Type) where
  NodeId : String
  NodeArch : String
  NodeUserInput : List (policy.UserInput V)
  PatternId : String

/-- Result of `compcheck.UserInputCompatible`. -/
structure CompCheckOutput where
  Compatible : Bool
  Reason : List (String × String) := []
  deriving DecidableEq, Repr

/-- Value of an attribute in the body of a PATCH request. -/
inductive PatchValue (V HB : Type) where
  | userInput (ui : List (policy.UserInput V))
  | pattern (pattern : String)
  | heartbeatIntervals (hb : HB)

/-- What a run of `NodeUpdate` does to the outside: a warning printed by
`cliutils.Warning`, or a PATCH request for the node with the given body. -/
inductive Effect (V HB : Type) where
  | warning (msg : String)
  | patch (body : List (String × PatchValue V HB))

/-- A run of `NodeUpdate`: its effects in order, and the message of the
`cliutils.Fatal` that ended it, `none` when the function returned. -/
structure Run (V HB : Type) where
  effects : List (Effect V HB)
  fatal : Option String

/-- What `NodeUpdate` reads from outside, none of it among the sources: the
environment of `ValidateUserInput`; the service handler
`exchange.GetHTTPServiceHandler(ec)`; `cliutils.TrimOrg`; the two GET requests,
which give the HTTP code and the nodes or patterns of the response;
`json.Unmarshal` of an attribute value (of type `J`) into the three attribute
types, with `%s` of the value for the messages;
`compcheck.UserInputCompatible`; and the PATCH request of
`cliutils.ExchangePutPost`, which gives the message of its `Fatal` when the
Exchange refuses it. `cliutils.Fatal` ends the process. -/
structure NodeUpdateEnv (V VE J HB : Type) where
  validation : ValidationEnv V VE
  serviceHandler : String → String → String → String → Option ServiceDefinition × Option String
  TrimOrg : String → String → String × String
  getNodes : String → String → Nat × List (String × Device)
  getPatterns : String → String → Nat × List (String × ExchangePattern V)
  unmarshalUserInput : J → Except String (List (policy.UserInput V))
  unmarshalPattern : J → Except String String
  unmarshalHeartbeatIntervals : J → Except String HB
  sprint : J → String
  UserInputCompatible : UserInputCheck V → Bool → Except String CompCheckOutput
  patch : String → String → List (String × PatchValue V HB) → Option String

/-- The variable `nodePatternString` after the loop over `nodes`. -/
def lastNodePattern (nodes : List (String × Device)) : String :=
  nodes.foldl (fun _ nod => nod.2.Pattern) ""

/-- The variables `nId` and `node` after `for id, n := range nodes` with its `break`. -/
def firstNode (nodes : List (String × Device)) : String × Device :=
  match nodes with
  | [] => ("", {})
  | n :: _ => n

/-- The map `patternUserInputsMap` that `NodeUpdate` builds from the user input of the
pattern. -/
def patternUserInputsMapOf {V : Type} (patternUserInputs : List (policy.UserInput V)) :
    List (String × policy.UserInput V) :=
  patternUserInputs.foldl (fun m u => mapInsert m (u.ServiceOrgid ++ "/" ++ u.ServiceUrl) u) []

/-- What `NodeUpdate` takes from the pattern of the node for `ValidateUserInput`. -/
structure PatternContext (V : Type) where
  topLevelServices : List ServiceReference := []
  patternUserInputsMap : List (String × policy.UserInput V) := []
  userInputWithEmptyDefaultValueMap : List (String × List UserInput) := []

/-- The part of `NodeUpdate` that reads the pattern of the node (lines 234 to 277):
the context for `ValidateUserInput`, or the message of the `Fatal`. -/
def patternContext {V VE J HB : Type} (X : NodeUpdateEnv V VE J HB) (org : String) (fuel : Nat)
    (nodes : List (String × Device)) (ui : List (policy.UserInput V)) :
    Option (Except String (PatternContext V)) :=
  if lastNodePattern nodes ≠ "" then
    match X.getPatterns (X.TrimOrg org (lastNodePattern nodes)).1
        (X.TrimOrg org (lastNodePattern nodes)).2 with
    | (httpCode, patterns) =>
      if httpCode = 404 then
        some (Except.error ("Pattern " ++ lastNodePattern nodes ++
          " of the node does not exist for org: " ++ (X.TrimOrg org (lastNodePattern nodes)).1 ++
          " \n"))
      else if patterns.length ≠ 1 then
        some (Except.error ("Expecting 1 pattern with name " ++ lastNodePattern nodes ++
          ", but get " ++ toString nodes.length ++ " patterns"))
      else
        match getUserInputWithEmptyDefaultValue X.serviceHandler fuel
            (patternUserInputsMapOf
              ((mapLookup patterns (lastNodePattern nodes)).getD {}).UserInput)
            ((mapLookup patterns (lastNodePattern nodes)).getD {}).Services [] with
        | none => none
        | some (m, none) =>
          if m.length ≠ 0 ∧ ui.length = 0 then
            some (Except.error
              "Userinput cannot be set to empty list because some userinputs have no default value from service and pattern ")
          else
            some (Except.ok
              { topLevelServices := ((mapLookup patterns (lastNodePattern nodes)).getD {}).Services,
                patternUserInputsMap :=
                  patternUserInputsMapOf
                    ((mapLookup patterns (lastNodePattern nodes)).getD {}).UserInput,
                userInputWithEmptyDefaultValueMap := m })
        | some (_, some err) => some (Except.error err)
  else
    some (Except.ok {})

/-- The loop of `NodeUpdate` that builds `userInputsMap` (lines 283 to 291), or the
message of its `Fatal`. -/
def userInputsMapOf {V : Type} :
    List (policy.UserInput V) → List (String × policy.UserInput V) →
      Except String (List (String × policy.UserInput V))
  | [], m => Except.ok m
  | u :: rest, m =>
    if u.ServiceOrgid = "" ∨ u.ServiceUrl = "" then
      Except.error "ServiceOrgid and ServiceUrl need to be set in userinput"
    else
      userInputsMapOf rest (mapInsert m (u.ServiceOrgid ++ "/" ++ u.ServiceUrl) u)

/-- The loop of `NodeUpdate` that validates each user input (lines 293 to 302), after
the effects made so far; `none` when a call of `ValidateUserInput` does not
return. -/
def validateUserInputs {V VE J HB : Type} (X : NodeUpdateEnv V VE J HB) (fuel : Nat)
    (nodePatternString : String) (ctx : PatternContext V)
    (userInputsMap : List (String × policy.UserInput V)) :
    List (policy.UserInput V) → List (Effect V HB) → Option (Run V HB)
  | [], effects => some ⟨effects, none⟩
  | u :: rest, effects =>
    match ValidateUserInput X.validation fuel u nodePatternString ctx.topLevelServices
        userInputsMap ctx.patternUserInputsMap ctx.userInputWithEmptyDefaultValueMap with
    | none => none
    | some (false, _, err) =>
      some ⟨effects,
        some ("Unable to validate exchange node userInput, error: " ++ err.getD "<nil>")⟩
    | some (true, warningMessage, _) =>
      validateUserInputs X fuel nodePatternString ctx userInputsMap rest
        (if warningMessage ≠ "" then
          effects ++ [Effect.warning ("validate exchange node/userinput " ++ warningMessage ++ " ")]
        else effects)

/-- `verifyNodeUserInput` of `cli/exchange/node.go`: the message of its `Fatal`, `none`
when it returns. -/
def verifyNodeUserInput {V VE J HB : Type} (X : NodeUpdateEnv V VE J HB) (node : Device)
    (nId : String) (ui : List (policy.UserInput V)) : Option String :=
  if node.Pattern = "" then
    none
  else
    match X.UserInputCompatible
        { NodeId := nId, NodeArch := node.Arch, NodeUserInput := ui, PatternId := node.Pattern }
        true with
    | Except.error err => some err
    | Except.ok compOutput =>
      if compOutput.Compatible = false then
        some "Unable to update the node because of the above error."
      else none

/-- The branch of `NodeUpdate` for the attribute `userInput`, from the check of `nodes`
to `verifyNodeUserInput` (lines 224 to 313), after the effects made so far. -/
def updateUserInput {V VE J HB : Type} (X : NodeUpdateEnv V VE J HB) (org : String) (fuel : Nat)
    (nodes : List (String × Device)) (ui : List (policy.UserInput V))
    (effects : List (Effect V HB)) : Option (Run V HB) :=
  if nodes.length ≠ 1 then
    some ⟨effects,
      some ("Expecting 1 exchange node, but get " ++ toString nodes.length ++ " nodes")⟩
  else
    match patternContext X org fuel nodes ui with
    | none => none
    | some (Except.error msg) => some ⟨effects, some msg⟩
    | some (Except.ok ctx) =>
      match ((if ui.length ≠ 0 then
              match userInputsMapOf ui [] with
              | Except.error msg => some ⟨effects, some msg⟩
              | Except.ok userInputsMap =>
                validateUserInputs X fuel (lastNodePattern nodes) ctx userInputsMap ui effects
            else some ⟨effects, none⟩) : Option (Run V HB)) with
      | none => none
      | some ⟨effects2, some msg⟩ => some ⟨effects2, some msg⟩
      | some ⟨effects2, none⟩ =>
        some ⟨effects2, verifyNodeUserInput X (firstNode nodes).2 (firstNode nodes).1 ui⟩

/-- The body of the loop over the attributes in `NodeUpdate` up to the PATCH request
(lines 212 to 330): the effects so far, and the body of the PATCH request or
the message of the `Fatal`. -/
def attributePatch {V VE J HB : Type} (X : NodeUpdateEnv V VE J HB) (org : String) (fuel : Nat)
    (nodes : List (String × Device)) (k : String) (v : J) (effects : List (Effect V HB)) :
    Option (List (Effect V HB) × Except String (List (String × PatchValue V HB))) :=
  if k = "userInput" then
    match X.unmarshalUserInput v with
    | Except.error err =>
      some (effects,
        Except.error ("failed to unmarshal attribute input " ++ X.sprint v ++ ": " ++ err))
    | Except.ok ui =>
      match updateUserInput X org fuel nodes ui effects with
      | none => none
      | some ⟨effects2, some msg⟩ => some (effects2, Except.error msg)
      | some ⟨effects2, none⟩ => some (effects2, Except.ok [(k, PatchValue.userInput ui)])
  else if k = "pattern" then
    match X.unmarshalPattern v with
    | Except.error err =>
      some (effects,
        Except.error ("failed to unmarshal pattern attribute input " ++ X.sprint v ++ ": " ++ err))
    | Except.ok pattern => some (effects, Except.ok [(k, PatchValue.pattern pattern)])
  else if k = "heartbeatIntervals" then
    match X.unmarshalHeartbeatIntervals v with
    | Except.error err =>
      some (effects,
        Except.error ("failed to unmarshal heartbeat input " ++ X.sprint v ++ ": " ++ err))
    | Except.ok hb => some (effects, Except.ok [(k, PatchValue.heartbeatIntervals hb)])
  else
    some (effects, Except.ok [])

/-- The loop over the attributes in `NodeUpdate` (lines 211 to 339), in the order in
which the map of attributes is ranged over. -/
def nodeUpdateLoop {V VE J HB : Type} (X : NodeUpdateEnv V VE J HB) (org : String) (fuel : Nat)
    (nodeOrg node : String) (nodes : List (String × Device)) :
    List (String × J) → List (Effect V HB) → Option (Run V HB)
  | [], effects => some ⟨effects, none⟩
  | (k, v) :: rest, effects =>
    match attributePatch X org fuel nodes k v effects with
    | none => none
    | some (effects2, Except.error msg) => some ⟨effects2, some msg⟩
    | some (effects2, Except.ok body) =>
      match X.patch nodeOrg node body with
      | some msg => some ⟨effects2 ++ [Effect.patch body], some msg⟩
      | none =>
        nodeUpdateLoop X org fuel nodeOrg node nodes rest (effects2 ++ [Effect.patch body])

/-- `NodeUpdate` of `cli/exchange/node.go`, up to the last PATCH request: the attributes
read from the file are `findPatchType`, in the order in which the map is ranged
over, and an attribute value passes `json.Marshal`. What follows the loop only
prints. -/
def NodeUpdate {V VE J HB : Type} (X : NodeUpdateEnv V VE J HB) (org node : String)
    (findPatchType : List (String × J)) (fuel : Nat) : Option (Run V HB) :=
  if (X.getNodes (X.TrimOrg org node).1 (X.TrimOrg org node).2).1 = 404 then
    some ⟨[], some ("Node " ++ (X.TrimOrg org node).1 ++ "/" ++ (X.TrimOrg org node).2 ++
      " not found in the Horizon Exchange.")⟩
  else
    match findPatchType.find?
        (fun kv => decide (kv.1 ≠ "userInput" ∧ kv.1 ≠ "pattern" ∧ kv.1 ≠ "heartbeatIntervals")) with
    | some kv =>
      some ⟨[], some ("Cannot update attribute " ++ kv.1 ++
        ". Supported attributes are: userInput, pattern, heartbeatIntervals.")⟩
    | none =>
      nodeUpdateLoop X org fuel (X.TrimOrg org node).1 (X.TrimOrg org node).2
        (X.getNodes (X.TrimOrg org node).1 (X.TrimOrg org node).2).2 findPatchType []

/-- The user input `ui` passed the validation of `NodeUpdate`: there is one node, the
pattern of the node was read, `userInputsMap` was built, `ValidateUserInput`
returned `validated = true` for every entry of `ui`, and `verifyNodeUserInput`
returned. -/
def UserInputValidated {V VE J HB : Type} (X : NodeUpdateEnv V VE J HB) (org : String)
    (fuel : Nat) (nodes : List (String × Device)) (ui : List (policy.UserInput V)) : Prop :=
  nodes.length = 1 ∧
  ∃ ctx userInputsMap,
    patternContext X org fuel nodes ui = some (Except.ok ctx) ∧
    userInputsMapOf ui [] = Except.ok userInputsMap ∧
    (∀ u ∈ ui, ∃ warningMessage err,
      ValidateUserInput X.validation fuel u (lastNodePattern nodes) ctx.topLevelServices
          userInputsMap ctx.patternUserInputsMap ctx.userInputWithEmptyDefaultValueMap =
        some (true, warningMessage, err)) ∧
    verifyNodeUserInput X (firstNode nodes).2 (firstNode nodes).1 ui = none

/-! ## Node policy of the Exchange (`exchange/policy.go`) -/

/-- Node policy document of the Exchange (`ExchangeNodePolicy`); `NP` is the type of
the embedded `exchangecommon.NodePolicy`, which is not among the sources. -/
structure ExchangeNodePolicy (NP : Type) where
  NodePolicy : NP
  NodePolicyVersion : String := ""
  LastUpdated : String := ""
  deriving DecidableEq, Repr

/-- What one call of `InvokeExchange` gives: the error `err`, the transport error
`tpErr`, or neither and the response it filled in. -/
inductive InvokeResult (R : Type) where
  | error (err : String)
  | transportError (tpErr : String)
  | success (resp : R)
  deriving DecidableEq, Repr

/-- What `GetNodePolicy` reads from outside, none of it among the sources: the
helpers `GetOrg`, `GetId` and `NodeCacheMapKey`, the cache of type `C` with
`GetNodePolicyFromCache` and `UpdateCache` (for the cache type
`NODE_POL_TYPE_CACHE`), the retry count of the HTTP factory, the constant
`exchangecommon.NODEPOLICY_VERSION_VERSION_2`, the field `ExternalPolicy` of a
node policy, `exchangecommon.ConvertNodePolicy_v1Tov2`, and the Exchange:
`InvokeExchange k` is what the call numbered `k` of this run gives, counted from
0. -/
structure ExchangeEnv (NP EP C : Type) where
  GetOrg : String → String
  GetId : String → String
  NodeCacheMapKey : String → String → String
  GetNodePolicyFromCache : C → String → String → Option (ExchangeNodePolicy NP)
  UpdateCache : C → String → ExchangeNodePolicy NP → C
  RetryCount : Int
  NODEPOLICY_VERSION_VERSION_2 : String
  ExternalPolicy : NP → EP
  ConvertNodePolicy_v1Tov2 : EP → NP
  InvokeExchange : Nat → InvokeResult (ExchangeNodePolicy NP)

/-- What a run of `GetNodePolicy` leaves: the two results of the function (nil when
`none`), the cache after the run, and the number of calls of `InvokeExchange`
it made. -/
structure GetNodePolicyResult (NP C : Type) where
  policy : Option (ExchangeNodePolicy NP)
  error : Option String
  cache : C
  invocations : Nat

/-- The `for` loop of `GetNodePolicy`, on the local variable `retryCount` and the
number of calls of `InvokeExchange` made so far. The loop of the source is not
bounded when `RetryCount` is 0; `fuel` bounds the number of its rounds here, and
the result is `none` when the bound is reached. -/
def getNodePolicyLoop {NP EP C : Type} (X : ExchangeEnv NP EP C) (deviceId : String) (cache : C) :
    Nat → Int → Nat → Option (GetNodePolicyResult NP C)
  | 0, _, _ => none
  | fuel + 1, retryCount, calls =>
    match X.InvokeExchange calls with
    | InvokeResult.error err => some ⟨none, some err, cache, calls + 1⟩
    | InvokeResult.transportError tpErr =>
      if X.RetryCount = 0 then
        getNodePolicyLoop X deviceId cache fuel retryCount (calls + 1)
      else if retryCount = 0 then
        some ⟨none,
          some ("Exceeded " ++ toString X.RetryCount ++ " retries for error: " ++ tpErr),
          cache, calls + 1⟩
      else
        getNodePolicyLoop X deviceId cache fuel (retryCount - 1) (calls + 1)
    | InvokeResult.success nodePolicy =>
      if nodePolicy.LastUpdated = "" then
        some ⟨none, none, cache, calls + 1⟩
      else if nodePolicy.NodePolicyVersion = "" then
        some ⟨some { NodePolicy := X.ConvertNodePolicy_v1Tov2 (X.ExternalPolicy nodePolicy.NodePolicy),
                     NodePolicyVersion := X.NODEPOLICY_VERSION_VERSION_2,
                     LastUpdated := nodePolicy.LastUpdated },
          none,
          X.UpdateCache cache (X.NodeCacheMapKey (X.GetOrg deviceId) (X.GetId deviceId))
            { NodePolicy := X.ConvertNodePolicy_v1Tov2 (X.ExternalPolicy nodePolicy.NodePolicy),
              NodePolicyVersion := X.NODEPOLICY_VERSION_VERSION_2,
              LastUpdated := nodePolicy.LastUpdated },
          calls + 1⟩
      else if nodePolicy.NodePolicyVersion = X.NODEPOLICY_VERSION_VERSION_2 then
        some ⟨some nodePolicy, none,
          X.UpdateCache cache (X.NodeCacheMapKey (X.GetOrg deviceId) (X.GetId deviceId)) nodePolicy,
          calls + 1⟩
      else
        some ⟨none, some ("Unsupported node policy version " ++ nodePolicy.NodePolicyVersion),
          cache, calls + 1⟩

/-- `GetNodePolicy` of `exchange/policy.go`, on the cache `cache`. -/
def GetNodePolicy {NP EP C : Type} (X : ExchangeEnv NP EP C) (deviceId : String) (cache : C)
    (fuel : Nat) : Option (GetNodePolicyResult NP C) :=
  match X.GetNodePolicyFromCache cache (X.GetOrg deviceId) (X.GetId deviceId) with
  | some cachedNodePol => some ⟨some cachedNodePol, none, cache, 0⟩
  | none => getNodePolicyLoop X deviceId cache fuel X.RetryCount 0

/-! ## Deleting the node policy (`DeleteNodePolicy` of `exchange/policy.go`) -/

/-- Whether the text `sub` occurs in the text `s`, on the characters. -/
def containsChars (sub : List Char) : List Char → Bool
  | [] => sub.isEmpty
  | c :: cs => sub.isPrefixOf (c :: cs) || containsChars sub cs

/-- `strings.Contains` of Go. -/
def stringsContains (s substr : String) : Bool :=
  containsChars substr.data s.data

/-- The test `err != nil && !strings.Contains(err.Error(), "status: 404")` of
`DeleteNodePolicy`. -/
def errorOtherThan404 (err : Option String) : Bool :=
  match err with
  | some e => !stringsContains e "status: 404"
  | none => false

/-- What `DeleteNodePolicy` reads from outside, none of it among the sources: the
helpers `GetOrg`, `GetId` and `NodeCacheMapKey`, the cache of type `C` with
`DeleteCacheResource` (for the cache type `NODE_POL_TYPE_CACHE`), the retry
count of the HTTP factory, and the Exchange: `InvokeExchange k` is the pair
`(err, tpErr)` that the call numbered `k` of this run gives, counted from 0. -/
structure DeleteEnv (C : Type) where
  GetOrg : String → String
  GetId : String → String
  NodeCacheMapKey : String → String → String
  DeleteCacheResource : C → String → C
  RetryCount : Int
  InvokeExchange : Nat → Option String × Option String

/-- What a run of `DeleteNodePolicy` leaves: the error it returns (nil when `none`),
the cache after the run, and the number of calls of `InvokeExchange` it made. -/
structure DeleteNodePolicyResult (C : Type) where
  error : Option String
  cache : C
  invocations : Nat

/-- The `for` loop of `DeleteNodePolicy`, on the local variable `retryCount` and the
number of calls of `InvokeExchange` made so far; `fuel` bounds the number of its
rounds, and the result is `none` when the bound is reached. -/
def deleteNodePolicyLoop {C : Type} (X : DeleteEnv C) (deviceId : String) (cache : C) :
    Nat → Int → Nat → Option (DeleteNodePolicyResult C)
  | 0, _, _ => none
  | fuel + 1, retryCount, calls =>
    if errorOtherThan404 (X.InvokeExchange calls).1 then
      some ⟨(X.InvokeExchange calls).1, cache, calls + 1⟩
    else
      match (X.InvokeExchange calls).2 with
      | some tpErr =>
        if X.RetryCount = 0 then
          deleteNodePolicyLoop X deviceId cache fuel retryCount (calls + 1)
        else if retryCount = 0 then
          some ⟨some ("Exceeded " ++ toString X.RetryCount ++ " retries for error: " ++ tpErr),
            cache, calls + 1⟩
        else
          deleteNodePolicyLoop X deviceId cache fuel (retryCount - 1) (calls + 1)
      | none =>
        some ⟨none,
          X.DeleteCacheResource cache (X.NodeCacheMapKey (X.GetOrg deviceId) (X.GetId deviceId)),
          calls + 1⟩

/-- `DeleteNodePolicy` of `exchange/policy.go`, on the cache `cache`. -/
def DeleteNodePolicy {C : Type} (X : DeleteEnv C) (deviceId : String) (cache : C) (fuel : Nat) :
    Option (DeleteNodePolicyResult C) :=
  deleteNodePolicyLoop X deviceId cache fuel X.RetryCount 0

/-- The state in which `checkDependentServices` enters the recursive call for the
required service `dep`: the match flag is set when `dep` matches the identity
under validation, and one more resolver call has been made. -/
def walkStateAfter {V VE : Type} (E : ValidationEnv V VE) (serviceOrg serviceUrl : String)
    (serviceVersionExp : VE) (dep : ServiceDependency) (st : WalkState) : WalkState :=
  { foundMatchService :=
      if serviceOrg = dep.Org ∧ serviceUrl = dep.URL ∧
          E.sv.IntersectsWith serviceVersionExp
            (versionExpOrNil E.sv (normalizeVersionRange dep.VersionRange)) = none
      then true else st.foundMatchService,
    resolverCalls := st.resolverCalls + 1 }

/-- The walk over the required services `ds`, started in the state `st` with `n` levels
of recursion left, visits a required service whose default-value check fails
with the error `e`: the failing service is the first of `ds`, or it is visited
in the walk below the first of `ds`, or the walk below the first of `ds`
returns with its second result true and the failing service is visited after
it. A required service is visited only when it resolves. -/
inductive CoverageFailureVisited {V VE : Type} (E : ValidationEnv V VE)
    (serviceOrg serviceUrl : String) (serviceVersionExp : VE)
    (userInputsMap patternUserInputsMap : List (String × policy.UserInput V))
    (emptyMap : List (String × List UserInput)) :
    Nat → List ServiceDependency → WalkState → String → Prop
  | atFirst (n : Nat) (dep : ServiceDependency) (rest : List ServiceDependency) (st : WalkState)
      (d : ServiceDefinition) (e : String) :
      resolvesTo E dep d →
      defaultValueCheck userInputsMap emptyMap dep.Org dep.URL = some e →
      CoverageFailureVisited E serviceOrg serviceUrl serviceVersionExp userInputsMap
        patternUserInputsMap emptyMap n (dep :: rest) st e
  | belowFirst (n : Nat) (dep : ServiceDependency) (rest : List ServiceDependency) (st : WalkState)
      (d : ServiceDefinition) (e : String) :
      resolvesTo E dep d →
      defaultValueCheck userInputsMap emptyMap dep.Org dep.URL = none →
      d.RequiredServices.length ≠ 0 →
      CoverageFailureVisited E serviceOrg serviceUrl serviceVersionExp userInputsMap
        patternUserInputsMap emptyMap n d.RequiredServices
        (walkStateAfter E serviceOrg serviceUrl serviceVersionExp dep st) e →
      CoverageFailureVisited E serviceOrg serviceUrl serviceVersionExp userInputsMap
        patternUserInputsMap emptyMap (n + 1) (dep :: rest) st e
  | afterFirst (n : Nat) (dep : ServiceDependency) (rest : List ServiceDependency) (st : WalkState)
      (d : ServiceDefinition) (first : Bool) (err : Option String) (st2 : WalkState)
      (e : String) :
      resolvesTo E dep d →
      defaultValueCheck userInputsMap emptyMap dep.Org dep.URL = none →
      checkDependentServices E serviceOrg serviceUrl serviceVersionExp userInputsMap
          patternUserInputsMap emptyMap n d
          (walkStateAfter E serviceOrg serviceUrl serviceVersionExp dep st) =
        some (first, true, err, st2) →
      CoverageFailureVisited E serviceOrg serviceUrl serviceVersionExp userInputsMap
        patternUserInputsMap emptyMap n rest st2 e →
      CoverageFailureVisited E serviceOrg serviceUrl serviceVersionExp userInputsMap
        patternUserInputsMap emptyMap n (dep :: rest) st e

/-- The number of edges on the paths of required services that start at a service
definition, down to `n` levels: one for each required service, and those of the
paths from the definition it resolves to. -/
def pathEdges {V VE : Type} (E : ValidationEnv V VE) : Nat → ServiceDefinition → Nat
  | 0, _ => 0
  | n + 1, root =>
    (root.RequiredServices.map
      (fun dep =>
        1 + match E.serviceDefResolverHandler dep.URL dep.Org
                (normalizeVersionRange dep.VersionRange) dep.Arch with
            | (some d, none) => pathEdges E n d
            | _ => 0)).sum

/-- The service handler finds the definition `d` for a required service: the call
`checkDependentServiceEmptyDefaultValue` makes for it, with the version range as
declared, gives `d` and no error. -/
def handlerResolvesTo
    (serviceHandler : String → String → String → String → Option ServiceDefinition × Option String)
    (dep : ServiceDependency) (d : ServiceDefinition) : Prop :=
  serviceHandler dep.URL dep.Org dep.VersionRange dep.Arch = (some d, none)

/-- The graph that the service handler serves below a service definition is finite and
acyclic: every chain of required services that starts at it ends after fewer than
`n` steps. -/
def HandlerWalkDepth
    (serviceHandler : String → String → String → String → Option ServiceDefinition × Option String) :
    Nat → ServiceDefinition → Prop
  | 0, _ => False
  | n + 1, root =>
    ∀ dep ∈ root.RequiredServices, ∀ d, handlerResolvesTo serviceHandler dep d →
      HandlerWalkDepth serviceHandler n d

/-- The number of edges on the paths of required services that start at a service
definition in the graph the service handler serves, down to `n` levels. -/
def handlerPathEdges
    (serviceHandler : String → String → String → String → Option ServiceDefinition × Option String) :
    Nat → ServiceDefinition → Nat
  | 0, _ => 0
  | n + 1, root =>
    (root.RequiredServices.map
      (fun dep =>
        1 + match serviceHandler dep.URL dep.Org dep.VersionRange dep.Arch with
            | (some d, none) => handlerPathEdges serviceHandler n d
            | _ => 0)).sum

/-- The loop of `checkDependentServiceEmptyDefaultValue` with a count of the calls of
the service handler made so far (a ghost counter, not in the source). -/
def checkDependentServiceEmptyDefaultValueCountedLoop {V : Type}
    (serviceHandler : String → String → String → String → Option ServiceDefinition × Option String)
    (patternUserInputsMap : List (String × policy.UserInput V))
    (recurse : ServiceDefinition → List (String × List UserInput) → Nat →
      Option (List (String × List UserInput) × Option String × Nat)) :
    List ServiceDependency → List (String × List UserInput) → Nat →
      Option (List (String × List UserInput) × Option String × Nat)
  | [], m, calls => some (m, none, calls)
  | dependentService :: rest, m, calls =>
    match serviceHandler dependentService.URL dependentService.Org dependentService.VersionRange
        dependentService.Arch with
    | (some dsdef, none) =>
      match recurse dsdef
          (checkUserInputDefaultValueNotEmpty dependentService.Org (some dsdef)
            (mapLookup patternUserInputsMap (dependentService.Org ++ "/" ++ dependentService.URL))
            m)
          (calls + 1) with
      | none => none
      | some (m2, some err, calls2) => some (m2, some err, calls2)
      | some (m2, none, calls2) =>
        checkDependentServiceEmptyDefaultValueCountedLoop serviceHandler patternUserInputsMap
          recurse rest m2 calls2
    | _ =>
      some (m,
        some ("service does not exist " ++ dependentService.Org ++ ", " ++ dependentService.URL ++
          ", " ++ dependentService.Arch ++ ", " ++ dependentService.VersionRange),
        calls + 1)

/-- `checkDependentServiceEmptyDefaultValue` with a count of the calls of the service
handler made so far (a ghost counter, not in the source); without the count it
is `checkDependentServiceEmptyDefaultValue`. -/
def checkDependentServiceEmptyDefaultValueCounted {V : Type}
    (serviceHandler : String → String → String → String → Option ServiceDefinition × Option String)
    (patternUserInputsMap : List (String × policy.UserInput V)) :
    Nat → ServiceDefinition → List (String × List UserInput) → Nat →
      Option (List (String × List UserInput) × Option String × Nat)
  | 0, _, _, _ => none
  | fuel + 1, servToCheckDependentService, m, calls =>
    if servToCheckDependentService.RequiredServices.length = 0 then
      some (m, none, calls)
    else
      checkDependentServiceEmptyDefaultValueCountedLoop serviceHandler patternUserInputsMap
        (fun d m2 c =>
          checkDependentServiceEmptyDefaultValueCounted serviceHandler patternUserInputsMap fuel d
            m2 c)
        servToCheckDependentService.RequiredServices m calls

/-- The declared inputs of a service that need a command-line value, in the words of
the specification: those whose default value is empty and whose name is not the
name of any input in the pattern's input for the service. -/
def inputsWithoutDefault {V : Type} (sdef : ServiceDefinition)
    (patternUserInput : Option (policy.UserInput V)) : List UserInput :=
  sdef.UserInputs.filter
    (fun u => decide (u.DefaultValue = "" ∧
      ∀ p, patternUserInput = some p → u.Name ∉ p.Inputs.map (fun i => i.Name)))

/-! ## The Helm 3 deployment plugin (`cli/helm3_deployment/helm3_deployment.go`) -/

/-- A value of type `interface{}`: nil, a string, a number, a boolean, a slice, a map
with string keys (`map[string]interface{}`, with its entries in the order of an
association list), or a value of any other dynamic type, given by the name `%T`
prints for it. -/
inductive GoValue where
  | nil
  | str (s : String)
  | num (n : Int)
  | bool (b : Bool)
  | list (items : List GoValue)
  | map (entries : List (String × GoValue))
  | other (typeName : String)

/-- What `%T` prints for a value. -/
def goTypeName : GoValue → String
  | GoValue.nil => "<nil>"
  | GoValue.str _ => "string"
  | GoValue.num _ => "float64"
  | GoValue.bool _ => "bool"
  | GoValue.list _ => "[]interface {}"
  | GoValue.map _ => "map[string]interface {}"
  | GoValue.other typeName => typeName

/-- `Helm3DeploymentConfigPlugin.DefaultClusterConfig`. -/
def Helm3DeploymentConfigPlugin.DefaultClusterConfig : GoValue :=
  GoValue.map [("chartArchive", GoValue.str ""), ("releaseName", GoValue.str "")]

/-- `Helm3DeploymentConfigPlugin.Validate`; the result is `(owned, error)`. -/
def Helm3DeploymentConfigPlugin.Validate (dep cdep : GoValue) : Bool × Option String :=
  match dep with
  | GoValue.nil =>
    match cdep with
    | GoValue.map dc =>
      match mapLookup dc "chartArchive" with
      | none => (false, none)
      | some c =>
        match mapLookup dc "releaseName" with
        | none => (false, none)
        | some r =>
          match c with
          | GoValue.str ca =>
            match r with
            | GoValue.str rn =>
              if ca.length = 0 ∨ rn.length = 0 then
                (true, some "chartArchive and releaseName must be non-empty strings")
              else
                (true, none)
            | _ =>
              (true, some ("releaseName must have a string type value, has " ++ goTypeName r))
          | _ =>
            (true, some ("chartArchive must have a string type value, has " ++ goTypeName c))
    | _ => (false, none)
  | _ => (false, none)

/-! ## Node shutdown (`governance/shutdown.go`) -/

/-- Event ids of the package `events` that the shutdown sequence uses. -/
inductive EventId where
  | ALL_STOP
  | MESSAGE_STOP
  | UNCONFIGURE_COMPLETE
deriving DecidableEq, Repr

/-- Messages of the worker's internal bus. The first three are what the functions of
the same names in the package `events` build; `Other` stands for every message that a
helper outside the sources puts on the bus. -/
inductive BusMessage where
  | NewAllBlockchainShutdownMessage (event : EventId)
  | NewMessagingShutdownMessage (event : EventId)
  | NewNodeShutdownCompleteMessage (event : EventId) (errorMessage : String)
  | Other (description : String)
deriving DecidableEq, Repr

/-- Termination reasons of the package `producer`. -/
inductive TermReason where
  | TERM_REASON_NODE_SHUTDOWN
  | TERM_REASON_NODE_PATTERN_CHANGED
deriving DecidableEq, Repr

/-- The HTTP factory handed to `patchNodeKey` and `deleteNode`: the one of
`w.limitedRetryEC` or the worker's own. -/
inductive HTTPFactory where
  | limitedRetryEC
  | worker
deriving DecidableEq, Repr

/-- What the shutdown sequence leaves behind in the worker: the messages put on
`w.Messages()` in the order they were sent, and the lines written with
`glog.Errorf` by `completedWithError` and `continueWithError`. -/
structure GovernanceWorker where
  Messages : List BusMessage := []
  errorLog : List String := []
deriving DecidableEq, Repr

/-- What one call of a helper with a loop of its own does in a run: `none` when the
call never returns, otherwise the messages it puts on the bus and the error it
returns (nil when `none`). -/
abbrev StepOutcome := Option (List BusMessage × Option String)

/-- What one run of `nodeShutdown` meets outside the functions embedded here: the
helper `logString`, the node id, `cmd.Msg.RemoveNode()`, the answers of the local
database (`FindExchangeDevice` and `FindSavedNodeExchPattern` as pairs of value and
error, the deletions as errors), the outcome of each helper of the worker at the one
call the run makes of it, and for `patchNodePattern` the Exchange: `InvokeExchange
pattern k` is the pair `(err, tpErr)` that the call numbered `k`, counted from 0,
gives to the PATCH of `pattern`. `D` is the type of the device record. -/
structure ShutdownEnv (D : Type) where
  logString : String → String
  GetExchangeId : String
  RemoveNode : Bool
  FindExchangeDevice : Option D × Option String
  FindSavedNodeExchPattern : String × Option String
  clearNodePatternAndMS : Bool → StepOutcome
  terminateAllAgreements : TermReason → StepOutcome
  patchNodeKey : HTTPFactory → StepOutcome
  InvokeExchange : String → Nat → Option String × Option String
  terminateMicroservices : StepOutcome
  deleteAttributes : Option String
  deletePolicyFiles : Option String
  deleteNode : HTTPFactory → StepOutcome
  deleteHorizonDevice : Option String
  updateHorizonDevice : D → String → Option String
  DeleteNodePolicy : Option String
  DeleteNodePolicyLastUpdated_Exch : Option String
  DeleteNodeUserInput : Option String
  DeleteNodeUserInputHash_Exch : Option String

/-- Putting messages on the bus. -/
def GovernanceWorker.send (w : GovernanceWorker) (msgs : List BusMessage) :
    GovernanceWorker :=
  { w with Messages := w.Messages ++ msgs }

/-- `completedWithError`: logs the error when there is one and sends the
shutdown-complete message. -/
def completedWithError {D : Type} (X : ShutdownEnv D) (w : GovernanceWorker) (e : String) :
    GovernanceWorker :=
  let w1 :=
    if e ≠ "" then
      { w with errorLog := w.errorLog ++
          [X.logString ("node shutdown terminating with error: " ++ e)] }
    else w
  w1.send [BusMessage.NewNodeShutdownCompleteMessage EventId.UNCONFIGURE_COMPLETE e]

/-- `continueWithError`: logs the error when there is one, and nothing else. -/
def continueWithError {D : Type} (X : ShutdownEnv D) (w : GovernanceWorker) (e : String) :
    GovernanceWorker :=
  if e ≠ "" then
    { w with errorLog := w.errorLog ++
        [X.logString ("node shutdown continuing after encountering error: " ++ e)] }
  else w

/-- The `for` loop of `patchNodePattern`, on the number of calls of `InvokeExchange`
made so far; `fuel` bounds the number of its rounds, and the result is `none` when the
bound is reached. Otherwise the result is the error the function returns (nil when
`none`). -/
def patchNodePatternLoop {D : Type} (X : ShutdownEnv D) (pattern : String) :
    Nat → Nat → Option (Option String)
  | 0, _ => none
  | fuel + 1, calls =>
    match (X.InvokeExchange pattern calls).1 with
    | some err =>
      if stringsContains err "status: 401" then some none else some (some err)
    | none =>
      match (X.InvokeExchange pattern calls).2 with
      | some _ => patchNodePatternLoop X pattern fuel (calls + 1)
      | none => some none

/-- `patchNodePattern`. -/
def patchNodePattern {D : Type} (X : ShutdownEnv D) (pattern : String) (fuel : Nat) :
    Option (Option String) :=
  patchNodePatternLoop X pattern fuel 0

/-- `nodeShutDownForPattenChanged`, from the worker `w`; `none` when the run does not
return within `fuel` rounds of the loop of `patchNodePattern`. -/
def nodeShutDownForPattenChanged {D : Type} (X : ShutdownEnv D) (w : GovernanceWorker)
    (dev : D) (new_pattern : String) (fuel : Nat) : Option GovernanceWorker :=
  match X.clearNodePatternAndMS true with
  | none => none
  | some (m1, err1) =>
  let w1 :=
    match err1 with
    | some e => continueWithError X (w.send m1) (X.logString e)
    | none => w.send m1
  match X.terminateAllAgreements TermReason.TERM_REASON_NODE_PATTERN_CHANGED with
  | none => none
  | some (m2, some e) => some (completedWithError X (w1.send m2) (X.logString e))
  | some (m2, none) =>
  match X.patchNodeKey HTTPFactory.worker with
  | none => none
  | some (m3, err3) =>
  let w3 :=
    match err3 with
    | some e => continueWithError X ((w1.send m2).send m3) (X.logString e)
    | none => (w1.send m2).send m3
  match patchNodePattern X new_pattern fuel with
  | none => none
  | some (some e) => some (continueWithError X w3 (X.logString e))
  | some none =>
  let w4 := w3.send [BusMessage.NewAllBlockchainShutdownMessage EventId.ALL_STOP]
  match X.terminateMicroservices with
  | none => none
  | some (m5, some e) => some (completedWithError X (w4.send m5) (X.logString e))
  | some (m5, none) =>
  match X.deletePolicyFiles with
  | some e => some (completedWithError X (w4.send m5) (X.logString e))
  | none =>
  match X.updateHorizonDevice dev new_pattern with
  | some e => some (completedWithError X (w4.send m5) (X.logString e))
  | none =>
    some ((w4.send m5).send
      [BusMessage.NewNodeShutdownCompleteMessage EventId.UNCONFIGURE_COMPLETE ""])

/-- The part of `nodeShutdown` after the removal of the node from the Exchange, with
the local variable `errorMessage`. -/
def nodeShutdownLocalCleanup {D : Type} (X : ShutdownEnv D) (w : GovernanceWorker)
    (errorMessage : String) : GovernanceWorker :=
  match X.deleteHorizonDevice with
  | some e => completedWithError X w (X.logString e)
  | none =>
  match X.DeleteNodePolicy with
  | some e => completedWithError X w (X.logString e)
  | none =>
  match X.DeleteNodePolicyLastUpdated_Exch with
  | some e => completedWithError X w (X.logString e)
  | none =>
  match X.DeleteNodeUserInput with
  | some e => completedWithError X w (X.logString e)
  | none =>
  match X.DeleteNodeUserInputHash_Exch with
  | some e => completedWithError X w (X.logString e)
  | none =>
    w.send [BusMessage.NewNodeShutdownCompleteMessage EventId.UNCONFIGURE_COMPLETE
      errorMessage]

/-- `nodeShutdown`, from a worker with an empty bus; `none` when the run does not
return within `fuel` rounds of the loop of `patchNodePattern`. -/
def nodeShutdown {D : Type} (X : ShutdownEnv D) (fuel : Nat) : Option GovernanceWorker :=
  let w : GovernanceWorker := {}
  match X.FindExchangeDevice with
  | (_, some err) =>
    some (completedWithError X w (X.logString ("received error reading node: " ++ err)))
  | (none, none) =>
    some (completedWithError X w
      (X.logString "could not get node name because node was not registered yet"))
  | (some dev, none) =>
  match X.FindSavedNodeExchPattern with
  | (_, some err) =>
    some (completedWithError X w (X.logString
      ("received error reading node exchange pattern from local database: " ++ err)))
  | (new_pattern, none) =>
  if new_pattern ≠ "" then
    nodeShutDownForPattenChanged X w dev new_pattern fuel
  else
  match X.clearNodePatternAndMS false with
  | none => none
  | some (m1, err1) =>
  let w1 :=
    match err1 with
    | some e => continueWithError X (w.send m1) (X.logString e)
    | none => w.send m1
  match X.terminateAllAgreements TermReason.TERM_REASON_NODE_SHUTDOWN with
  | none => none
  | some (m2, some e) => some (completedWithError X (w1.send m2) (X.logString e))
  | some (m2, none) =>
  match X.patchNodeKey HTTPFactory.limitedRetryEC with
  | none => none
  | some (m3, err3) =>
  let w3 :=
    match err3 with
    | some e => continueWithError X ((w1.send m2).send m3) (X.logString e)
    | none => (w1.send m2).send m3
  let errorMessage3 :=
    match err3 with
    | some e =>
      "Unable to reset the node in the Exchange. Please use \x27hzn exchange node remove " ++
        X.GetExchangeId ++ "\x27 to remove it. The error was: " ++ e
    | none => ""
  let w4 := w3.send [BusMessage.NewAllBlockchainShutdownMessage EventId.ALL_STOP]
  match X.terminateMicroservices with
  | none => none
  | some (m5, some e) => some (completedWithError X (w4.send m5) (X.logString e))
  | some (m5, none) =>
  match X.deleteAttributes with
  | some e => some (completedWithError X (w4.send m5) (X.logString e))
  | none =>
  match X.deletePolicyFiles with
  | some e => some (completedWithError X (w4.send m5) (X.logString e))
  | none =>
  if X.RemoveNode then
    match X.deleteNode HTTPFactory.limitedRetryEC with
    | none => none
    | some (m6, some e) =>
      some (nodeShutdownLocalCleanup X
        (continueWithError X ((w4.send m5).send m6) (X.logString e))
        ("Unable to delete the node from the Exchange. Please use \x27hzn exchange node remove " ++
          X.GetExchangeId ++ "\x27 to remove it. The error was: " ++ e))
    | some (m6, none) =>
      some (nodeShutdownLocalCleanup X ((w4.send m5).send m6) errorMessage3)
  else
    some (nodeShutdownLocalCleanup X (w4.send m5) errorMessage3)

/-! ## Fixtures of the repository's tests -/

/-- Service policy of `Test_MergeFullServicePolicyToBusinessPolicy` (`servicePol`). -/
def testMergedServicePol : ExternalPolicy :=
  { Properties :=
      [ Property_Factory "prop1" "val1", Property_Factory "prop2" "val2",
        Property_Factory "openhorizon.service.url" "weather",
        Property_Factory "openhorizon.service.name" "weather",
        Property_Factory "openhorizon.service.org" "myorg",
        Property_Factory "openhorizon.service.version" "1.5.0",
        Property_Factory "openhorizon.service.arch" "amd64" ],
    Constraints := ["prop4 == \"some value\""] }

/-- Business policy of `Test_MergeFullServicePolicyToBusinessPolicy` (`bPolicy`). -/
def testBusinessPol : ExternalPolicy :=
  { Properties := [Property_Factory "prop1" "val1", Property_Factory "prop3" "val3"],
    Constraints := ["prop5 == val5", "prop4 == \"some value\""] }

/-- Service policy of `Test_AddDefaultPropertiesToServicePolicy` (`servicePol`). -/
def testServicePol : ExternalPolicy :=
  { Properties := [Property_Factory "prop1" "val1", Property_Factory "prop2" "val2"],
    Constraints := ["prop4 == \"some value\""] }

/-- Built-in policy of `Test_AddDefaultPropertiesToServicePolicy` (`builtInSvcPol`). -/
def testBuiltInSvcPol : ExternalPolicy :=
  { Properties :=
      [ Property_Factory "openhorizon.service.url" "weather",
        Property_Factory "openhorizon.service.name" "weather",
        Property_Factory "openhorizon.service.org" "myorg",
        Property_Factory "openhorizon.service.version" "1.5.0",
        Property_Factory "openhorizon.service.arch" "amd64" ],
    Constraints := [] }

/-- Split of the text `name == value` at its first ` == `. -/
def splitEquality : List Char → Option (List Char × List Char)
  | [] => none
  | c :: cs =>
    if (c :: cs).take 4 = [' ', '=', '=', ' '] then
      some ([], cs.drop 3)
    else
      match splitEquality cs with
      | some (l, r) => some (c :: l, r)
      | none => none

/-- A value without the double quotes around it, if it has them. -/
def unquote (cs : List Char) : List Char :=
  if 2 ≤ cs.length ∧ cs.head? = some '"' ∧ cs.getLast? = some '"' then (cs.drop 1).dropLast else cs

/-- A small constraint language for the examples, enough for the constraints of the
repository's tests: a constraint is `name == value`, well-formed when it has
that shape and satisfied when the property list has the property `name` with the
string `value`. It stands for the external evaluator, which is not part of this
engine. -/
def exampleLanguage : ConstraintLanguage :=
  { Validate := fun cs =>
      match cs.find? (fun c => (splitEquality c.data).isNone) with
      | some c => some ("invalid constraint " ++ c)
      | none => none,
    IsSatisfiedBy := fun c props =>
      match splitEquality c.data with
      | some (l, r) =>
        props.any (fun p => p.Name = String.mk l ∧ p.Value = PropertyValue.str (String.mk (unquote r)))
      | none => false }

/-- Node policy of `Test_policyCompatible_with_Pols` (`nodePolicy`). -/
def testNodePolicy : ExternalPolicy :=
  { Properties := [Property_Factory "prop3" "val3", Property_Factory "prop4" "some value"],
    Constraints := ["prop1 == val1", "prop5 == val5"] }

/-- Service policy the tests' service policy handler returns. -/
def testHandlerServicePolicy : ExternalPolicy :=
  { Properties := [Property_Factory "prop5" "val5", Property_Factory "prop6" "val6"],
    Constraints := ["prop4 == \"some value\""] }

/-- Service reference of the tests: `weather` of `myorg` in versions 1.0.1 and 2.0.1. -/
def testServiceRef (arch : String) : ServiceRef :=
  { Name := "weather", Org := "myorg", Arch := arch,
    ServiceVersions := [⟨"1.0.1"⟩, ⟨"2.0.1"⟩] }

/-- Business policy of the tests (`createBusinessPolicy`). -/
def testBusinessPolicy (arch : String) : BusinessPolicy :=
  { Service := testServiceRef arch,
    Properties := [Property_Factory "prop1" "val1", Property_Factory "prop2" "val2"],
    Constraints := ["prop3 == val3", "prop4 == \"some value\""] }

/-- Registry content of the wildcard tests (`services`): three versions on two
architectures. -/
def testServices : List (String × ServiceDefinition) :=
  [ ("myorg/weather_1.0.1_amd64", { URL := "weather", Version := "1.0.1", Arch := "amd64" }),
    ("myorg/weather_2.0.1_amd64", { URL := "weather", Version := "2.0.1", Arch := "amd64" }),
    ("myorg/weather_3.0.1_amd64", { URL := "weather", Version := "3.0.1", Arch := "amd64" }),
    ("myorg/weather_1.0.1_arm64", { URL := "weather", Version := "1.0.1", Arch := "arm64" }),
    ("myorg/weather_2.0.1_arm64", { URL := "weather", Version := "2.0.1", Arch := "arm64" }),
    ("myorg/weather_3.0.1_arm64", { URL := "weather", Version := "3.0.1", Arch := "arm64" }) ]

/-- Handlers of the tests: `getDeviceHandler(devArch)`, `getNodePolicyHandler`,
`getBusinessPolicyHandler`, `getServicePolicyHandler` and
`getSelectedServicesHandler(services)`. -/
def testHandlers (devArch : String) (bp : BusinessPolicy)
    (services : List (String × ServiceDefinition)) : ExchangeHandlers :=
  { getDevice := fun id => Except.ok { Name := id, Owner := "me", Arch := devArch },
    nodePolicyHandler := fun _ => Except.ok (some testNodePolicy),
    getBusinessPolicies := fun org id => Except.ok [(org ++ "/" ++ id, bp)],
    servicePolicyHandler := fun sUrl sOrg sVersion sArch =>
      Except.ok (some testHandlerServicePolicy, serviceIdentity sOrg sUrl sVersion sArch),
    getSelectedServices := fun wUrl _ wVersion _ =>
      Except.ok (services.filter (fun kv => kv.2.URL = wUrl ∧ kv.2.Version = wVersion)) }

/-- Request `input3` of `Test_policyCompatible_with_Pols`: node and business policy
given, wildcard architecture, no node id and no node architecture. -/
def testInputWildcard : PolicyCompInput :=
  { NodePolicy := some testNodePolicy, BusinessPolicy := some (testBusinessPolicy "*") }

/-- Request `input4` of `Test_policyCompatible_with_Pols`: as `input3`, with node
architecture `amd64`. -/
def testInputWildcardAmd64 : PolicyCompInput :=
  { NodeArch := "amd64", NodePolicy := some testNodePolicy,
    BusinessPolicy := some (testBusinessPolicy "*") }

/-- Request `input_wrong_arch` of `Test_policyCompatible_with_IDs`. -/
def testInputWrongArch : PolicyCompInput :=
  { NodeId := "myorg/mynode", NodeArch := "arm64", BusinessPolId := "myorg/mybp" }

/-- The business policy of the tests for architecture amd64, naming version 1.0.1
twice. -/
def repeatedVersionBusinessPolicy : BusinessPolicy :=
  { Service := { Name := "weather", Org := "myorg", Arch := "amd64",
                 ServiceVersions := [⟨"1.0.1"⟩, ⟨"1.0.1"⟩] },
    Properties := [Property_Factory "prop1" "val1", Property_Factory "prop2" "val2"],
    Constraints := ["prop3 == val3", "prop4 == \"some value\""] }

/-- Request of `Test_policyCompatible_with_IDs`: node and business policy by id. -/
def testInputIds : PolicyCompInput :=
  { NodeId := "myorg/mynode", BusinessPolId := "myorg/mybp" }

/-- Node policy `nodePolicy2` of `Test_policyCompatible_with_Pols`, whose `prop4` does
not have the value the business policy asks for. -/
def testNodePolicy2 : ExternalPolicy :=
  { Properties := [Property_Factory "prop3" "val3", Property_Factory "prop4" "some other value"],
    Constraints := ["prop1 == val1", "prop5 == val5"] }

/-- Merged service policy of `Test_CheckPolicyCompatiblility`
(`GetServicePolicyWithDefaultProperties` for weather, myorg, 1.0.1, amd64). -/
def testMergedSPol : ExternalPolicy :=
  AddDefaultPropertiesToServicePolicy (some testHandlerServicePolicy)
    (some (CreateServiceBuiltInPolicy "weather" "myorg" "1.0.1" "amd64"))

/-- Lengths of the parts of a decision that `Test_CheckPolicyCompatiblility` reads:
compatible, producer properties and constraints, consumer properties and
constraints. -/
def decisionShape (d : Bool × String × Option ExternalPolicy × Option ExternalPolicy) :
    Bool × Option (Nat × Nat) × Option (Nat × Nat) :=
  (d.1, d.2.2.1.map (fun p => (p.Properties.length, p.Constraints.length)),
    d.2.2.2.map (fun p => (p.Properties.length, p.Constraints.length)))

/-! ## Fixtures for user-input validation -/

/-- Pieces of a text between occurrences of a separator. -/
def splitOnChar (sep : Char) : List Char → List (List Char)
  | [] => [[]]
  | c :: cs =>
    if c = sep then
      [] :: splitOnChar sep cs
    else
      match splitOnChar sep cs with
      | [] => [[c]]
      | piece :: pieces => (c :: piece) :: pieces

/-- The number a non-empty text of decimal digits denotes. -/
def parseDigits (cs : List Char) : Option Nat :=
  if cs = [] then none
  else
    cs.foldl
      (fun acc c =>
        match acc with
        | some n => if c.isDigit then some (10 * n + (c.toNat - 48)) else none
        | none => none)
      (some 0)

/-- The numbers of a version `a`, `a.b` or `a.b.c`, padded with zeros. -/
def parseVersion (cs : List Char) : Option (Nat × Nat × Nat) :=
  match (splitOnChar '.' cs).map parseDigits with
  | [some a] => some (a, 0, 0)
  | [some a, some b] => some (a, b, 0)
  | [some a, some b, some c] => some (a, b, c)
  | _ => none

/-- Order of versions. -/
def versionLt (x y : Nat × Nat × Nat) : Bool :=
  x.1 < y.1 || (x.1 = y.1 && (x.2.1 < y.2.1 || (x.2.1 = y.2.1 && x.2.2 < y.2.2)))

/-- A version range of the example implementation: its bounds as written and as
numbers; no upper number means `INFINITY`. -/
structure ExampleVersionExp where
  startText : String
  endText : String
  start : Nat × Nat × Nat
  startInclusive : Bool
  stop : Option (Nat × Nat × Nat)
  stopInclusive : Bool
  deriving DecidableEq, Repr

/-- Whether the lower bound of `x` lies below the upper bound of `y`. -/
def ExampleVersionExp.startsBelowEndOf (x y : ExampleVersionExp) : Bool :=
  match y.stop with
  | none => true
  | some e => versionLt x.start e || (x.start = e && x.startInclusive && y.stopInclusive)

/-- The range a text denotes: a single version `v` is `[v,INFINITY)`, and a range is
written with its two bounds, `[` or `(` before and `]` or `)` after. -/
def exampleVersionExpressionFactory (text : String) : Except String ExampleVersionExp :=
  match text.data with
  | [] => Except.error "empty version expression"
  | c :: cs =>
    if c = '[' ∨ c = '(' then
      match splitOnChar ',' cs.dropLast, cs.getLast? with
      | [lo, hi], some close =>
        if close = ')' ∨ close = ']' then
          match parseVersion lo with
          | none => Except.error ("invalid version range " ++ text)
          | some l =>
            if hi = "INFINITY".data then
              Except.ok ⟨String.mk lo, "INFINITY", l, c = '[', none, close = ']'⟩
            else
              match parseVersion hi with
              | some h => Except.ok ⟨String.mk lo, String.mk hi, l, c = '[', some h, close = ']'⟩
              | none => Except.error ("invalid version range " ++ text)
        else Except.error ("invalid version range " ++ text)
      | _, _ => Except.error ("invalid version range " ++ text)
    else
      match parseVersion (c :: cs) with
      | some v => Except.ok ⟨text, "INFINITY", v, true, none, false⟩
      | none => Except.error ("invalid version " ++ text)

/-- A small implementation of the operations of `semanticversion`, for the examples:
versions are up to three numbers, and two ranges intersect when each starts
below the end of the other. -/
def exampleSemanticVersion : SemanticVersion ExampleVersionExp :=
  { Version_Expression_Factory := exampleVersionExpressionFactory,
    Is_within_range := fun e version =>
      match parseVersion version.data with
      | none => false
      | some v =>
        (versionLt e.start v || (e.start = v && e.startInclusive)) &&
          (match e.stop with
            | none => true
            | some h => versionLt v h || (v = h && e.stopInclusive)),
    IntersectsWith := fun e other =>
      match other with
      | none => some "the other version expression is nil"
      | some o =>
        if e.startsBelowEndOf o && o.startsBelowEndOf e then none
        else some "no intersection",
    Get_expression := fun e =>
      (if e.startInclusive then "[" else "(") ++ e.startText ++ "," ++ e.endText ++
        (if e.stopInclusive then "]" else ")") }

/-- A registry for the examples: the top-level service `myorg/top` version 1.0.0 requires
`myorg/dep` in the range `[1.0.0,2.0.0)`; `myorg/dep` has no required service
and declares the input `key` without a default value; `myorg/ghost` is looked up
without a definition and without an error; anything else is an error. -/
def exampleResolver (url org _version _arch : String) :
    Option ServiceDefinition × Option String :=
  if org = "myorg" ∧ url = "top" then
    (some { Owner := "myorg", URL := "top", Version := "1.0.0", Arch := "amd64",
            RequiredServices := [{ URL := "dep", Org := "myorg", VersionRange := "[1.0.0,2.0.0)",
                                   Arch := "amd64" }] }, none)
  else if org = "myorg" ∧ url = "dep" then
    (some { Owner := "myorg", URL := "dep", Version := "1.5.0", Arch := "amd64",
            UserInputs := [{ Name := "key", Type_ := "string" }] }, none)
  else if org = "myorg" ∧ url = "ghost" then
    (none, none)
  else
    (none, some ("unable to find the service " ++ org ++ "/" ++ url))

/-- Environment of the examples. -/
def exampleEnv : ValidationEnv PropertyValue ExampleVersionExp :=
  { VerifyWorkloadVarTypes := exampleVerifyWorkloadVarTypes,
    sv := exampleSemanticVersion,
    serviceDefResolverHandler := exampleResolver }

/-- Pattern of the examples: its only top-level service is `myorg/top` 1.0.0. -/
def exampleTopLevelServices : List ServiceReference :=
  [{ ServiceURL := "top", ServiceOrg := "myorg", ServiceArch := "amd64",
     ServiceVersions := [⟨"1.0.0"⟩] }]

/-- User input for the required service `myorg/dep`, targeting the given version. -/
def exampleDepUserInput (versionRange : String) : policy.UserInput PropertyValue :=
  { ServiceOrgid := "myorg", ServiceUrl := "dep", ServiceArch := "amd64",
    ServiceVersionRange := versionRange, Inputs := [⟨"key", PropertyValue.str "v"⟩] }

/-- User input for the top-level service `myorg/top`, with an input the service does
not declare. -/
def exampleTopUserInput : policy.UserInput PropertyValue :=
  { ServiceOrgid := "myorg", ServiceUrl := "top", ServiceArch := "amd64",
    ServiceVersionRange := "1.0.0", Inputs := [⟨"key", PropertyValue.str "v"⟩] }

/-- User input for `myorg/ghost`, which the registry of the examples looks up
without a definition and without an error. -/
def exampleGhostUserInput : policy.UserInput PropertyValue :=
  { ServiceOrgid := "myorg", ServiceUrl := "ghost", ServiceArch := "amd64",
    ServiceVersionRange := "1.0.0" }

/-- The version expression of the text `1.5.0` in the example implementation. -/
def exampleVersionExp_1_5_0 : ExampleVersionExp :=
  ⟨"1.5.0", "INFINITY", (1, 5, 0), true, none, false⟩

/-- The version expression of the text `2.5.0` in the example implementation. -/
def exampleVersionExp_2_5_0 : ExampleVersionExp :=
  ⟨"2.5.0", "INFINITY", (2, 5, 0), true, none, false⟩

/-- The definition of `myorg/top` in the registry of the examples. -/
def exampleTopDefinition : ServiceDefinition :=
  { Owner := "myorg", URL := "top", Version := "1.0.0", Arch := "amd64",
    RequiredServices := [{ URL := "dep", Org := "myorg", VersionRange := "[1.0.0,2.0.0)",
                           Arch := "amd64" }] }

/-- User input for `myorg/dep` that supplies no value, although the service declares
`key` without a default value. -/
def exampleDepUserInputWithoutKey : policy.UserInput PropertyValue :=
  { ServiceOrgid := "myorg", ServiceUrl := "dep", ServiceArch := "amd64",
    ServiceVersionRange := "1.5.0", Inputs := [] }

/-- The definition of `myorg/dep` in the registry of the examples. -/
def exampleDepDefinition : ServiceDefinition :=
  { Owner := "myorg", URL := "dep", Version := "1.5.0", Arch := "amd64",
    UserInputs := [{ Name := "key", Type_ := "string" }] }

/-! ## Fixtures for the node policy of the Exchange -/

/-- An Exchange for the examples: its answers to the calls are those listed, then
transport errors; the cache is a map from `<org>/<id>` to the cached policy, and
a node policy is its external policy. -/
def exampleExchange (answers : List (InvokeResult (ExchangeNodePolicy ExternalPolicy)))
    (retryCount : Int) :
    ExchangeEnv ExternalPolicy ExternalPolicy (List (String × ExchangeNodePolicy ExternalPolicy)) :=
  { GetOrg := fun _ => "myorg",
    GetId := fun deviceId => deviceId,
    NodeCacheMapKey := fun org id => org ++ "/" ++ id,
    GetNodePolicyFromCache := fun cache org id => mapLookup cache (org ++ "/" ++ id),
    UpdateCache := fun cache key value => mapInsert cache key value,
    RetryCount := retryCount,
    NODEPOLICY_VERSION_VERSION_2 := "2",
    ExternalPolicy := fun np => np,
    ConvertNodePolicy_v1Tov2 := fun ep => ep,
    InvokeExchange := fun k => answers.getD k (InvokeResult.transportError "timeout") }

/-- The document the Exchange returns for a node without a node policy. -/
def exampleAbsentNodePolicy : ExchangeNodePolicy ExternalPolicy :=
  { NodePolicy := { Properties := [], Constraints := [] } }

/-- The document of a node policy of version 2. -/
def exampleStoredNodePolicy : ExchangeNodePolicy ExternalPolicy :=
  { NodePolicy := { Properties := [Property_Factory "purpose" "test"], Constraints := [] },
    NodePolicyVersion := "2", LastUpdated := "2020-01-01T00:00:00Z" }

/-! ## Fixtures for the node update -/

/-- An Exchange for the examples of `NodeUpdate`: one node, with the given pattern; the
pattern `myorg/pat` of the examples; the registry of the examples; a file whose
attribute values are user inputs; and a PATCH request that is accepted. -/
def exampleNodeUpdateEnv (pattern : String) :
    NodeUpdateEnv PropertyValue ExampleVersionExp (List (policy.UserInput PropertyValue)) Nat :=
  { validation := exampleEnv,
    serviceHandler := exampleResolver,
    TrimOrg := fun org id => (org, id),
    getNodes := fun _ node =>
      (200, [("myorg/" ++ node, { Name := node, Arch := "amd64", Pattern := pattern })]),
    getPatterns := fun _ _ => (200, [("myorg/pat", { Services := exampleTopLevelServices })]),
    unmarshalUserInput := fun v => Except.ok v,
    unmarshalPattern := fun _ => Except.error "json: cannot unmarshal array into string",
    unmarshalHeartbeatIntervals := fun _ => Except.error "json: cannot unmarshal array into object",
    sprint := fun _ => "[...]",
    UserInputCompatible := fun _ _ => Except.ok { Compatible := true },
    patch := fun _ _ _ => none }

/-- An Exchange for the examples of `DeleteNodePolicy`: its answers to the calls are
those listed, then transport errors; deleting from the cache removes the entry
of the key. -/
def exampleDeleteExchange (answers : List (Option String × Option String)) (retryCount : Int) :
    DeleteEnv (List (String × ExchangeNodePolicy ExternalPolicy)) :=
  { GetOrg := fun _ => "myorg",
    GetId := fun deviceId => deviceId,
    NodeCacheMapKey := fun org id => org ++ "/" ++ id,
    DeleteCacheResource := fun cache key => cache.filter (fun kv => decide (kv.1 ≠ key)),
    RetryCount := retryCount,
    InvokeExchange := fun k => answers.getD k (none, some "timeout") }

/-- The version expression of the text `1.0.0` in the example implementation. -/
def exampleVersionExp_1_0_0 : ExampleVersionExp :=
  ⟨"1.0.0", "INFINITY", (1, 0, 0), true, none, false⟩

/-- The required service of `myorg/top` in the registry of the examples. -/
def exampleDepDependency : ServiceDependency :=
  { URL := "dep", Org := "myorg", VersionRange := "[1.0.0,2.0.0)", Arch := "amd64" }

/-- A registry with a cycle: every service it is asked for requires `myorg/loop`. -/
def cyclicResolver (url org _version _arch : String) :
    Option ServiceDefinition × Option String :=
  (some { Owner := org, URL := url, Version := "1.0.0", Arch := "amd64",
          RequiredServices := [{ URL := "loop", Org := "myorg", VersionRange := "1.0.0",
                                 Arch := "amd64" }] }, none)

/-- Environment of the examples with the registry that has a cycle. -/
def cyclicEnv : ValidationEnv PropertyValue ExampleVersionExp :=
  { VerifyWorkloadVarTypes := exampleVerifyWorkloadVarTypes,
    sv := exampleSemanticVersion,
    serviceDefResolverHandler := cyclicResolver }

/-- The definition of `myorg/loop` in the registry with a cycle. -/
def cyclicDefinition : ServiceDefinition :=
  { Owner := "myorg", URL := "loop", Version := "1.0.0", Arch := "amd64",
    RequiredServices := [{ URL := "loop", Org := "myorg", VersionRange := "1.0.0",
                           Arch := "amd64" }] }

/-- A registry in which version 2.0.0 of `myorg/svc` requires an earlier version of
`myorg/svc`, in the range `[1.0.0,2.0.0)`, and then `myorg/lost`; `myorg/top` and
the earlier `myorg/svc` require nothing; `myorg/lost` is found, without required
services, only when `lostResolves` is true. -/
def exampleSelfResolver (lostResolves : Bool) (url org version _arch : String) :
    Option ServiceDefinition × Option String :=
  if org = "myorg" ∧ url = "top" then
    (some { Owner := "myorg", URL := "top", Version := "1.0.0", Arch := "amd64" }, none)
  else if org = "myorg" ∧ url = "svc" then
    if version = "[1.0.0,2.0.0)" then
      (some { Owner := "myorg", URL := "svc", Version := "1.0.0", Arch := "amd64" }, none)
    else
      (some { Owner := "myorg", URL := "svc", Version := "2.0.0", Arch := "amd64",
              RequiredServices :=
                [{ URL := "svc", Org := "myorg", VersionRange := "[1.0.0,2.0.0)", Arch := "amd64" },
                 { URL := "lost", Org := "myorg", VersionRange := "1.0.0", Arch := "amd64" }] },
        none)
  else if org = "myorg" ∧ url = "lost" ∧ lostResolves = true then
    (some { Owner := "myorg", URL := "lost", Version := "1.0.0", Arch := "amd64" }, none)
  else
    (none, some ("unable to find the service " ++ org ++ "/" ++ url))

/-- Environment of the examples with the registry of `exampleSelfResolver`. -/
def exampleSelfEnv (lostResolves : Bool) : ValidationEnv PropertyValue ExampleVersionExp :=
  { VerifyWorkloadVarTypes := exampleVerifyWorkloadVarTypes,
    sv := exampleSemanticVersion,
    serviceDefResolverHandler := exampleSelfResolver lostResolves }

/-- User input for `myorg/svc`, targeting 1.5.0 or later. -/
def exampleSvcUserInput : policy.UserInput PropertyValue :=
  { ServiceOrgid := "myorg", ServiceUrl := "svc", ServiceArch := "amd64",
    ServiceVersionRange := "1.5.0" }

/-- A pattern whose only top-level service is `myorg/dep` 1.5.0, which declares the
input `key` without a default value. -/
def exampleDepTopLevelServices : List ServiceReference :=
  [{ ServiceURL := "dep", ServiceOrg := "myorg", ServiceArch := "amd64",
     ServiceVersions := [⟨"1.5.0"⟩] }]

/-- A service that declares the inputs `key` and `token` without default values, and
`a` with one. -/
def exampleTwoInputsDefinition : ServiceDefinition :=
  { Owner := "myorg", URL := "two", Version := "1.0.0", Arch := "amd64",
    UserInputs := [{ Name := "a", DefaultValue := "1" }, { Name := "key" }, { Name := "token" }] }

/-! ## Fixtures for the node shutdown -/

/-- A run of the shutdown sequence after a pattern change: the node is registered,
the local database holds the new pattern `myorg/newpat`, the agreements end, the
messaging key is cleared, and the Exchange answers the PATCH of the pattern with an
error that is not a 401. -/
def examplePatternChangeShutdown : ShutdownEnv String where
  logString := fun s => "GovernanceWorker: " ++ s
  GetExchangeId := "myorg/node1"
  RemoveNode := false
  FindExchangeDevice := (some "node1", none)
  FindSavedNodeExchPattern := ("myorg/newpat", none)
  clearNodePatternAndMS := fun _ => some ([], none)
  terminateAllAgreements := fun _ => some ([], none)
  patchNodeKey := fun _ =>
    some ([BusMessage.NewMessagingShutdownMessage EventId.MESSAGE_STOP], none)
  InvokeExchange := fun _ _ => (some "status: 500", none)
  terminateMicroservices := some ([], none)
  deleteAttributes := none
  deletePolicyFiles := none
  deleteNode := fun _ => some ([], none)
  deleteHorizonDevice := none
  updateHorizonDevice := fun _ _ => none
  DeleteNodePolicy := none
  DeleteNodePolicyLastUpdated_Exch := none
  DeleteNodeUserInput := none
  DeleteNodeUserInputHash_Exch := none

/-- The same node without a pattern change, where the removal of the node from the
Exchange fails. -/
def exampleRemoveNodeShutdown : ShutdownEnv String :=
  { examplePatternChangeShutdown with
    RemoveNode := true
    FindSavedNodeExchPattern := ("", none)
    deleteNode := fun _ => some ([], some "status: 500") }

/-! ## Properties -/

/-! ### Property lists and constraint lists -/

theorem hasProperty_iff (pl : PropertyList) (name : String) :
    PropertyList.HasProperty pl name = true ↔ name ∈ PropertyList.names pl := by
  simp only [PropertyList.HasProperty, PropertyList.names, List.any_eq_true, List.mem_map,
    beq_iff_eq]

theorem hasProperty_false_iff (pl : PropertyList) (name : String) :
    PropertyList.HasProperty pl name = false ↔ name ∉ PropertyList.names pl := by
  rw [← hasProperty_iff]
  simp

theorem names_append (a b : PropertyList) :
    PropertyList.names (a ++ b) = PropertyList.names a ++ PropertyList.names b := by
  simp [PropertyList.names]

theorem mergeWith_nil (pl : PropertyList) (ow : Bool) : PropertyList.MergeWith pl [] ow = pl :=
  rfl

theorem mergeWith_cons_false (pl : PropertyList) (p : Property) (rest : PropertyList) :
    PropertyList.MergeWith pl (p :: rest) false =
      PropertyList.MergeWith (if PropertyList.HasProperty pl p.Name then pl else pl ++ [p])
        rest false := by
  unfold PropertyList.MergeWith
  rw [List.foldl_cons]
  congr 1
  unfold PropertyList.Add_Property
  by_cases h : PropertyList.HasProperty pl p.Name = true <;> simp [h]

/-- Shape of a merge without overwriting: the receiver, followed by the first
property of each new name of `other`, in order. -/
theorem mergeWith_false_spec (other pl : PropertyList) :
    ∃ extra : PropertyList,
      PropertyList.MergeWith pl other false = pl ++ extra ∧
      extra.Sublist other ∧
      (PropertyList.names extra).Nodup ∧
      (∀ q ∈ extra, q.Name ∉ PropertyList.names pl) ∧
      (∀ q ∈ other, q.Name ∈ PropertyList.names pl ∨ q.Name ∈ PropertyList.names extra) := by
  induction other generalizing pl with
  | nil =>
    exact ⟨[], by simp [mergeWith_nil], List.Sublist.refl _, List.nodup_nil, by simp, by simp⟩
  | cons p rest ih =>
    rw [mergeWith_cons_false]
    by_cases h : PropertyList.HasProperty pl p.Name = true
    · rw [if_pos h]
      obtain ⟨extra, he, hs, hn, hd, hc⟩ := ih pl
      refine ⟨extra, he, hs.cons p, hn, hd, ?_⟩
      intro q hq
      rcases List.mem_cons.mp hq with rfl | hq
      · exact Or.inl ((hasProperty_iff pl q.Name).mp h)
      · exact hc q hq
    · rw [if_neg h]
      have hp : p.Name ∉ PropertyList.names pl := by
        rw [← hasProperty_iff]; exact h
      obtain ⟨extra, he, hs, hn, hd, hc⟩ := ih (pl ++ [p])
      refine ⟨p :: extra, by rw [he]; simp, hs.cons₂ p, ?_, ?_, ?_⟩
      · have : p.Name ∉ PropertyList.names extra := by
          intro hmem
          obtain ⟨q, hq, hname⟩ := List.mem_map.mp hmem
          apply hd q hq
          rw [names_append, hname]
          simp [PropertyList.names]
        simpa [PropertyList.names] using And.intro (by simpa [PropertyList.names] using this) hn
      · intro q hq
        rcases List.mem_cons.mp hq with rfl | hq
        · exact hp
        · intro hmem
          apply hd q hq
          rw [names_append]
          exact List.mem_append_left _ hmem
      · intro q hq
        rcases List.mem_cons.mp hq with rfl | hq
        · right; simp [PropertyList.names]
        · rcases hc q hq with h1 | h1
          · rw [names_append] at h1
            rcases List.mem_append.mp h1 with h2 | h2
            · exact Or.inl h2
            · right
              have : q.Name = p.Name := by simpa [PropertyList.names] using h2
              simp [PropertyList.names, this]
          · right
            simp only [PropertyList.names, List.map_cons, List.mem_cons]
            exact Or.inr h1

theorem wellFormed_eq_of_name (pl : PropertyList) (h : PropertyList.WellFormed pl)
    (a b : Property) (ha : a ∈ pl) (hb : b ∈ pl) (hn : a.Name = b.Name) : a = b :=
  List.inj_on_of_nodup_map h ha hb hn

theorem cmerge_nil (c : ConstraintExpression) : ConstraintExpression.MergeWith c [] = c := rfl

theorem cmerge_cons (c : ConstraintExpression) (e : String) (rest : ConstraintExpression) :
    ConstraintExpression.MergeWith c (e :: rest) =
      ConstraintExpression.MergeWith (if e ∈ c then c else c ++ [e]) rest := by
  unfold ConstraintExpression.MergeWith
  rw [List.foldl_cons]

/-- Shape of a constraint merge: the receiver, followed by the constraints of
`other` that are not yet present, each once, in order. -/
theorem cmerge_spec (other c : ConstraintExpression) :
    ∃ extra : ConstraintExpression,
      ConstraintExpression.MergeWith c other = c ++ extra ∧
      extra.Sublist other ∧ extra.Nodup ∧
      (∀ e ∈ extra, e ∉ c) ∧
      (∀ e ∈ other, e ∈ c ∨ e ∈ extra) := by
  induction other generalizing c with
  | nil => exact ⟨[], by simp [cmerge_nil], List.Sublist.refl _, List.nodup_nil, by simp, by simp⟩
  | cons e rest ih =>
    rw [cmerge_cons]
    by_cases h : e ∈ c
    · rw [if_pos h]
      obtain ⟨extra, he, hs, hn, hd, hc⟩ := ih c
      refine ⟨extra, he, hs.cons e, hn, hd, ?_⟩
      intro x hx
      rcases List.mem_cons.mp hx with rfl | hx
      · exact Or.inl h
      · exact hc x hx
    · rw [if_neg h]
      obtain ⟨extra, he, hs, hn, hd, hc⟩ := ih (c ++ [e])
      refine ⟨e :: extra, by rw [he]; simp, hs.cons₂ e, ?_, ?_, ?_⟩
      · refine List.nodup_cons.mpr ⟨?_, hn⟩
        intro hmem
        exact hd e hmem (by simp)
      · intro x hx
        rcases List.mem_cons.mp hx with rfl | hx
        · exact h
        · intro hmem
          exact hd x hx (List.mem_append_left _ hmem)
      · intro x hx
        rcases List.mem_cons.mp hx with rfl | hx
        · right; simp
        · rcases hc x hx with h1 | h1
          · rcases List.mem_append.mp h1 with h2 | h2
            · exact Or.inl h2
            · right
              have : x = e := by simpa using h2
              simp [this]
          · right; exact List.mem_cons_of_mem _ h1

theorem cmerge_disjoint (other c : ConstraintExpression) (hn : other.Nodup)
    (hd : ∀ e ∈ other, e ∉ c) : ConstraintExpression.MergeWith c other = c ++ other := by
  induction other generalizing c with
  | nil => simp [cmerge_nil]
  | cons e rest ih =>
    rw [cmerge_cons, if_neg (hd e (by simp))]
    have hn2 := List.nodup_cons.mp hn
    rw [ih (c ++ [e]) hn2.2]
    · simp
    · intro x hx hmem
      rcases List.mem_append.mp hmem with h1 | h1
      · exact hd x (List.mem_cons_of_mem _ hx) h1
      · have : x = e := by simpa using h1
        exact hn2.1 (this ▸ hx)

/-! ### Policy merge -/

/-- C3: `addNodeArchToPolicy` is copy-on-write. With an empty architecture it returns
the policy it was given (the same reference, nothing allocated). For a non-nil
policy and a non-empty architecture the result is a new object with the
properties of the input followed by `PROP_NODE_ARCH = arch` (one more property),
the same constraints, and the object behind the input reference, like every
other object of the store, is unchanged. A nil policy gives nil and no error. -/
theorem addNodeArchToPolicy_copy_on_write :
    (∀ p : Option ExternalPolicy, addNodeArchToPolicy p "" = Except.ok p) ∧
    (∀ (h : Heap) (r : Option Ref), addNodeArchToPolicyRef h r "" = (h, Except.ok r)) ∧
    (∀ (p : ExternalPolicy) (arch : String), arch ≠ "" →
      ∃ q, addNodeArchToPolicy (some p) arch = Except.ok (some q) ∧
        q.Properties = p.Properties ++ [Property_Factory PROP_NODE_ARCH arch] ∧
        q.Properties.length = p.Properties.length + 1 ∧
        q.Constraints = p.Constraints) ∧
    (∀ (h : Heap) (r : Ref) (p : ExternalPolicy) (arch : String),
      Heap.deref h r = some p → arch ≠ "" →
      ∃ h2 r2 q, addNodeArchToPolicyRef h (some r) arch = (h2, Except.ok (some r2)) ∧
        r2 ≠ r ∧ Heap.deref h2 r2 = some q ∧
        q.Properties = p.Properties ++ [Property_Factory PROP_NODE_ARCH arch] ∧
        q.Properties.length = p.Properties.length + 1 ∧
        q.Constraints = p.Constraints ∧
        Heap.deref h2 r = some p ∧
        (Heap.deref h2 r).map (fun x => x.Properties.length) = some p.Properties.length ∧
        (∀ r3, r3 ≠ r2 → Heap.deref h2 r3 = Heap.deref h r3)) ∧
    (∀ arch : String, addNodeArchToPolicy none arch = Except.ok none) ∧
    (∀ (h : Heap) (arch : String), addNodeArchToPolicyRef h none arch = (h, Except.ok none)) := by
  refine ⟨?_, ?_, ?_, ?_, ?_, ?_⟩
  · intro p
    cases p <;> simp [addNodeArchToPolicy]
  · intro h r
    cases r <;> simp [addNodeArchToPolicyRef]
  · intro p arch ha
    refine ⟨{ p with Properties := p.Properties ++ [Property_Factory PROP_NODE_ARCH arch] },
      by simp [addNodeArchToPolicy, ha], rfl, by simp, rfl⟩
  · intro h r p arch hr ha
    have hlt : r < h.cells.length := by
      unfold Heap.deref at hr
      by_contra hge
      rw [List.getElem?_eq_none (Nat.le_of_not_lt hge)] at hr
      exact Option.noConfusion hr
    refine ⟨⟨h.cells ++ [{ p with Properties := p.Properties ++ [Property_Factory PROP_NODE_ARCH arch] }]⟩,
      h.cells.length,
      { p with Properties := p.Properties ++ [Property_Factory PROP_NODE_ARCH arch] },
      ?_, ?_, ?_, rfl, by simp, rfl, ?_, ?_, ?_⟩
    · simp [addNodeArchToPolicyRef, ha, hr, addNodeArchToPolicy, Heap.alloc]
    · exact Nat.ne_of_gt hlt
    · simp [Heap.deref]
    · unfold Heap.deref at hr ⊢
      rw [List.getElem?_append_left hlt]
      exact hr
    · unfold Heap.deref at hr ⊢
      rw [List.getElem?_append_left hlt, hr]
      rfl
    · intro r3 hne
      unfold Heap.deref
      by_cases h3 : r3 < h.cells.length
      · rw [List.getElem?_append_left h3]
      · have hgt : h.cells.length < r3 :=
          Nat.lt_of_le_of_ne (Nat.le_of_not_lt h3) (Ne.symm hne)
        rw [List.getElem?_eq_none (Nat.le_of_not_lt h3), List.getElem?_eq_none]
        simp only [List.length_append, List.length_singleton]
        exact hgt
  · intro arch
    rfl
  · intro h arch
    rfl

/-- Witness of C3 on the business policy of `Test_addNodeArchToPolicy`: two
properties become three with architecture `amd64`, on values and in a store
whose only object is that policy. -/
theorem addNodeArchToPolicy_copy_on_write_witness :
    (∃ q, addNodeArchToPolicy (some testBusinessPol) "amd64" = Except.ok (some q) ∧
      q.Properties = testBusinessPol.Properties ++ [Property_Factory PROP_NODE_ARCH "amd64"] ∧
      q.Properties.length = testBusinessPol.Properties.length + 1 ∧
      q.Constraints = testBusinessPol.Constraints) ∧
    (∃ h2 r2 q, addNodeArchToPolicyRef ⟨[testBusinessPol]⟩ (some 0) "amd64" =
        (h2, Except.ok (some r2)) ∧
      r2 ≠ 0 ∧ Heap.deref h2 r2 = some q ∧
      q.Properties = testBusinessPol.Properties ++ [Property_Factory PROP_NODE_ARCH "amd64"] ∧
      q.Properties.length = testBusinessPol.Properties.length + 1 ∧
      q.Constraints = testBusinessPol.Constraints ∧
      Heap.deref h2 0 = some testBusinessPol ∧
      (Heap.deref h2 0).map (fun x => x.Properties.length) =
        some testBusinessPol.Properties.length ∧
      (∀ r3, r3 ≠ r2 → Heap.deref h2 r3 = Heap.deref ⟨[testBusinessPol]⟩ r3)) :=
  ⟨addNodeArchToPolicy_copy_on_write.2.2.1 testBusinessPol "amd64" (by decide),
   addNodeArchToPolicy_copy_on_write.2.2.2.1 ⟨[testBusinessPol]⟩ 0 testBusinessPol "amd64"
     rfl (by decide)⟩

/-- C4: `AddDefaultPropertiesToServicePolicy` holds the service policy's constraints
and its properties (first, in order) plus exactly the built-in properties whose
name the service policy does not declare; a name the service policy declares
keeps the service policy's entry. With no service policy the result is the
built-in properties and no constraints; with no built-in policy it is the
service policy. The built-in property list is unique by name, as every property
list of the data model is. -/
theorem AddDefaultPropertiesToServicePolicy_spec :
    (∀ s d : ExternalPolicy, PropertyList.WellFormed d.Properties →
      (AddDefaultPropertiesToServicePolicy (some s) (some d)).Constraints = s.Constraints ∧
      s.Properties <+: (AddDefaultPropertiesToServicePolicy (some s) (some d)).Properties ∧
      (∀ p, p ∈ (AddDefaultPropertiesToServicePolicy (some s) (some d)).Properties ↔
        p ∈ s.Properties ∨ (p ∈ d.Properties ∧ p.Name ∉ PropertyList.names s.Properties)) ∧
      (∀ p ∈ (AddDefaultPropertiesToServicePolicy (some s) (some d)).Properties,
        p.Name ∈ PropertyList.names s.Properties → p ∈ s.Properties)) ∧
    (∀ d : ExternalPolicy,
      (AddDefaultPropertiesToServicePolicy none (some d)).Properties = d.Properties ∧
      (AddDefaultPropertiesToServicePolicy none (some d)).Constraints = []) ∧
    (∀ s : ExternalPolicy, AddDefaultPropertiesToServicePolicy (some s) none = s) ∧
    AddDefaultPropertiesToServicePolicy none none = { Properties := [], Constraints := [] } := by
  refine ⟨?_, ?_, ?_, rfl⟩
  · intro s d hd
    obtain ⟨extra, he, hs, _, hdis, hcov⟩ := mergeWith_false_spec d.Properties s.Properties
    have hiff : ∀ p, p ∈ s.Properties ++ extra ↔
        p ∈ s.Properties ∨ (p ∈ d.Properties ∧ p.Name ∉ PropertyList.names s.Properties) := by
      intro p
      constructor
      · intro hp
        rcases List.mem_append.mp hp with h1 | h1
        · exact Or.inl h1
        · exact Or.inr ⟨hs.subset h1, hdis p h1⟩
      · rintro (h1 | ⟨h1, h2⟩)
        · exact List.mem_append_left _ h1
        · rcases hcov p h1 with h3 | h3
          · exact absurd h3 h2
          · obtain ⟨q, hq, hname⟩ := List.mem_map.mp h3
            have : q = p := wellFormed_eq_of_name d.Properties hd q p (hs.subset hq) h1 hname
            exact List.mem_append_right _ (this ▸ hq)
    simp only [AddDefaultPropertiesToServicePolicy]
    rw [he]
    refine ⟨trivial, List.prefix_append _ _, hiff, ?_⟩
    intro p hp hname
    rcases (hiff p).mp hp with h1 | ⟨_, h2⟩
    · exact h1
    · exact absurd hname h2
  · intro d
    exact ⟨rfl, rfl⟩
  · intro s
    rfl

/-- Witness of C4 on the policies of `Test_AddDefaultPropertiesToServicePolicy`. -/
theorem AddDefaultPropertiesToServicePolicy_spec_witness :
    PropertyList.WellFormed testBuiltInSvcPol.Properties ∧
    (AddDefaultPropertiesToServicePolicy (some testServicePol) (some testBuiltInSvcPol)).Constraints
      = testServicePol.Constraints ∧
    (AddDefaultPropertiesToServicePolicy (some testServicePol) (some testBuiltInSvcPol)).Properties.length
      = 7 :=
  ⟨by decide,
   (AddDefaultPropertiesToServicePolicy_spec.1 testServicePol testBuiltInSvcPol (by decide)).1,
   by decide⟩

theorem mergeWith_false_names_nodup (pl other : PropertyList) (h : PropertyList.WellFormed pl) :
    PropertyList.WellFormed (PropertyList.MergeWith pl other false) := by
  obtain ⟨extra, he, _, hn, hd, _⟩ := mergeWith_false_spec other pl
  unfold PropertyList.WellFormed
  rw [he, names_append]
  refine List.nodup_append.mpr ⟨h, hn, ?_⟩
  intro n hn1 hn2
  obtain ⟨q, hq, hname⟩ := List.mem_map.mp hn2
  exact hd q hq (hname ▸ hn1)

theorem mergeWith_false_names_mem (pl other : PropertyList) (n : String) :
    n ∈ PropertyList.names (PropertyList.MergeWith pl other false) ↔
      n ∈ PropertyList.names pl ∨ n ∈ PropertyList.names other := by
  obtain ⟨extra, he, hs, _, _, hc⟩ := mergeWith_false_spec other pl
  rw [he, names_append, List.mem_append]
  constructor
  · rintro (h1 | h1)
    · exact Or.inl h1
    · exact Or.inr ((hs.map Property.Name).subset h1)
  · rintro (h1 | h1)
    · exact Or.inl h1
    · obtain ⟨q, hq, hname⟩ := List.mem_map.mp h1
      rw [← hname]
      exact hc q hq

/-- C5: for a business policy whose property list is unique by name (the data-model
invariant) and any service policy, `MergeFullServicePolicyToBusinessPolicy`
returns a policy in which every property name of either input occurs exactly
once and no other name occurs, the business properties come first unchanged, and
a name the business policy declares keeps the business entry; the test's 2
business and 7 service properties sharing `prop1` give 8. A nil business policy
is an error and a nil service policy gives the business policy itself. -/
theorem MergeFullServicePolicyToBusinessPolicy_properties :
    (∀ b s : ExternalPolicy, PropertyList.WellFormed b.Properties →
      ∃ m, MergeFullServicePolicyToBusinessPolicy (some b) (some s) = Except.ok m ∧
        (∀ n, n ∈ PropertyList.names m.Properties ↔
          n ∈ PropertyList.names b.Properties ∨ n ∈ PropertyList.names s.Properties) ∧
        (∀ n, n ∈ PropertyList.names b.Properties ∨ n ∈ PropertyList.names s.Properties →
          (PropertyList.names m.Properties).count n = 1) ∧
        b.Properties <+: m.Properties ∧
        (∀ p ∈ m.Properties, p.Name ∈ PropertyList.names b.Properties → p ∈ b.Properties)) ∧
    (∀ s : Option ExternalPolicy, ∃ e, MergeFullServicePolicyToBusinessPolicy none s = Except.error e) ∧
    (∀ b : ExternalPolicy, MergeFullServicePolicyToBusinessPolicy (some b) none = Except.ok b) ∧
    testBusinessPol.Properties.length = 2 ∧ testMergedServicePol.Properties.length = 7 ∧
    (MergeFullServicePolicyToBusinessPolicy (some testBusinessPol) (some testMergedServicePol)).map
      (fun m => m.Properties.length) = Except.ok 8 := by
  refine ⟨?_, ?_, ?_, by decide, by decide, by decide⟩
  · intro b s hb
    refine ⟨_, rfl, ?_, ?_, ?_, ?_⟩
    · intro n
      exact mergeWith_false_names_mem b.Properties s.Properties n
    · intro n hn
      apply List.count_eq_one_of_mem (mergeWith_false_names_nodup b.Properties s.Properties hb)
      exact (mergeWith_false_names_mem b.Properties s.Properties n).mpr hn
    · obtain ⟨extra, he, _⟩ := mergeWith_false_spec s.Properties b.Properties
      show b.Properties <+: PropertyList.MergeWith b.Properties s.Properties false
      rw [he]
      exact List.prefix_append _ _
    · obtain ⟨extra, he, _, _, hd, _⟩ := mergeWith_false_spec s.Properties b.Properties
      intro p hp hname
      have hp2 : p ∈ b.Properties ++ extra := he ▸ hp
      rcases List.mem_append.mp hp2 with h1 | h1
      · exact h1
      · exact absurd hname (hd p h1)
  · intro s
    exact ⟨_, rfl⟩
  · intro b
    rfl

/-- Witness of C5 on the policies of `Test_MergeFullServicePolicyToBusinessPolicy`. -/
theorem MergeFullServicePolicyToBusinessPolicy_properties_witness :
    PropertyList.WellFormed testBusinessPol.Properties ∧
    ∃ m, MergeFullServicePolicyToBusinessPolicy (some testBusinessPol) (some testMergedServicePol)
        = Except.ok m ∧
      (∀ n, n ∈ PropertyList.names m.Properties ↔
        n ∈ PropertyList.names testBusinessPol.Properties ∨
          n ∈ PropertyList.names testMergedServicePol.Properties) ∧
      (∀ n, n ∈ PropertyList.names testBusinessPol.Properties ∨
          n ∈ PropertyList.names testMergedServicePol.Properties →
        (PropertyList.names m.Properties).count n = 1) ∧
      testBusinessPol.Properties <+: m.Properties ∧
      (∀ p ∈ m.Properties, p.Name ∈ PropertyList.names testBusinessPol.Properties →
        p ∈ testBusinessPol.Properties) :=
  ⟨by decide,
   MergeFullServicePolicyToBusinessPolicy_properties.1 testBusinessPol testMergedServicePol
     (by decide)⟩

/-- Counterexample to C6 as stated: on the policies of
`Test_MergeFullServicePolicyToBusinessPolicy`, two business constraints and one
service constraint give two merged constraints, not three: the service
constraint is already a business constraint and is not added again. -/
theorem MergeFullServicePolicyToBusinessPolicy_constraints_not_concatenation :
    (MergeFullServicePolicyToBusinessPolicy (some testBusinessPol) (some testMergedServicePol)).map
        (fun m => m.Constraints) = Except.ok ["prop5 == val5", "prop4 == \"some value\""] ∧
    (MergeFullServicePolicyToBusinessPolicy (some testBusinessPol) (some testMergedServicePol)).map
        (fun m => m.Constraints.length) = Except.ok 2 ∧
    testBusinessPol.Constraints.length + testMergedServicePol.Constraints.length = 3 ∧
    (MergeFullServicePolicyToBusinessPolicy (some testBusinessPol) (some testMergedServicePol)).map
        (fun m => m.Constraints) ≠
      Except.ok (testBusinessPol.Constraints ++ testMergedServicePol.Constraints) := by
  refine ⟨by decide, by decide, by decide, by decide⟩

/-- C6, amended: the constraints of the merged policy are the business constraints
followed by the service constraints that are not already present, each once and
in order; every service constraint is present; the length is at most the sum of
the two lengths; and when the service constraints are pairwise distinct and none
of them is a business constraint the result is the concatenation and its
length the sum. -/
theorem MergeFullServicePolicyToBusinessPolicy_constraints (b s : ExternalPolicy) :
    ∃ m extra, MergeFullServicePolicyToBusinessPolicy (some b) (some s) = Except.ok m ∧
      m.Constraints = b.Constraints ++ extra ∧
      extra.Sublist s.Constraints ∧ extra.Nodup ∧
      (∀ e ∈ extra, e ∉ b.Constraints) ∧
      (∀ e ∈ s.Constraints, e ∈ m.Constraints) ∧
      m.Constraints.length ≤ b.Constraints.length + s.Constraints.length ∧
      (s.Constraints.Nodup → (∀ e ∈ s.Constraints, e ∉ b.Constraints) →
        m.Constraints = b.Constraints ++ s.Constraints ∧
        m.Constraints.length = b.Constraints.length + s.Constraints.length) := by
  obtain ⟨extra, he, hs, hn, hd, hc⟩ := cmerge_spec s.Constraints b.Constraints
  refine ⟨_, extra, rfl, he, hs, hn, hd, ?_, ?_, ?_⟩
  · intro e hmem
    show e ∈ ConstraintExpression.MergeWith b.Constraints s.Constraints
    rw [he]
    exact List.mem_append.mpr (hc e hmem)
  · show (ConstraintExpression.MergeWith b.Constraints s.Constraints).length ≤ _
    rw [he, List.length_append]
    exact Nat.add_le_add_left hs.length_le _
  · intro hnd hdis
    have := cmerge_disjoint s.Constraints b.Constraints hnd hdis
    refine ⟨this, ?_⟩
    show (ConstraintExpression.MergeWith b.Constraints s.Constraints).length = _
    rw [this, List.length_append]

/-- Witness of C6 amended: a service policy whose single constraint is not a business
constraint; the merged constraints are the concatenation, of length 3. -/
theorem MergeFullServicePolicyToBusinessPolicy_constraints_witness :
    ∃ m, MergeFullServicePolicyToBusinessPolicy (some testBusinessPol)
        (some { Properties := [], Constraints := ["prop6 == val6"] }) = Except.ok m ∧
      m.Constraints = ["prop5 == val5", "prop4 == \"some value\"", "prop6 == val6"] ∧
      m.Constraints.length = 3 := by
  obtain ⟨m, extra, hm, _, _, _, _, _, _, hcat⟩ :=
    MergeFullServicePolicyToBusinessPolicy_constraints testBusinessPol
      { Properties := [], Constraints := ["prop6 == val6"] }
  have h := hcat (by decide) (by decide)
  exact ⟨m, hm, h.1, h.2⟩

/-! ### Compatibility decision -/

theorem firstUnsatisfied_isNone (L : ConstraintLanguage) (cs : ConstraintExpression)
    (props : PropertyList) :
    (firstUnsatisfied L cs props).isNone = true ↔ ∀ c ∈ cs, L.IsSatisfiedBy c props = true := by
  unfold firstUnsatisfied
  rw [Option.isNone_iff_eq_none, List.find?_eq_none]
  simp

/-- C1: for non-nil node, business and merged service policies
`CheckPolicyCompatiblility` returns no error, a non-nil producer (the node policy,
with `PROP_NODE_ARCH` added when `nodeArch` is non-empty) and a non-nil consumer
(the business policy merged with the service policy), and `compatible` is true
exactly when every producer constraint is satisfied by the consumer properties
and every consumer constraint is satisfied by the producer properties. -/
theorem CheckPolicyCompatiblility_bilateral (L : ConstraintLanguage) (n b s : ExternalPolicy)
    (nodeArch : String) :
    ∃ compatible reason producer consumer,
      CheckPolicyCompatiblility L (some n) (some b) (some s) nodeArch =
        Except.ok (compatible, reason, some producer, some consumer) ∧
      addNodeArchToPolicy (some n) nodeArch = Except.ok (some producer) ∧
      producer.Constraints = n.Constraints ∧
      producer.Properties =
        (if nodeArch = "" then n.Properties
         else n.Properties ++ [Property_Factory PROP_NODE_ARCH nodeArch]) ∧
      MergeFullServicePolicyToBusinessPolicy (some b) (some s) = Except.ok consumer ∧
      (compatible = true ↔
        (∀ c ∈ producer.Constraints, L.IsSatisfiedBy c consumer.Properties = true) ∧
        (∀ c ∈ consumer.Constraints, L.IsSatisfiedBy c producer.Properties = true)) ∧
      (compatible = true → reason = COMPATIBLE) := by
  have key : ∀ producer : ExternalPolicy,
      addNodeArchToPolicy (some n) nodeArch = Except.ok (some producer) →
      ∃ compatible reason consumer,
        CheckPolicyCompatiblility L (some n) (some b) (some s) nodeArch =
          Except.ok (compatible, reason, some producer, some consumer) ∧
        MergeFullServicePolicyToBusinessPolicy (some b) (some s) = Except.ok consumer ∧
        (compatible = true ↔
          (∀ c ∈ producer.Constraints, L.IsSatisfiedBy c consumer.Properties = true) ∧
          (∀ c ∈ consumer.Constraints, L.IsSatisfiedBy c producer.Properties = true)) ∧
        (compatible = true → reason = COMPATIBLE) := by
    intro producer hp
    refine ⟨(firstUnsatisfied L producer.Constraints
          (PropertyList.MergeWith b.Properties s.Properties false)).isNone &&
        (firstUnsatisfied L (ConstraintExpression.MergeWith b.Constraints s.Constraints)
          producer.Properties).isNone,
      compatibilityReason
        (firstUnsatisfied L producer.Constraints
          (PropertyList.MergeWith b.Properties s.Properties false))
        (firstUnsatisfied L (ConstraintExpression.MergeWith b.Constraints s.Constraints)
          producer.Properties),
      { Properties := PropertyList.MergeWith b.Properties s.Properties false,
        Constraints := ConstraintExpression.MergeWith b.Constraints s.Constraints },
      ?_, rfl, ?_, ?_⟩
    · simp only [CheckPolicyCompatiblility, hp, MergeFullServicePolicyToBusinessPolicy]
    · rw [Bool.and_eq_true, firstUnsatisfied_isNone, firstUnsatisfied_isNone]
    · intro hc
      rw [Bool.and_eq_true, Option.isNone_iff_eq_none, Option.isNone_iff_eq_none] at hc
      rw [hc.1, hc.2]
      rfl
  by_cases ha : nodeArch = ""
  · obtain ⟨c, r, consumer, h1, h2, h3, h4⟩ := key n (by simp [addNodeArchToPolicy, ha])
    exact ⟨c, r, n, consumer, h1, by simp [addNodeArchToPolicy, ha], rfl, by simp [ha], h2, h3, h4⟩
  · obtain ⟨c, r, consumer, h1, h2, h3, h4⟩ :=
      key { n with Properties := n.Properties ++ [Property_Factory PROP_NODE_ARCH nodeArch] }
        (by simp [addNodeArchToPolicy, ha])
    exact ⟨c, r, _, consumer, h1, by simp [addNodeArchToPolicy, ha], rfl, by simp [ha], h2, h3, h4⟩

/-- C2: the nil checks of `CheckPolicyCompatiblility` come first and in the order
node, business, merged service: a nil node policy gives `Node policy cannot be
null.` whatever the other inputs are, else a nil business policy gives `Business
policy cannot be null.`, else a nil merged service policy gives `Merged service
policy cannot be null.`; no constraint is evaluated. -/
theorem CheckPolicyCompatiblility_nil_checks (L : ConstraintLanguage) :
    (∀ (b s : Option ExternalPolicy) (nodeArch : String),
      CheckPolicyCompatiblility L none b s nodeArch = Except.error "Node policy cannot be null.") ∧
    (∀ (n : ExternalPolicy) (s : Option ExternalPolicy) (nodeArch : String),
      CheckPolicyCompatiblility L (some n) none s nodeArch =
        Except.error "Business policy cannot be null.") ∧
    (∀ (n b : ExternalPolicy) (nodeArch : String),
      CheckPolicyCompatiblility L (some n) (some b) none nodeArch =
        Except.error "Merged service policy cannot be null.") :=
  ⟨fun _ _ _ => rfl, fun _ _ _ => rfl, fun _ _ _ => rfl⟩

/-! ### Go maps as association lists -/

theorem mem_mapKeys_mapInsert {α : Type} (m : List (String × α)) (k : String) (v : α)
    (x : String) : x ∈ mapKeys (mapInsert m k v) ↔ x = k ∨ x ∈ mapKeys m := by
  induction m with
  | nil => simp [mapInsert, mapKeys]
  | cons kv rest ih =>
    obtain ⟨k2, v2⟩ := kv
    unfold mapInsert
    by_cases h : k2 = k
    · rw [if_pos h]
      subst h
      simp [mapKeys]
    · rw [if_neg h]
      simp only [mapKeys, List.map_cons, List.mem_cons] at ih ⊢
      rw [ih]
      tauto

theorem mapLookup_mapInsert {α : Type} (m : List (String × α)) (k : String) (v : α)
    (x : String) : mapLookup (mapInsert m k v) x = if k = x then some v else mapLookup m x := by
  induction m with
  | nil => simp [mapInsert, mapLookup]
  | cons kv rest ih =>
    obtain ⟨k2, v2⟩ := kv
    unfold mapInsert
    by_cases h : k2 = k
    · rw [if_pos h]
      subst h
      by_cases hx : k2 = x <;> simp [mapLookup, hx]
    · rw [if_neg h]
      unfold mapLookup
      by_cases hx : k2 = x
      · have : ¬ k = x := fun hk => h (hx.trans hk.symm)
        simp [hx, this]
      · simp [hx, ih]

theorem recordReasons_cons (r : CandidateResult) (rs : List CandidateResult)
    (m : List (String × String)) :
    recordReasons (r :: rs) m = recordReasons rs (mapInsert m r.Id r.Reason) := rfl

theorem mem_mapKeys_recordReasons (rs : List CandidateResult) (m : List (String × String))
    (x : String) :
    x ∈ mapKeys (recordReasons rs m) ↔ x ∈ mapKeys m ∨ ∃ r ∈ rs, r.Id = x := by
  induction rs generalizing m with
  | nil => simp [recordReasons]
  | cons r rs ih =>
    rw [recordReasons_cons, ih, mem_mapKeys_mapInsert]
    constructor
    · rintro ((h | h) | ⟨r2, hr2, h⟩)
      · exact Or.inr ⟨r, List.mem_cons_self _ _, h.symm⟩
      · exact Or.inl h
      · exact Or.inr ⟨r2, List.mem_cons_of_mem _ hr2, h⟩
    · rintro (h | ⟨r2, hr2, h⟩)
      · exact Or.inl (Or.inr h)
      · rcases List.mem_cons.mp hr2 with h1 | h1
        · exact Or.inl (Or.inl (by rw [← h, h1]))
        · exact Or.inr ⟨r2, h1, h⟩

theorem checkCandidate_ok (L : ConstraintLanguage) (H : ExchangeHandlers) (input : PolicyCompInput)
    (nodePol : Option ExternalPolicy) (bp : BusinessPolicy) (nodeArch : String) (c : Candidate)
    (r : CandidateResult) (h : checkCandidate L H input nodePol bp nodeArch c = Except.ok r) :
    r.Id = serviceIdentity bp.Service.Org bp.Service.Name c.Version c.Arch ∧
    (r.Compatible = true → r.Reason = COMPATIBLE) := by
  unfold checkCandidate at h
  simp only at h
  split at h
  · cases h
    exact ⟨rfl, fun hc => Bool.noConfusion hc⟩
  · split at h
    · exact Except.noConfusion h
    · split at h
      · exact Except.noConfusion h
      · cases h
        exact ⟨rfl, fun _ => rfl⟩
      · cases h
        exact ⟨rfl, fun hc => Bool.noConfusion hc⟩

theorem checkCandidates_all (L : ConstraintLanguage) (H : ExchangeHandlers)
    (input : PolicyCompInput) (nodePol : Option ExternalPolicy) (bp : BusinessPolicy)
    (nodeArch : String) (cands : List Candidate) (results : List CandidateResult)
    (h : checkCandidates L H input nodePol bp nodeArch true cands = Except.ok results) :
    List.Forall₂ (fun c r => checkCandidate L H input nodePol bp nodeArch c = Except.ok r)
      cands results := by
  induction cands generalizing results with
  | nil =>
    simp only [checkCandidates] at h
    cases h
    exact List.Forall₂.nil
  | cons c cs ih =>
    unfold checkCandidates at h
    cases hc : checkCandidate L H input nodePol bp nodeArch c with
    | error e => rw [hc] at h; exact Except.noConfusion h
    | ok r =>
      rw [hc] at h
      simp only [if_true] at h
      cases hrest : checkCandidates L H input nodePol bp nodeArch true cs with
      | error e => rw [hrest] at h; exact Except.noConfusion h
      | ok rs =>
        rw [hrest] at h
        cases h
        exact List.Forall₂.cons hc (ih rs hrest)

theorem candidateResults_eq_ok (L : ConstraintLanguage) (H : ExchangeHandlers)
    (input : PolicyCompInput) (checkAll : Bool) (cands : List Candidate)
    (results : List CandidateResult) :
    candidateResults L H input checkAll = Except.ok (cands, results) ↔
      ∃ nodeArch nodePol bp,
        resolveNodeArch H input = Except.ok nodeArch ∧
        getNodePolicy L H input = Except.ok nodePol ∧
        getBusinessPolicy L H input = Except.ok bp ∧
        enumerateCandidates H bp.Service nodeArch bp.Service.ServiceVersions = Except.ok cands ∧
        checkCandidates L H input nodePol bp nodeArch checkAll cands = Except.ok results := by
  unfold candidateResults
  cases h1 : resolveNodeArch H input with
  | error e => simp
  | ok nodeArch =>
    cases h2 : getNodePolicy L H input with
    | error e => simp
    | ok nodePol =>
      cases h3 : getBusinessPolicy L H input with
      | error e => simp
      | ok bp =>
        cases h4 : enumerateCandidates H bp.Service nodeArch bp.Service.ServiceVersions with
        | error e => simp [h4]
        | ok cs =>
          cases h5 : checkCandidates L H input nodePol bp nodeArch checkAll cs with
          | error e =>
            simp only [h4, h5]
            constructor
            · intro h; exact Except.noConfusion h
            · rintro ⟨a, n, b, ha, hn, hb, he, hc⟩
              cases ha; cases hn; cases hb
              rw [h4] at he
              cases he
              rw [h5] at hc
              exact Except.noConfusion hc
          | ok rs =>
            simp only [h4, h5]
            constructor
            · intro h
              cases h
              exact ⟨nodeArch, nodePol, bp, rfl, rfl, rfl, h4, h5⟩
            · rintro ⟨a, n, b, ha, hn, hb, he, hc⟩
              cases ha; cases hn; cases hb
              rw [h4] at he
              cases he
              rw [h5] at hc
              cases hc
              rfl

theorem policyCompatible_eq_ok (L : ConstraintLanguage) (H : ExchangeHandlers)
    (input : PolicyCompInput) (checkAll : Bool) (out : PolicyCompOutput) :
    policyCompatible L H input checkAll = Except.ok out ↔
      ∃ cands results, candidateResults L H input checkAll = Except.ok (cands, results) ∧
        out = NewPolicyCompOutput results := by
  unfold policyCompatible
  cases h : candidateResults L H input checkAll with
  | error e => simp
  | ok cr =>
    obtain ⟨cands, results⟩ := cr
    simp only [Except.ok.injEq, Prod.mk.injEq]
    constructor
    · intro h1
      exact ⟨cands, results, ⟨rfl, rfl⟩, h1.symm⟩
    · rintro ⟨c, r, ⟨hc, hr⟩, ho⟩
      rw [ho, hr]

theorem forall₂_ids (L : ConstraintLanguage) (H : ExchangeHandlers) (input : PolicyCompInput)
    (nodePol : Option ExternalPolicy) (bp : BusinessPolicy) (nodeArch : String)
    (cands : List Candidate) (results : List CandidateResult)
    (h : List.Forall₂ (fun c r => checkCandidate L H input nodePol bp nodeArch c = Except.ok r)
      cands results) :
    results.map CandidateResult.Id =
      cands.map (fun c => serviceIdentity bp.Service.Org bp.Service.Name c.Version c.Arch) := by
  induction h with
  | nil => rfl
  | cons hc _ ih =>
    rw [List.map_cons, List.map_cons, ih, (checkCandidate_ok L H input nodePol bp nodeArch _ _ hc).1]

theorem mapKeys_output (results : List CandidateResult) (x : String) :
    x ∈ mapKeys (NewPolicyCompOutput results).Reason ↔ x ∈ results.map CandidateResult.Id := by
  unfold NewPolicyCompOutput
  rw [mem_mapKeys_recordReasons]
  simp [mapKeys]

/-- Unfolding of a successful `checkAll = true` run: the steps that succeeded, the
candidates, one verdict per candidate, and the keys of the reason map. -/
theorem policyCompatible_true_ok (L : ConstraintLanguage) (H : ExchangeHandlers)
    (input : PolicyCompInput) (outAll : PolicyCompOutput)
    (hall : policyCompatible L H input true = Except.ok outAll) :
    ∃ (nodeArch : String) (nodePol : Option ExternalPolicy) (bp : BusinessPolicy)
      (cands : List Candidate) (results : List CandidateResult),
      candidateResults L H input true = Except.ok (cands, results) ∧
      resolveNodeArch H input = Except.ok nodeArch ∧
      getNodePolicy L H input = Except.ok nodePol ∧
      getBusinessPolicy L H input = Except.ok bp ∧
      enumerateCandidates H bp.Service nodeArch bp.Service.ServiceVersions = Except.ok cands ∧
      List.Forall₂ (fun c r => checkCandidate L H input nodePol bp nodeArch c = Except.ok r)
        cands results ∧
      outAll = NewPolicyCompOutput results ∧
      (∀ sId, sId ∈ mapKeys outAll.Reason ↔
        ∃ c ∈ cands, sId = serviceIdentity bp.Service.Org bp.Service.Name c.Version c.Arch) := by
  obtain ⟨cands, results, hcr, hout⟩ := (policyCompatible_eq_ok L H input true outAll).mp hall
  obtain ⟨nodeArch, nodePol, bp, h1, h2, h3, h4, h5⟩ :=
    (candidateResults_eq_ok L H input true cands results).mp hcr
  have hf := checkCandidates_all L H input nodePol bp nodeArch cands results h5
  have hids := forall₂_ids L H input nodePol bp nodeArch cands results hf
  refine ⟨nodeArch, nodePol, bp, cands, results, hcr, h1, h2, h3, h4, hf, hout, ?_⟩
  intro sId
  rw [hout, mapKeys_output, hids]
  simp only [List.mem_map]
  constructor
  · rintro ⟨c, hc, h⟩
    exact ⟨c, hc, h.symm⟩
  · rintro ⟨c, hc, h⟩
    exact ⟨c, hc, h.symm⟩

/-- Where section 4.4 says nothing, the model makes a choice. A request for which no
candidate is enumerated (wildcard architecture, registry without a definition
of the service) raises no error and gets an empty reason map with and without
`checkAll`. A business policy that names version 1.0.1 twice enumerates one
identity twice, and the `checkAll = true` map has one entry for it. -/
theorem policyCompatible_where_the_spec_is_silent :
    policyCompatible exampleLanguage (testHandlers "" (testBusinessPolicy "*") [])
        testInputWildcard false = Except.ok ⟨true, []⟩ ∧
    policyCompatible exampleLanguage (testHandlers "" (testBusinessPolicy "*") [])
        testInputWildcard true = Except.ok ⟨true, []⟩ ∧
    (candidateResults exampleLanguage (testHandlers "" repeatedVersionBusinessPolicy [])
        { NodePolicy := some testNodePolicy, BusinessPolicy := some repeatedVersionBusinessPolicy }
        true).map (fun cr => cr.1) = Except.ok [⟨"1.0.1", "amd64"⟩, ⟨"1.0.1", "amd64"⟩] ∧
    policyCompatible exampleLanguage (testHandlers "" repeatedVersionBusinessPolicy [])
        { NodePolicy := some testNodePolicy, BusinessPolicy := some repeatedVersionBusinessPolicy }
        true = Except.ok ⟨true, [("myorg/weather_1.0.1_amd64", "Compatible")]⟩ := by
  refine ⟨by decide, by decide, by decide, by decide⟩

theorem candidateArchs_wildcard (H : ExchangeHandlers) (svc : ServiceRef)
    (nodeArch version : String) (hw : svc.Arch = "*") :
    candidateArchs H svc nodeArch version =
      match H.getSelectedServices svc.Name svc.Org version svc.Arch with
      | Except.error e =>
        Except.error ("Failed to get services for all archetctures for " ++ svc.Org ++ "/" ++
          svc.Name ++ " version " ++ version ++ ". " ++ e)
      | Except.ok defs =>
        Except.ok ((defs.map (fun kv => kv.2.Arch)).filter
          (fun a => nodeArch = "" ∨ a = nodeArch)) := by
  unfold candidateArchs
  rw [if_pos hw]

theorem enumerateCandidates_wildcard (H : ExchangeHandlers) (svc : ServiceRef)
    (nodeArch : String) (hw : svc.Arch = "*") (ws : List WorkloadChoice)
    (cands : List Candidate)
    (h : enumerateCandidates H svc nodeArch ws = Except.ok cands) :
    (∀ w ∈ ws, ∃ defs, H.getSelectedServices svc.Name svc.Org w.Version svc.Arch = Except.ok defs) ∧
    (∀ c, c ∈ cands ↔
      ∃ w ∈ ws, ∃ defs, H.getSelectedServices svc.Name svc.Org w.Version svc.Arch = Except.ok defs ∧
        ∃ kv ∈ defs, (nodeArch = "" ∨ kv.2.Arch = nodeArch) ∧
          c = Candidate.mk w.Version kv.2.Arch) := by
  induction ws generalizing cands with
  | nil =>
    simp only [enumerateCandidates] at h
    cases h
    simp
  | cons w ws ih =>
    unfold enumerateCandidates at h
    rw [candidateArchs_wildcard H svc nodeArch w.Version hw] at h
    cases hsel : H.getSelectedServices svc.Name svc.Org w.Version svc.Arch with
    | error e => rw [hsel] at h; exact Except.noConfusion h
    | ok defs =>
      rw [hsel] at h
      simp only at h
      cases hrest : enumerateCandidates H svc nodeArch ws with
      | error e => rw [hrest] at h; exact Except.noConfusion h
      | ok rest =>
        rw [hrest] at h
        cases h
        obtain ⟨ih1, ih2⟩ := ih rest hrest
        constructor
        · intro w2 hw2
          rcases List.mem_cons.mp hw2 with h0 | h0
          · subst h0
            exact ⟨defs, hsel⟩
          · exact ih1 w2 h0
        · intro c
          rw [List.mem_append, ih2 c]
          constructor
          · rintro (h0 | ⟨w2, hw2, d2, hd2, hkv⟩)
            · obtain ⟨a, ha, hc⟩ := List.mem_map.mp h0
              obtain ⟨ha1, ha2⟩ := List.mem_filter.mp ha
              obtain ⟨kv, hkv, hka⟩ := List.mem_map.mp ha1
              refine ⟨w, List.mem_cons_self _ _, defs, hsel, kv, hkv, ?_, by rw [← hc, ← hka]⟩
              rw [hka]
              exact of_decide_eq_true ha2
            · exact ⟨w2, List.mem_cons_of_mem _ hw2, d2, hd2, hkv⟩
          · rintro ⟨w2, hw2, d2, hd2, kv, hkv, hcond, hc⟩
            rcases List.mem_cons.mp hw2 with h0 | h0
            · subst h0
              rw [hsel] at hd2
              cases hd2
              left
              rw [hc]
              refine List.mem_map.mpr ⟨kv.2.Arch, List.mem_filter.mpr ⟨?_, ?_⟩, rfl⟩
              · exact List.mem_map.mpr ⟨kv, hkv, rfl⟩
              · exact decide_eq_true hcond
            · exact Or.inr ⟨w2, h0, d2, hd2, kv, hkv, hcond, hc⟩

/-- Counterexample to C8 as stated: request `input4` of
`Test_policyCompatible_with_Pols`. The business policy has the wildcard
architecture and versions 1.0.1 and 2.0.1, the registry has both versions on
amd64 and on arm64, the request gives node architecture amd64: the reason map
has 2 entries, the amd64 ones, and no entry for the arm64 definitions. -/
theorem policyCompatible_wildcard_node_arch_counterexample :
    (testBusinessPolicy "*").Service.Arch = "*" ∧
    (testHandlers "" (testBusinessPolicy "*") testServices).getSelectedServices
        "weather" "myorg" "1.0.1" "*" =
      Except.ok
        [ ("myorg/weather_1.0.1_amd64", { URL := "weather", Version := "1.0.1", Arch := "amd64" }),
          ("myorg/weather_1.0.1_arm64", { URL := "weather", Version := "1.0.1", Arch := "arm64" }) ] ∧
    (testHandlers "" (testBusinessPolicy "*") testServices).getSelectedServices
        "weather" "myorg" "2.0.1" "*" =
      Except.ok
        [ ("myorg/weather_2.0.1_amd64", { URL := "weather", Version := "2.0.1", Arch := "amd64" }),
          ("myorg/weather_2.0.1_arm64", { URL := "weather", Version := "2.0.1", Arch := "arm64" }) ] ∧
    policyCompatible exampleLanguage (testHandlers "" (testBusinessPolicy "*") testServices)
        testInputWildcardAmd64 true =
      Except.ok ⟨true,
        [("myorg/weather_1.0.1_amd64", "Compatible"), ("myorg/weather_2.0.1_amd64", "Compatible")]⟩ := by
  refine ⟨by decide, by decide, by decide, by decide⟩

/-- C8, amended: when the business policy's service architecture is the wildcard,
`policyCompatible` with `checkAll = true` has looked up every declared version in
the registry, and the keys of its reason map are exactly the identities
`org/url_version_arch` for a declared version and the architecture of a service
definition the registry returned for that version, restricted to the node
architecture when one is known (given in the request or read from the node
record); a version the policy does not declare gives no entry. With versions
1.0.1 and 2.0.1 and a registry with 1.0.1, 2.0.1 and 3.0.1 on amd64 and arm64
(`Test_policyCompatible_with_Pols`) the reason map has exactly 4 entries when no
node architecture is known, and 2 when it is amd64. -/
theorem policyCompatible_wildcard_enumeration :
    (∀ (L : ConstraintLanguage) (H : ExchangeHandlers) (input : PolicyCompInput)
      (nodeArch : String) (bp : BusinessPolicy) (out : PolicyCompOutput),
      resolveNodeArch H input = Except.ok nodeArch →
      getBusinessPolicy L H input = Except.ok bp →
      bp.Service.Arch = "*" →
      policyCompatible L H input true = Except.ok out →
      (∀ w ∈ bp.Service.ServiceVersions, ∃ defs,
        H.getSelectedServices bp.Service.Name bp.Service.Org w.Version "*" = Except.ok defs) ∧
      (∀ sId, sId ∈ mapKeys out.Reason ↔
        ∃ w ∈ bp.Service.ServiceVersions, ∃ defs,
          H.getSelectedServices bp.Service.Name bp.Service.Org w.Version "*" = Except.ok defs ∧
          ∃ kv ∈ defs, (nodeArch = "" ∨ kv.2.Arch = nodeArch) ∧
            sId = serviceIdentity bp.Service.Org bp.Service.Name w.Version kv.2.Arch)) ∧
    resolveNodeArch (testHandlers "" (testBusinessPolicy "*") testServices) testInputWildcard =
      Except.ok "" ∧
    (policyCompatible exampleLanguage (testHandlers "" (testBusinessPolicy "*") testServices)
        testInputWildcard true).map (fun out => out.Reason.length) = Except.ok 4 ∧
    (policyCompatible exampleLanguage (testHandlers "" (testBusinessPolicy "*") testServices)
        testInputWildcard true).map (fun out => mapKeys out.Reason) =
      Except.ok ["myorg/weather_1.0.1_amd64", "myorg/weather_1.0.1_arm64",
        "myorg/weather_2.0.1_amd64", "myorg/weather_2.0.1_arm64"] ∧
    resolveNodeArch (testHandlers "" (testBusinessPolicy "*") testServices)
        testInputWildcardAmd64 = Except.ok "amd64" ∧
    (policyCompatible exampleLanguage (testHandlers "" (testBusinessPolicy "*") testServices)
        testInputWildcardAmd64 true).map (fun out => out.Reason.length) = Except.ok 2 := by
  refine ⟨?_, by decide, by decide, by decide, by decide, by decide⟩
  intro L H input nodeArch bp out hres hbp hw hout
  obtain ⟨nodeArch2, nodePol, bp2, cands, results, _, h1, _, h3, h4, _, _, hkeys⟩ :=
    policyCompatible_true_ok L H input out hout
  rw [hres] at h1
  cases h1
  rw [hbp] at h3
  cases h3
  obtain ⟨e1, e2⟩ := enumerateCandidates_wildcard H bp.Service nodeArch hw _ cands h4
  rw [hw] at e1 e2
  refine ⟨e1, ?_⟩
  intro sId
  rw [hkeys]
  constructor
  · rintro ⟨c, hc, hs⟩
    obtain ⟨w, hw2, defs, hd, kv, hkv, hcond, hcc⟩ := (e2 c).mp hc
    exact ⟨w, hw2, defs, hd, kv, hkv, hcond, by rw [hs, hcc]⟩
  · rintro ⟨w, hw2, defs, hd, kv, hkv, hcond, hs⟩
    exact ⟨Candidate.mk w.Version kv.2.Arch,
      (e2 _).mpr ⟨w, hw2, defs, hd, kv, hkv, hcond, rfl⟩, hs⟩

/-- Witness of C8 amended on request `input3` of `Test_policyCompatible_with_Pols`. -/
theorem policyCompatible_wildcard_enumeration_witness :
    ∀ sId, sId ∈ ["myorg/weather_1.0.1_amd64", "myorg/weather_1.0.1_arm64",
        "myorg/weather_2.0.1_amd64", "myorg/weather_2.0.1_arm64"] ↔
      ∃ w ∈ (testBusinessPolicy "*").Service.ServiceVersions, ∃ defs,
        (testHandlers "" (testBusinessPolicy "*") testServices).getSelectedServices
            (testBusinessPolicy "*").Service.Name (testBusinessPolicy "*").Service.Org
            w.Version "*" = Except.ok defs ∧
        ∃ kv ∈ defs, (("" : String) = "" ∨ kv.2.Arch = "") ∧
          sId = serviceIdentity (testBusinessPolicy "*").Service.Org
            (testBusinessPolicy "*").Service.Name w.Version kv.2.Arch :=
  (policyCompatible_wildcard_enumeration.1 exampleLanguage
    (testHandlers "" (testBusinessPolicy "*") testServices) testInputWildcard ""
    (testBusinessPolicy "*")
    ⟨true,
      [("myorg/weather_1.0.1_amd64", "Compatible"), ("myorg/weather_1.0.1_arm64", "Compatible"),
       ("myorg/weather_2.0.1_amd64", "Compatible"), ("myorg/weather_2.0.1_arm64", "Compatible")]⟩
    (by decide) (by decide) (by decide) (by decide)).2

/-- C9: when the request names a node whose registry record is found, gives a
non-empty node architecture and that architecture differs from the record's,
`policyCompatible` fails with an error that begins `The input node architecture
<arch> does not match`, with either value of `checkAll` and whatever the node,
business and service policies are; no candidate is enumerated or evaluated. -/
theorem policyCompatible_node_arch_mismatch (L : ConstraintLanguage) (H : ExchangeHandlers)
    (input : PolicyCompInput) (checkAll : Bool) (dev : Device)
    (hid : input.NodeId ≠ "") (hdev : H.getDevice input.NodeId = Except.ok dev)
    (harch : input.NodeArch ≠ "") (hne : dev.Arch ≠ input.NodeArch) :
    ∃ rest : String,
      policyCompatible L H input checkAll =
        Except.error ("The input node architecture " ++ input.NodeArch ++ " does not match" ++ rest) ∧
      candidateResults L H input checkAll =
        Except.error ("The input node architecture " ++ input.NodeArch ++ " does not match" ++ rest) := by
  have hres : resolveNodeArch H input =
      Except.error ("The input node architecture " ++ input.NodeArch ++ " does not match" ++
        (" the exchange node architecture " ++ dev.Arch ++ " for node " ++ input.NodeId ++ ".")) := by
    unfold resolveNodeArch
    rw [if_neg hid, hdev]
    simp only [if_neg harch, if_neg hne]
    congr 1
    have hlit : " does not match the exchange node architecture " =
        " does not match" ++ " the exchange node architecture " := by decide
    rw [hlit]
    simp only [String.append_assoc]
  have hcr : candidateResults L H input checkAll =
      Except.error ("The input node architecture " ++ input.NodeArch ++ " does not match" ++
        (" the exchange node architecture " ++ dev.Arch ++ " for node " ++ input.NodeId ++ ".")) := by
    unfold candidateResults
    rw [hres]
  refine ⟨_, ?_, hcr⟩
  unfold policyCompatible
  rw [hcr]

/-- Witness of C9 on request `input_wrong_arch` of `Test_policyCompatible_with_IDs`:
the request says arm64, the node record says amd64. -/
theorem policyCompatible_node_arch_mismatch_witness :
    ∃ rest : String,
      policyCompatible exampleLanguage (testHandlers "amd64" (testBusinessPolicy "amd64") [])
          testInputWrongArch true =
        Except.error ("The input node architecture " ++ "arm64" ++ " does not match" ++ rest) ∧
      candidateResults exampleLanguage (testHandlers "amd64" (testBusinessPolicy "amd64") [])
          testInputWrongArch true =
        Except.error ("The input node architecture " ++ "arm64" ++ " does not match" ++ rest) :=
  policyCompatible_node_arch_mismatch exampleLanguage
    (testHandlers "amd64" (testBusinessPolicy "amd64") []) testInputWrongArch true
    { Name := "myorg/mynode", Owner := "me", Arch := "amd64" }
    (by decide) rfl (by decide) (by decide)

/-! ### User-input comparison -/

theorem mapLookup_foldl_insert (d : List UserInput) (m : List (String × UserInput))
    (name : String) :
    mapLookup (d.foldl (fun m u => mapInsert m u.Name u) m) name =
      (declaredInput d name).or (mapLookup m name) := by
  induction d generalizing m with
  | nil => simp [declaredInput]
  | cons u rest ih =>
    rw [List.foldl_cons, ih, mapLookup_mapInsert]
    unfold declaredInput
    rw [List.reverse_cons, List.find?_append, List.find?_singleton]
    cases List.find? (fun u => u.Name == name) rest.reverse with
    | some v => simp
    | none =>
      by_cases h : u.Name = name
      · simp [h]
      · simp [h]

theorem mapLookup_serviceUserInputsMap (d : List UserInput) (name : String) :
    mapLookup (serviceUserInputsMap d) name = declaredInput d name := by
  unfold serviceUserInputsMap
  rw [mapLookup_foldl_insert]
  simp [mapLookup]

theorem declaredInput_some (d : List UserInput) (name : String) (u : UserInput)
    (h : declaredInput d name = some u) : u ∈ d ∧ u.Name = name := by
  unfold declaredInput at h
  refine ⟨List.mem_reverse.mp (List.mem_of_find?_eq_some h), ?_⟩
  have := List.find?_some h
  simpa using this

theorem declaredInput_eq_none_iff (d : List UserInput) (name : String) :
    declaredInput d name = none ↔ name ∉ d.map UserInput.Name := by
  unfold declaredInput
  rw [List.find?_eq_none]
  simp only [List.mem_reverse, beq_iff_eq, List.mem_map, not_exists, not_and]

theorem compareUserInputLoop_false_iff {V : Type} (verify : V → String → Option String)
    (M : List (String × UserInput)) (supplied : List (Input V)) (acc : List String) :
    (compareUserInputLoop verify M supplied acc).1 = false ↔
      ∃ i ∈ supplied, ∃ d, mapLookup M i.Name = some d ∧ (verify i.Value d.Type_).isSome = true := by
  induction supplied generalizing acc with
  | nil =>
    unfold compareUserInputLoop
    by_cases h : acc.length ≠ 0 <;> simp [h]
  | cons i rest ih =>
    unfold compareUserInputLoop
    cases hl : mapLookup M i.Name with
    | none =>
      simp only [ih, List.mem_cons, exists_eq_or_imp, hl]
      simp
    | some d =>
      cases hv : verify i.Value d.Type_ with
      | some e =>
        simp only [List.mem_cons, exists_eq_or_imp, hl, Option.some.injEq, exists_eq_left', hv]
        simp
      | none =>
        simp only [ih, List.mem_cons, exists_eq_or_imp, hl, Option.some.injEq, exists_eq_left', hv]
        simp

theorem compareUserInputLoop_first {V : Type} (verify : V → String → Option String)
    (M : List (String × UserInput)) (pre : List (Input V)) (i : Input V) (post : List (Input V))
    (d : UserInput) (e : String) (acc : List String)
    (hpre : ∀ j ∈ pre, ∀ dj, mapLookup M j.Name = some dj → verify j.Value dj.Type_ = none)
    (hd : mapLookup M i.Name = some d) (he : verify i.Value d.Type_ = some e) :
    compareUserInputLoop verify M (pre ++ i :: post) acc =
      (false, some ("Error validating the type of userInput variable " ++ i.Name ++
        ". error: " ++ e)) := by
  induction pre generalizing acc with
  | nil =>
    rw [List.nil_append]
    unfold compareUserInputLoop
    simp only [hd, he]
  | cons j pre ih =>
    have hrest : ∀ k ∈ pre, ∀ dk, mapLookup M k.Name = some dk → verify k.Value dk.Type_ = none :=
      fun k hk => hpre k (List.mem_cons_of_mem _ hk)
    rw [List.cons_append]
    unfold compareUserInputLoop
    cases hl : mapLookup M j.Name with
    | none => exact ih _ hrest
    | some dj =>
      simp only [hpre j (List.mem_cons_self _ _) dj hl]
      exact ih _ hrest

/-- C10: `compareUserInput` returns `ok = false` exactly when some supplied input has
a name the service declares and its value fails the type check against the
type declared under that name; the error then names the first such input in
supplied order, with the text of the type check. Supplied inputs whose names
are not declared never make `ok` false. -/
theorem compareUserInput_type_check {V : Type} (verify : V → String → Option String)
    (declared : List UserInput) (supplied : List (Input V)) :
    ((compareUserInput verify declared supplied).1 = false ↔
      ∃ i ∈ supplied, ∃ d, declaredInput declared i.Name = some d ∧
        (verify i.Value d.Type_).isSome = true) ∧
    (∀ i d, declaredInput declared i = some d → d ∈ declared ∧ d.Name = i) ∧
    (∀ pre i post d e, supplied = pre ++ i :: post →
      (∀ j ∈ pre, ∀ dj, declaredInput declared j.Name = some dj →
        verify j.Value dj.Type_ = none) →
      declaredInput declared i.Name = some d → verify i.Value d.Type_ = some e →
      compareUserInput verify declared supplied =
        (false, some ("Error validating the type of userInput variable " ++ i.Name ++
          ". error: " ++ e))) ∧
    ((∀ i ∈ supplied, i.Name ∉ declared.map UserInput.Name) →
      (compareUserInput verify declared supplied).1 = true) := by
  have hiff : (compareUserInput verify declared supplied).1 = false ↔
      ∃ i ∈ supplied, ∃ d, declaredInput declared i.Name = some d ∧
        (verify i.Value d.Type_).isSome = true := by
    unfold compareUserInput
    rw [compareUserInputLoop_false_iff]
    simp only [mapLookup_serviceUserInputsMap]
  refine ⟨hiff, fun i d h => declaredInput_some declared i d h, ?_, ?_⟩
  · intro pre i post d e hs hpre hd he
    unfold compareUserInput
    rw [hs]
    apply compareUserInputLoop_first verify _ pre i post d e []
    · intro j hj dj hl
      rw [mapLookup_serviceUserInputsMap] at hl
      exact hpre j hj dj hl
    · rw [mapLookup_serviceUserInputsMap]
      exact hd
    · exact he
  · intro hnone
    cases hres : (compareUserInput verify declared supplied).1 with
    | true => rfl
    | false =>
      obtain ⟨i, hi, d, hd, _⟩ := hiff.mp hres
      have := (declaredInput_eq_none_iff declared i.Name).mpr (hnone i hi)
      rw [this] at hd
      exact Option.noConfusion hd

/-- Witness of C10: the service declares `foo` as a string and `n` as an int. For
the supplied `bar` (not declared), `foo` (well typed), `n` (given a string) and
`foo` again, the error names `n`; supplied inputs that are all undeclared give
`ok = true`. -/
theorem compareUserInput_type_check_witness :
    compareUserInput exampleVerifyWorkloadVarTypes
        [{ Name := "foo", Type_ := "string" }, { Name := "n", Type_ := "int" }]
        [⟨"bar", PropertyValue.bool true⟩, ⟨"foo", PropertyValue.str "x"⟩,
         ⟨"n", PropertyValue.str "three"⟩, ⟨"foo", PropertyValue.int 1⟩] =
      (false, some ("Error validating the type of userInput variable " ++ "n" ++
        ". error: " ++ "type mismatch, expecting int")) ∧
    (compareUserInput exampleVerifyWorkloadVarTypes
        [{ Name := "foo", Type_ := "string" }, { Name := "n", Type_ := "int" }]
        [⟨"bar", PropertyValue.bool true⟩, ⟨"baz", PropertyValue.int 1⟩]).1 = true :=
  ⟨(compareUserInput_type_check exampleVerifyWorkloadVarTypes
      [{ Name := "foo", Type_ := "string" }, { Name := "n", Type_ := "int" }]
      [⟨"bar", PropertyValue.bool true⟩, ⟨"foo", PropertyValue.str "x"⟩,
       ⟨"n", PropertyValue.str "three"⟩, ⟨"foo", PropertyValue.int 1⟩]).2.2.1
    [⟨"bar", PropertyValue.bool true⟩, ⟨"foo", PropertyValue.str "x"⟩]
    ⟨"n", PropertyValue.str "three"⟩ [⟨"foo", PropertyValue.int 1⟩]
    { Name := "n", Type_ := "int" } "type mismatch, expecting int" rfl
    (by
      intro j hj dj hdj
      rcases List.mem_cons.mp hj with h | h
      · subst h
        have h3 : declaredInput [{ Name := "foo", Type_ := "string" }, { Name := "n", Type_ := "int" }]
            "bar" = none := by decide
        rw [h3] at hdj
        exact Option.noConfusion hdj
      · rcases List.mem_cons.mp h with h2 | h2
        · subst h2
          have : dj = { Name := "foo", Type_ := "string" } := by
            have h3 : declaredInput [{ Name := "foo", Type_ := "string" }, { Name := "n", Type_ := "int" }]
                "foo" = some { Name := "foo", Type_ := "string" } := by decide
            rw [h3] at hdj
            exact (Option.some.inj hdj).symm
          subst this
          rfl
        · exact absurd h2 (List.not_mem_nil _))
    (by decide) (by decide),
   (compareUserInput_type_check exampleVerifyWorkloadVarTypes
      [{ Name := "foo", Type_ := "string" }, { Name := "n", Type_ := "int" }]
      [⟨"bar", PropertyValue.bool true⟩, ⟨"baz", PropertyValue.int 1⟩]).2.2.2
    (by
      intro i hi
      rcases List.mem_cons.mp hi with h | h
      · subst h
        decide
      · rcases List.mem_cons.mp h with h2 | h2
        · subst h2
          decide
        · exact absurd h2 (List.not_mem_nil _))⟩

/-! ### The repository's tests, replayed on the embedding -/

/-- `Test_CheckPolicyCompatiblility`: compatible with 2 producer properties and 9
consumer properties; not compatible when `prop4` differs; 3 producer properties
with node architecture amd64. -/
theorem test_CheckPolicyCompatiblility :
    (CheckPolicyCompatiblility exampleLanguage (some testNodePolicy)
        (some (BusinessPolicy.toExternalPolicy (testBusinessPolicy "amd64")))
        (some testMergedSPol) "").map decisionShape =
      Except.ok (true, some (2, 2), some (9, 2)) ∧
    (CheckPolicyCompatiblility exampleLanguage (some testNodePolicy2)
        (some (BusinessPolicy.toExternalPolicy (testBusinessPolicy "amd64")))
        (some testMergedSPol) "").map decisionShape =
      Except.ok (false, some (2, 2), some (9, 2)) ∧
    (CheckPolicyCompatiblility exampleLanguage (some testNodePolicy)
        (some (BusinessPolicy.toExternalPolicy (testBusinessPolicy "amd64")))
        (some testMergedSPol) "amd64").map decisionShape =
      Except.ok (true, some (3, 2), some (9, 2)) := by
  refine ⟨by decide, by decide, by decide⟩

/-- `Test_policyCompatible_with_IDs`: two compatible entries with `checkAll`, one
without, two `Architecture does not match` entries for a node on arm64, and two
entries for the wildcard policy and a node on amd64. -/
theorem test_policyCompatible_with_IDs :
    policyCompatible exampleLanguage (testHandlers "amd64" (testBusinessPolicy "amd64") [])
        testInputIds true =
      Except.ok ⟨true,
        [("myorg/weather_1.0.1_amd64", "Compatible"), ("myorg/weather_2.0.1_amd64", "Compatible")]⟩ ∧
    policyCompatible exampleLanguage (testHandlers "amd64" (testBusinessPolicy "amd64") [])
        testInputIds false =
      Except.ok ⟨true, [("myorg/weather_1.0.1_amd64", "Compatible")]⟩ ∧
    policyCompatible exampleLanguage (testHandlers "arm64" (testBusinessPolicy "amd64") [])
        testInputIds true =
      Except.ok ⟨false,
        [("myorg/weather_1.0.1_amd64", "Incompatible: Architecture does not match."),
         ("myorg/weather_2.0.1_amd64", "Incompatible: Architecture does not match.")]⟩ ∧
    policyCompatible exampleLanguage (testHandlers "amd64" (testBusinessPolicy "*") testServices)
        testInputIds true =
      Except.ok ⟨true,
        [("myorg/weather_1.0.1_amd64", "Compatible"), ("myorg/weather_2.0.1_amd64", "Compatible")]⟩ := by
  refine ⟨by decide, by decide, by decide, by decide⟩

/-- `Test_policyCompatible_with_Pols`: with the policies in the request, two
compatible entries, and two incompatible entries for `nodePolicy2`. -/
theorem test_policyCompatible_with_Pols :
    policyCompatible exampleLanguage (testHandlers "" (testBusinessPolicy "amd64") [])
        { NodePolicy := some testNodePolicy, BusinessPolicy := some (testBusinessPolicy "amd64"),
          ServicePolicy := some testHandlerServicePolicy } true =
      Except.ok ⟨true,
        [("myorg/weather_1.0.1_amd64", "Compatible"), ("myorg/weather_2.0.1_amd64", "Compatible")]⟩ ∧
    (policyCompatible exampleLanguage (testHandlers "" (testBusinessPolicy "amd64") [])
        { NodePolicy := some testNodePolicy2, BusinessPolicy := some (testBusinessPolicy "amd64"),
          ServicePolicy := some testHandlerServicePolicy } true).map
        (fun out => (out.Compatible, mapKeys out.Reason)) =
      Except.ok (false, ["myorg/weather_1.0.1_amd64", "myorg/weather_2.0.1_amd64"]) := by
  refine ⟨by decide, by decide⟩

/-! ### Default values and warnings of the user-input validation -/

theorem sliceContains_iff (l : List String) (e : String) : sliceContains l e = true ↔ e ∈ l := by
  induction l with
  | nil => simp [sliceContains]
  | cons x rest ih =>
    unfold sliceContains
    by_cases h : x = e
    · simp [h]
    · rw [if_neg h, ih, List.mem_cons]
      constructor
      · exact Or.inr
      · rintro (h1 | h1)
        · exact absurd h1.symm h
        · exact h1

theorem checkDefaultValueLoop_ok_iff (names : List String) (declared : List UserInput) :
    (checkDefaultValueLoop names declared).1 = true ↔
      ∀ d ∈ declared, d.DefaultValue = "" → d.Name ∈ names := by
  induction declared with
  | nil => simp [checkDefaultValueLoop]
  | cons d rest ih =>
    unfold checkDefaultValueLoop
    by_cases hd : d.DefaultValue = ""
    · rw [if_pos hd]
      by_cases hc : sliceContains names d.Name = true
      · rw [if_pos hc, ih]
        have hm := (sliceContains_iff names d.Name).mp hc
        simp only [List.mem_cons, forall_eq_or_imp]
        exact ⟨fun h => ⟨fun _ => hm, h⟩, fun h => h.2⟩
      · rw [if_neg hc]
        have hm : d.Name ∉ names := fun h => hc ((sliceContains_iff names d.Name).mpr h)
        simp only [List.mem_cons, forall_eq_or_imp, Bool.false_eq_true, false_iff, not_and]
        intro h
        exact absurd (h hd) hm
    · rw [if_neg hd, ih]
      simp only [List.mem_cons, forall_eq_or_imp]
      exact ⟨fun h => ⟨fun h0 => absurd h0 hd, h⟩, fun h => h.2⟩

theorem checkDefaultValueLoop_ok_error (names : List String) (declared : List UserInput)
    (h : (checkDefaultValueLoop names declared).1 = true) :
    checkDefaultValueLoop names declared = (true, none) := by
  induction declared with
  | nil => rfl
  | cons d rest ih =>
    unfold checkDefaultValueLoop at h ⊢
    by_cases hd : d.DefaultValue = ""
    · rw [if_pos hd] at h ⊢
      by_cases hc : sliceContains names d.Name = true
      · rw [if_pos hc] at h ⊢
        exact ih h
      · rw [if_neg hc] at h
        exact Bool.noConfusion h
    · rw [if_neg hd] at h ⊢
      exact ih h

theorem checkDefaultValueLoop_first (names : List String) (pre : List UserInput)
    (d : UserInput) (post : List UserInput)
    (hpre : ∀ x ∈ pre, x.DefaultValue = "" → x.Name ∈ names)
    (hd : d.DefaultValue = "") (hn : d.Name ∉ names) :
    checkDefaultValueLoop names (pre ++ d :: post) =
      (false, some (d.Name ++ " needs to be set in userInput because it has no default value.")) := by
  induction pre with
  | nil =>
    rw [List.nil_append]
    unfold checkDefaultValueLoop
    have hc : ¬ sliceContains names d.Name = true :=
      fun h => hn ((sliceContains_iff names d.Name).mp h)
    rw [if_pos hd, if_neg hc]
  | cons x pre ih =>
    have hrest : ∀ y ∈ pre, y.DefaultValue = "" → y.Name ∈ names :=
      fun y hy => hpre y (List.mem_cons_of_mem _ hy)
    rw [List.cons_append]
    unfold checkDefaultValueLoop
    by_cases hx : x.DefaultValue = ""
    · have hc : sliceContains names x.Name = true :=
        (sliceContains_iff names x.Name).mpr (hpre x (List.mem_cons_self _ _) hx)
      rw [if_pos hx, if_pos hc]
      exact ih hrest
    · rw [if_neg hx]
      exact ih hrest

/-- A list that does not satisfy a property of all its members splits at the first
member that fails it. -/
theorem exists_first_failing {α : Type} (p : α → Prop) [DecidablePred p] (l : List α)
    (h : ¬ ∀ x ∈ l, p x) :
    ∃ pre d post, l = pre ++ d :: post ∧ (∀ x ∈ pre, p x) ∧ ¬ p d := by
  induction l with
  | nil => exact absurd (fun x hx => absurd hx (List.not_mem_nil x)) h
  | cons a rest ih =>
    by_cases ha : p a
    · have hrest : ¬ ∀ x ∈ rest, p x := by
        intro hall
        apply h
        intro x hx
        rcases List.mem_cons.mp hx with h1 | h1
        · exact h1 ▸ ha
        · exact hall x h1
      obtain ⟨pre, d, post, hl, hp, hd⟩ := ih hrest
      refine ⟨a :: pre, d, post, by rw [hl, List.cons_append], ?_, hd⟩
      intro x hx
      rcases List.mem_cons.mp hx with h1 | h1
      · exact h1 ▸ ha
      · exact hp x h1
    · exact ⟨[], a, rest, rfl, fun x hx => absurd hx (List.not_mem_nil x), ha⟩

/-- C12: `checkDefaultValueInServiceUserInput` returns true with a nil error exactly
when every declared input whose default value is empty has its name among the
supplied names, and it never returns true with an error; otherwise it returns
false with `<name> needs to be set in userInput because it has no default
value.` for the first such missing input in declaration order. A declared input
with a non-empty default never causes failure. -/
theorem checkDefaultValueInServiceUserInput_spec {V : Type} (declared : List UserInput)
    (supplied : List (Input V)) :
    (checkDefaultValueInServiceUserInput declared supplied = (true, none) ↔
      ∀ d ∈ declared, d.DefaultValue = "" → d.Name ∈ supplied.map (fun u => u.Name)) ∧
    ((checkDefaultValueInServiceUserInput declared supplied).1 = true ↔
      checkDefaultValueInServiceUserInput declared supplied = (true, none)) ∧
    (∀ pre d post, declared = pre ++ d :: post →
      (∀ x ∈ pre, x.DefaultValue = "" → x.Name ∈ supplied.map (fun u => u.Name)) →
      d.DefaultValue = "" → d.Name ∉ supplied.map (fun u => u.Name) →
      checkDefaultValueInServiceUserInput declared supplied =
        (false, some (d.Name ++
          " needs to be set in userInput because it has no default value."))) ∧
    ((¬ ∀ d ∈ declared, d.DefaultValue = "" → d.Name ∈ supplied.map (fun u => u.Name)) →
      ∃ pre d post, declared = pre ++ d :: post ∧
        (∀ x ∈ pre, x.DefaultValue = "" → x.Name ∈ supplied.map (fun u => u.Name)) ∧
        d.DefaultValue = "" ∧ d.Name ∉ supplied.map (fun u => u.Name) ∧
        checkDefaultValueInServiceUserInput declared supplied =
          (false, some (d.Name ++
            " needs to be set in userInput because it has no default value."))) ∧
    ((∀ d ∈ declared, d.DefaultValue ≠ "") →
      checkDefaultValueInServiceUserInput declared supplied = (true, none)) := by
  have hiff := checkDefaultValueLoop_ok_iff (supplied.map (fun u => u.Name)) declared
  have hone : (checkDefaultValueInServiceUserInput declared supplied).1 = true ↔
      checkDefaultValueInServiceUserInput declared supplied = (true, none) := by
    constructor
    · exact checkDefaultValueLoop_ok_error _ _
    · intro h
      rw [h]
  have hfirst : ∀ pre d post, declared = pre ++ d :: post →
      (∀ x ∈ pre, x.DefaultValue = "" → x.Name ∈ supplied.map (fun u => u.Name)) →
      d.DefaultValue = "" → d.Name ∉ supplied.map (fun u => u.Name) →
      checkDefaultValueInServiceUserInput declared supplied =
        (false, some (d.Name ++
          " needs to be set in userInput because it has no default value.")) := by
    intro pre d post hs hpre hd hn
    unfold checkDefaultValueInServiceUserInput
    rw [hs]
    exact checkDefaultValueLoop_first _ pre d post hpre hd hn
  refine ⟨?_, hone, hfirst, ?_, ?_⟩
  · rw [← hone]
    exact hiff
  · intro hnot
    obtain ⟨pre, d, post, hl, hp, hd⟩ :=
      exists_first_failing
        (fun d : UserInput => d.DefaultValue = "" → d.Name ∈ supplied.map (fun u => u.Name))
        declared hnot
    have hd1 : d.DefaultValue = "" := by
      by_contra h0
      exact hd (fun h1 => absurd h1 h0)
    have hd2 : d.Name ∉ supplied.map (fun u => u.Name) := fun h0 => hd (fun _ => h0)
    exact ⟨pre, d, post, hl, hp, hd1, hd2, hfirst pre d post hl hp hd1 hd2⟩
  · intro hall
    rw [← hone]
    exact hiff.mpr (fun d hd h0 => absurd h0 (hall d hd))

/-- Witness of C12: the service declares `a` with a default, `key` and `token`
without; only `key` is supplied, so the error names `token`. -/
theorem checkDefaultValueInServiceUserInput_spec_witness :
    checkDefaultValueInServiceUserInput
        [{ Name := "a", DefaultValue := "1" }, { Name := "key" }, { Name := "token" }]
        [(⟨"key", PropertyValue.str "v"⟩ : Input PropertyValue)] =
      (false, some ("token" ++
        " needs to be set in userInput because it has no default value.")) ∧
    checkDefaultValueInServiceUserInput
        [{ Name := "a", DefaultValue := "1" }]
        ([] : List (Input PropertyValue)) = (true, none) :=
  ⟨(checkDefaultValueInServiceUserInput_spec
      [{ Name := "a", DefaultValue := "1" }, { Name := "key" }, { Name := "token" }]
      [(⟨"key", PropertyValue.str "v"⟩ : Input PropertyValue)]).2.2.1
    [{ Name := "a", DefaultValue := "1" }, { Name := "key" }] { Name := "token" } [] rfl
    (by decide) rfl (by decide),
   (checkDefaultValueInServiceUserInput_spec [{ Name := "a", DefaultValue := "1" }]
      ([] : List (Input PropertyValue))).2.2.2.2 (by decide)⟩

theorem compareUserInputLoop_ok_error {V : Type} (verify : V → String → Option String)
    (M : List (String × UserInput)) (supplied : List (Input V)) (acc : List String)
    (h : (compareUserInputLoop verify M supplied acc).1 = true) :
    (compareUserInputLoop verify M supplied acc).2 =
      if (acc ++ (supplied.filter (fun i => (mapLookup M i.Name).isNone)).map
            (fun i => i.Name)).length ≠ 0 then
        some ("The following variables are not defined in userInput for service in its highest version: "
          ++ sprintNames (acc ++ (supplied.filter (fun i => (mapLookup M i.Name).isNone)).map
            (fun i => i.Name)) ++ " \n")
      else none := by
  induction supplied generalizing acc with
  | nil =>
    unfold compareUserInputLoop
    simp only [List.filter_nil, List.map_nil, List.append_nil]
    by_cases hl : acc.length ≠ 0
    · rw [if_pos hl, if_pos hl]
    · rw [if_neg hl, if_neg hl]
  | cons i rest ih =>
    unfold compareUserInputLoop at h ⊢
    cases hl : mapLookup M i.Name with
    | none =>
      simp only [hl] at h ⊢
      rw [ih _ h]
      simp [List.filter_cons, hl]
    | some d =>
      simp only [hl] at h ⊢
      cases hv : verify i.Value d.Type_ with
      | some e =>
        simp only [hv] at h
        exact Bool.noConfusion h
      | none =>
        simp only [hv] at h ⊢
        rw [ih _ h]
        simp [List.filter_cons, hl]

theorem topLevelServicesLoop_warning {V VE : Type} (E : ValidationEnv V VE) (fuel : Nat)
    (userInput : policy.UserInput V) (nodePattern : String) (vExp : VE) (warningMessage : String)
    (userInputsMap patternUserInputsMap : List (String × policy.UserInput V))
    (emptyMap : List (String × List UserInput)) (tls : List ServiceReference)
    (s : ServiceDefinition × Bool) (r : Bool × String × Option String)
    (h : topLevelServicesLoop E fuel userInput nodePattern vExp warningMessage userInputsMap
      patternUserInputsMap emptyMap tls s = some r) :
    r.2.1 = warningMessage := by
  induction tls generalizing s with
  | nil =>
    unfold topLevelServicesLoop at h
    split at h <;> (cases h; rfl)
  | cons tl rest ih =>
    unfold topLevelServicesLoop at h
    split at h
    · exact Option.noConfusion h
    · split at h
      · split at h
        · cases h; rfl
        · split at h
          · cases h; rfl
          · split at h
            · exact Option.noConfusion h
            · cases h; rfl
            · exact ih _ h
      · cases h; rfl

theorem compareWarningMessage_ne_empty {V : Type} (userInput : policy.UserInput V) (w : String) :
    compareWarningMessage userInput (some w) ≠ "" := by
  intro h
  have hl := congrArg String.length h
  simp only [compareWarningMessage, String.length_append] at hl
  have h12 : "For service ".length = 12 := by decide
  have h0 : ("" : String).length = 0 := by decide
  rw [h12, h0] at hl
  omega

/-- C11: when `compareUserInput` returns `ok = true`, its error is the warning that
lists the supplied names the service does not declare, in supplied order, and
it is nil exactly when there is none. With such a warning `w`,
`ValidateUserInput` does not fail for it: the warning message it carries is
non-empty, validation goes on with the top-level services of the pattern (or,
without a pattern, returns `validated = true`), and every result it returns
carries that warning message. -/
theorem compareUserInput_warning {V VE : Type} :
    (∀ (verify : V → String → Option String) (declared : List UserInput)
      (supplied : List (Input V)),
      (compareUserInput verify declared supplied).1 = true →
      (compareUserInput verify declared supplied).2 =
        (if (undeclaredInputNames declared supplied).length ≠ 0 then
          some ("The following variables are not defined in userInput for service in its highest version: "
            ++ sprintNames (undeclaredInputNames declared supplied) ++ " \n")
         else none) ∧
      (((compareUserInput verify declared supplied).2).isSome = true ↔
        ∃ i ∈ supplied, i.Name ∉ declared.map UserInput.Name) ∧
      (∀ n, n ∈ undeclaredInputNames declared supplied ↔
        ∃ i ∈ supplied, i.Name = n ∧ n ∉ declared.map UserInput.Name)) ∧
    (∀ (E : ValidationEnv V VE) (fuel : Nat) (userInput : policy.UserInput V)
      (nodePattern : String) (topLevelServices : List ServiceReference)
      (userInputsMap patternUserInputsMap : List (String × policy.UserInput V))
      (emptyMap : List (String × List UserInput)) (vExp : VE) (sdef : ServiceDefinition)
      (w : String),
      E.sv.Version_Expression_Factory (normalizeVersionRange userInput.ServiceVersionRange) =
        Except.ok vExp →
      E.serviceDefResolverHandler userInput.ServiceUrl userInput.ServiceOrgid
        (normalizeVersionRange userInput.ServiceVersionRange) userInput.ServiceArch =
        (some sdef, none) →
      compareUserInput E.VerifyWorkloadVarTypes sdef.UserInputs userInput.Inputs = (true, some w) →
      compareWarningMessage userInput (some w) ≠ "" ∧
      (topLevelServices.length ≠ 0 →
        ValidateUserInput E fuel userInput nodePattern topLevelServices userInputsMap
            patternUserInputsMap emptyMap =
          topLevelServicesLoop E fuel userInput nodePattern vExp
            (compareWarningMessage userInput (some w)) userInputsMap patternUserInputsMap
            emptyMap topLevelServices (sdef, false)) ∧
      (topLevelServices.length = 0 →
        ∃ rest, ValidateUserInput E fuel userInput nodePattern topLevelServices userInputsMap
            patternUserInputsMap emptyMap =
          some (true, compareWarningMessage userInput (some w) ++ rest, none)) ∧
      (∀ r, ValidateUserInput E fuel userInput nodePattern topLevelServices userInputsMap
            patternUserInputsMap emptyMap = some r →
        ∃ rest, r.2.1 = compareWarningMessage userInput (some w) ++ rest)) := by
  constructor
  · intro verify declared supplied hok
    have hfilter : (supplied.filter
        (fun i => (mapLookup (serviceUserInputsMap declared) i.Name).isNone)).map (fun i => i.Name) =
        undeclaredInputNames declared supplied := by
      unfold undeclaredInputNames
      simp only [mapLookup_serviceUserInputsMap]
    have herr := compareUserInputLoop_ok_error verify (serviceUserInputsMap declared) supplied [] hok
    rw [List.nil_append, hfilter] at herr
    have hmem : ∀ n, n ∈ undeclaredInputNames declared supplied ↔
        ∃ i ∈ supplied, i.Name = n ∧ n ∉ declared.map UserInput.Name := by
      intro n
      unfold undeclaredInputNames
      simp only [List.mem_map, List.mem_filter, Option.isNone_iff_eq_none,
        declaredInput_eq_none_iff]
      constructor
      · rintro ⟨i, ⟨hi, hn⟩, rfl⟩
        exact ⟨i, hi, rfl, by simpa using hn⟩
      · rintro ⟨i, hi, rfl, hn⟩
        exact ⟨i, ⟨hi, by simpa using hn⟩, rfl⟩
    refine ⟨herr, ?_, hmem⟩
    show ((compareUserInputLoop verify (serviceUserInputsMap declared) supplied []).2).isSome = true ↔ _
    rw [herr]
    constructor
    · intro hs
      by_cases hl : (undeclaredInputNames declared supplied).length ≠ 0
      · obtain ⟨n, hn⟩ := List.exists_mem_of_length_pos (Nat.pos_of_ne_zero hl)
        obtain ⟨i, hi, hin, hnd⟩ := (hmem n).mp hn
        exact ⟨i, hi, hin ▸ hnd⟩
      · rw [if_neg hl] at hs
        exact Bool.noConfusion hs
    · rintro ⟨i, hi, hnd⟩
      have hn : i.Name ∈ undeclaredInputNames declared supplied := (hmem i.Name).mpr ⟨i, hi, rfl, hnd⟩
      have hl : (undeclaredInputNames declared supplied).length ≠ 0 :=
        Nat.pos_iff_ne_zero.mp (List.length_pos_of_mem hn)
      rw [if_pos hl]
      rfl
  · intro E fuel userInput nodePattern topLevelServices userInputsMap patternUserInputsMap
      emptyMap vExp sdef w hfac hres hcmp
    have hpat : topLevelServices.length ≠ 0 →
        ValidateUserInput E fuel userInput nodePattern topLevelServices userInputsMap
            patternUserInputsMap emptyMap =
          topLevelServicesLoop E fuel userInput nodePattern vExp
            (compareWarningMessage userInput (some w)) userInputsMap patternUserInputsMap
            emptyMap topLevelServices (sdef, false) := by
      intro hl
      unfold ValidateUserInput
      simp only [hfac, hres, hcmp]
      rw [if_pos hl]
    have hnopat : topLevelServices.length = 0 →
        ∃ rest, ValidateUserInput E fuel userInput nodePattern topLevelServices userInputsMap
            patternUserInputsMap emptyMap =
          some (true, compareWarningMessage userInput (some w) ++ rest, none) := by
      intro hl
      unfold ValidateUserInput
      simp only [hfac, hres, hcmp]
      rw [if_neg (not_not.mpr hl)]
      cases hchk : checkDefaultValueInServiceUserInput sdef.UserInputs userInput.Inputs with
      | mk ok err2 =>
        cases ok with
        | false =>
          exact ⟨"Warning: " ++ err2.getD "<nil>", by simp only [String.append_assoc]⟩
        | true => exact ⟨"", by simp⟩
    refine ⟨compareWarningMessage_ne_empty userInput w, hpat, hnopat, ?_⟩
    intro r hr
    by_cases hl : topLevelServices.length = 0
    · obtain ⟨rest, hrest⟩ := hnopat hl
      rw [hrest] at hr
      cases hr
      exact ⟨rest, rfl⟩
    · rw [hpat hl] at hr
      exact ⟨"", by
        rw [topLevelServicesLoop_warning E fuel userInput nodePattern vExp _ userInputsMap
          patternUserInputsMap emptyMap topLevelServices (sdef, false) r hr]
        simp⟩

theorem compareUserInput_warning_witness :
    (compareUserInput exampleVerifyWorkloadVarTypes [] [⟨"key", PropertyValue.str "v"⟩]).2 =
      some "The following variables are not defined in userInput for service in its highest version: [key] \n" ∧
    ValidateUserInput exampleEnv 5 exampleTopUserInput "myorg/pat" exampleTopLevelServices
        [("myorg/top", exampleTopUserInput)] [] [] =
      some (true,
        "For service myorg top amd64, got warning message: The following variables are not defined in userInput for service in its highest version: [key] \n",
        none) ∧
    ∃ rest, ValidateUserInput exampleEnv 5 exampleTopUserInput "" []
        [("myorg/top", exampleTopUserInput)] [] [] =
      some (true, compareWarningMessage exampleTopUserInput
        (some "The following variables are not defined in userInput for service in its highest version: [key] \n")
          ++ rest, none) :=
  ⟨(((@compareUserInput_warning PropertyValue ExampleVersionExp).1 exampleVerifyWorkloadVarTypes []
      [⟨"key", PropertyValue.str "v"⟩] (by decide)).1).trans (by decide),
   by decide,
   ((@compareUserInput_warning PropertyValue ExampleVersionExp).2 exampleEnv 5 exampleTopUserInput ""
      [] [("myorg/top", exampleTopUserInput)] [] []
      ⟨"1.0.0", "INFINITY", (1, 0, 0), true, none, false⟩ exampleTopDefinition
      "The following variables are not defined in userInput for service in its highest version: [key] \n"
      (by decide) (by decide) (by decide)).2.2.1 (by decide)⟩

/-! ### Validation of a user input against a pattern -/

theorem topLevelServicesLoop_coverage_failure {V VE : Type} (E : ValidationEnv V VE) (fuel : Nat)
    (userInput : policy.UserInput V) (nodePattern : String) (vExp : VE) (warningMessage : String)
    (userInputsMap patternUserInputsMap : List (String × policy.UserInput V))
    (emptyMap : List (String × List UserInput)) (tls : List ServiceReference)
    (tl : ServiceReference) (htl : tl ∈ tls)
    (hcov : defaultValueCheck userInputsMap emptyMap tl.ServiceOrg tl.ServiceURL ≠ none)
    (s : ServiceDefinition × Bool) (r : Bool × String × Option String)
    (h : topLevelServicesLoop E fuel userInput nodePattern vExp warningMessage userInputsMap
      patternUserInputsMap emptyMap tls s = some r) :
    r.1 = false := by
  induction tls generalizing s with
  | nil => exact absurd htl (List.not_mem_nil tl)
  | cons t rest ih =>
    unfold topLevelServicesLoop at h
    split at h
    · exact Option.noConfusion h
    · split at h
      · split at h
        · cases h; rfl
        · rename_i hnone
          have hne : tl ≠ t := by
            intro heq
            rw [heq] at hcov
            exact hcov hnone
          have hrest : tl ∈ rest := by
            rcases List.mem_cons.mp htl with h1 | h1
            · exact absurd h1 hne
            · exact h1
          split at h
          · cases h; rfl
          · split at h
            · exact Option.noConfusion h
            · cases h; rfl
            · exact ih hrest _ h
      · cases h; rfl

theorem defaultValueCheck_ne_none_iff {V : Type}
    (userInputsMap : List (String × policy.UserInput V))
    (emptyMap : List (String × List UserInput)) (org url : String) :
    defaultValueCheck userInputsMap emptyMap org url ≠ none ↔
      ∃ l, mapLookup emptyMap (org ++ "/" ++ url) = some l ∧
        (mapLookup userInputsMap (org ++ "/" ++ url) = none ∨
          ∃ u, mapLookup userInputsMap (org ++ "/" ++ url) = some u ∧
            ∃ x ∈ l, x.Name ∉ u.Inputs.map (fun i => i.Name)) := by
  have hcontains : ∀ (inputs : List (Input V)) (name : String),
      (cmdInputsContains inputs name).1 = true ↔ name ∈ inputs.map (fun i => i.Name) := by
    intro inputs name
    induction inputs with
    | nil => simp [cmdInputsContains]
    | cons i rest ih =>
      unfold cmdInputsContains
      by_cases hi : i.Name = name
      · rw [if_pos hi]
        simp [hi]
      · rw [if_neg hi, ih]
        simp only [List.map_cons, List.mem_cons]
        exact ⟨fun h => Or.inr h, fun h => h.resolve_left (fun h0 => hi h0.symm)⟩
  have hloop : ∀ (inputs : List (Input V)) (l : List UserInput),
      emptyDefaultValuesLoop inputs l ≠ none ↔
        ∃ x ∈ l, x.Name ∉ inputs.map (fun i => i.Name) := by
    intro inputs l
    induction l with
    | nil => simp [emptyDefaultValuesLoop]
    | cons x rest ih =>
      unfold emptyDefaultValuesLoop
      have hc := hcontains inputs x.Name
      cases hr : cmdInputsContains inputs x.Name with
      | mk found err =>
        rw [hr] at hc
        cases found with
        | false =>
          simp only [Bool.false_eq_true, false_iff] at hc
          simp only [ne_eq, reduceCtorEq, not_false_eq_true, true_iff]
          exact ⟨x, List.mem_cons_self _ _, hc⟩
        | true =>
          simp only [true_iff] at hc
          simp only
          rw [ih]
          constructor
          · rintro ⟨y, hy, hn⟩
            exact ⟨y, List.mem_cons_of_mem _ hy, hn⟩
          · rintro ⟨y, hy, hn⟩
            rcases List.mem_cons.mp hy with h1 | h1
            · rw [h1] at hn
              exact absurd hc hn
            · exact ⟨y, h1, hn⟩
  unfold defaultValueCheck
  cases he : mapLookup emptyMap (org ++ "/" ++ url) with
  | none => simp
  | some l =>
    cases hu : mapLookup userInputsMap (org ++ "/" ++ url) with
    | none => simp
    | some u =>
      simp only [hloop]
      simp

/-- Counterexample to C13 as stated: the node has no pattern, the service `myorg/dep`
exists and declares `key` without a default value, and the user input supplies
no value; `ValidateUserInput` returns `validated = true` with a nil error, and
the missing value is only reported in the warning. -/
theorem ValidateUserInput_no_pattern_missing_value_counterexample :
    exampleEnv.serviceDefResolverHandler "dep" "myorg" "1.5.0" "amd64" =
      (some exampleDepDefinition, none) ∧
    exampleDepDefinition.UserInputs = [{ Name := "key", Type_ := "string", DefaultValue := "" }] ∧
    compareUserInput exampleEnv.VerifyWorkloadVarTypes exampleDepDefinition.UserInputs
      exampleDepUserInputWithoutKey.Inputs = (true, none) ∧
    ValidateUserInput exampleEnv 5 exampleDepUserInputWithoutKey "" []
        [("myorg/dep", exampleDepUserInputWithoutKey)] [] [] =
      some (true, "Warning: key needs to be set in userInput because it has no default value.",
        none) := by
  decide

/-- C13 (amended): for a user input whose target service exists and whose supplied
values pass `compareUserInput`. Without a pattern (`topLevelServices` empty), a
declared input with an empty default value whose name is not supplied does not
fail the validation: `ValidateUserInput` returns `validated = true` with a nil
error, and the warning ends with `Warning: <name> needs to be set in userInput
because it has no default value.` for the first such input. With a pattern, a
missing required value is fatal: when `userInputWithEmptyDefaultValueMap`
records, for a top-level service of the pattern, an input that `userInputsMap`
does not set for that service (or `userInputsMap` has no entry for the
service), every result `ValidateUserInput` returns has `validated = false`, and
when that service is the first of the pattern and lists a version it does
return `validated = false` with a non-nil error. -/
theorem ValidateUserInput_missing_required_value {V VE : Type} (E : ValidationEnv V VE)
    (fuel : Nat) (userInput : policy.UserInput V) (nodePattern : String)
    (topLevelServices : List ServiceReference)
    (userInputsMap patternUserInputsMap : List (String × policy.UserInput V))
    (emptyMap : List (String × List UserInput)) (vExp : VE) (sdef : ServiceDefinition)
    (w : Option String)
    (hfac : E.sv.Version_Expression_Factory (normalizeVersionRange userInput.ServiceVersionRange) =
      Except.ok vExp)
    (hres : E.serviceDefResolverHandler userInput.ServiceUrl userInput.ServiceOrgid
      (normalizeVersionRange userInput.ServiceVersionRange) userInput.ServiceArch =
      (some sdef, none))
    (hcmp : compareUserInput E.VerifyWorkloadVarTypes sdef.UserInputs userInput.Inputs = (true, w)) :
    (topLevelServices = [] → ∀ pre missing post, sdef.UserInputs = pre ++ missing :: post →
      (∀ x ∈ pre, x.DefaultValue = "" → x.Name ∈ userInput.Inputs.map (fun i => i.Name)) →
      missing.DefaultValue = "" → missing.Name ∉ userInput.Inputs.map (fun i => i.Name) →
      ValidateUserInput E fuel userInput nodePattern topLevelServices userInputsMap
          patternUserInputsMap emptyMap =
        some (true,
          compareWarningMessage userInput w ++ "Warning: " ++
            (missing.Name ++ " needs to be set in userInput because it has no default value."),
          none)) ∧
    (∀ tl ∈ topLevelServices, ∀ l,
      mapLookup emptyMap (tl.ServiceOrg ++ "/" ++ tl.ServiceURL) = some l →
      (mapLookup userInputsMap (tl.ServiceOrg ++ "/" ++ tl.ServiceURL) = none ∨
        ∃ u, mapLookup userInputsMap (tl.ServiceOrg ++ "/" ++ tl.ServiceURL) = some u ∧
          ∃ x ∈ l, x.Name ∉ u.Inputs.map (fun i => i.Name)) →
      (∀ r, ValidateUserInput E fuel userInput nodePattern topLevelServices userInputsMap
          patternUserInputsMap emptyMap = some r → r.1 = false) ∧
      (∀ rest, topLevelServices = tl :: rest → tl.ServiceVersions ≠ [] →
        ∃ e, ValidateUserInput E fuel userInput nodePattern topLevelServices userInputsMap
          patternUserInputsMap emptyMap =
            some (false, compareWarningMessage userInput w, some e))) := by
  constructor
  · intro hnil pre missing post hsplit hpre hd hn
    unfold ValidateUserInput
    simp only [hfac, hres, hcmp]
    have hlen : ¬ topLevelServices.length ≠ 0 := by rw [hnil]; simp
    rw [if_neg hlen]
    have hchk : checkDefaultValueInServiceUserInput sdef.UserInputs userInput.Inputs =
        (false, some (missing.Name ++
          " needs to be set in userInput because it has no default value.")) := by
      unfold checkDefaultValueInServiceUserInput
      rw [hsplit]
      exact checkDefaultValueLoop_first _ pre missing post hpre hd hn
    simp only [hchk, Option.getD_some]
  · intro tl htl l hl hmiss
    have hcov : defaultValueCheck userInputsMap emptyMap tl.ServiceOrg tl.ServiceURL ≠ none :=
      (defaultValueCheck_ne_none_iff userInputsMap emptyMap tl.ServiceOrg tl.ServiceURL).mpr
        ⟨l, hl, hmiss⟩
    have hlen : topLevelServices.length ≠ 0 := by
      intro h0
      rw [List.length_eq_zero.mp h0] at htl
      exact absurd htl (List.not_mem_nil tl)
    have hval : ValidateUserInput E fuel userInput nodePattern topLevelServices userInputsMap
          patternUserInputsMap emptyMap =
        topLevelServicesLoop E fuel userInput nodePattern vExp (compareWarningMessage userInput w)
          userInputsMap patternUserInputsMap emptyMap topLevelServices (sdef, false) := by
      unfold ValidateUserInput
      simp only [hfac, hres, hcmp]
      rw [if_pos hlen]
    constructor
    · intro r hr
      rw [hval] at hr
      exact topLevelServicesLoop_coverage_failure E fuel userInput nodePattern vExp _ userInputsMap
        patternUserInputsMap emptyMap topLevelServices tl htl hcov (sdef, false) r hr
    · intro rest hcons hvers
      rw [hval, hcons]
      unfold topLevelServicesLoop
      cases hv : tl.ServiceVersions with
      | nil => exact absurd hv hvers
      | cons first vs =>
        simp only
        cases hdc : defaultValueCheck userInputsMap emptyMap tl.ServiceOrg tl.ServiceURL with
        | none => exact absurd hdc hcov
        | some err =>
          split
          · exact ⟨err, rfl⟩
          · exact ⟨_, rfl⟩

/-- Witness of C13 (amended): without a pattern the missing `key` of `myorg/dep` gives
a warning and `validated = true`; with the pattern of the examples, whose
top-level service `myorg/top` is recorded with the input `token` that no user
input sets, `validated = false`. -/
theorem ValidateUserInput_missing_required_value_witness :
    ValidateUserInput exampleEnv 5 exampleDepUserInputWithoutKey "" []
        [("myorg/dep", exampleDepUserInputWithoutKey)] [] [] =
      some (true,
        compareWarningMessage exampleDepUserInputWithoutKey none ++ "Warning: " ++
          ("key" ++ " needs to be set in userInput because it has no default value."),
        none) ∧
    ∃ e, ValidateUserInput exampleEnv 5 exampleTopUserInput "myorg/pat" exampleTopLevelServices
        [] [] [("myorg/top", [{ Name := "token" }])] =
      some (false, compareWarningMessage exampleTopUserInput
        (some "The following variables are not defined in userInput for service in its highest version: [key] \n"),
        some e) :=
  ⟨(ValidateUserInput_missing_required_value exampleEnv 5 exampleDepUserInputWithoutKey "" []
      [("myorg/dep", exampleDepUserInputWithoutKey)] [] [] exampleVersionExp_1_5_0
      exampleDepDefinition none (by decide) (by decide) (by decide)).1 rfl []
      { Name := "key", Type_ := "string" } [] rfl (by decide) rfl (by decide),
   ((ValidateUserInput_missing_required_value exampleEnv 5 exampleTopUserInput "myorg/pat"
      exampleTopLevelServices [] [] [("myorg/top", [{ Name := "token" }])]
      ⟨"1.0.0", "INFINITY", (1, 0, 0), true, none, false⟩ exampleTopDefinition
      (some "The following variables are not defined in userInput for service in its highest version: [key] \n")
      (by decide) (by decide) (by decide)).2
      { ServiceURL := "top", ServiceOrg := "myorg", ServiceArch := "amd64",
        ServiceVersions := [⟨"1.0.0"⟩] } (by decide) [{ Name := "token" }] (by decide)
      (Or.inl rfl)).2 [] rfl (by decide)⟩

/-! ### The dependency walk -/

theorem checkDependentServicesLoop_walk {V VE : Type} (E : ValidationEnv V VE)
    (serviceOrg serviceUrl : String) (serviceVersionExp : VE)
    (userInputsMap : List (String × policy.UserInput V))
    (emptyMap : List (String × List UserInput))
    (recurse : ServiceDefinition → WalkState → Option (Bool × Bool × Option String × WalkState))
    (P : ServiceDefinition → Prop) (ds : List ServiceDependency)
    (hres : ∀ dep ∈ ds, ∃ d, resolvesTo E dep d ∧ ∀ s, ∃ b err s2,
      recurse d s = some (b, true, err, s2) ∧
        (s2.foundMatchService = true ↔ s.foundMatchService = true ∨ P d))
    (hcov : ∀ dep ∈ ds, defaultValueCheck userInputsMap emptyMap dep.Org dep.URL = none)
    (st : WalkState) :
    ∃ err st2, checkDependentServicesLoop E serviceOrg serviceUrl serviceVersionExp userInputsMap
        emptyMap recurse ds st = some (st2.foundMatchService, true, err, st2) ∧
      (st2.foundMatchService = true ↔ st.foundMatchService = true ∨
        ∃ dep ∈ ds, matchesDependency E serviceOrg serviceUrl serviceVersionExp dep ∨
          ∃ d, resolvesTo E dep d ∧ P d) := by
  induction ds generalizing st with
  | nil =>
    unfold checkDependentServicesLoop
    cases hf : st.foundMatchService with
    | true => exact ⟨none, st, by simp [hf], by simp [hf]⟩
    | false =>
      exact ⟨some ("Service " ++ serviceOrg ++ ", " ++ serviceUrl ++ ", " ++
        E.sv.Get_expression serviceVersionExp ++ " does not define a dependent service"), st,
        by simp [hf], by simp [hf]⟩
  | cons dep rest ih =>
    obtain ⟨d, hd, hrec⟩ := hres dep (List.mem_cons_self _ _)
    have hc := hcov dep (List.mem_cons_self _ _)
    unfold checkDependentServicesLoop
    have hd2 := hd
    unfold resolvesTo at hd2
    simp only [hd2, hc]
    obtain ⟨b, err, s2, hs2, hflag⟩ := hrec
      { foundMatchService :=
          if serviceOrg = dep.Org ∧ serviceUrl = dep.URL ∧
              E.sv.IntersectsWith serviceVersionExp
                (versionExpOrNil E.sv (normalizeVersionRange dep.VersionRange)) = none
          then true else st.foundMatchService,
        resolverCalls := st.resolverCalls + 1 }
    simp only [hs2]
    obtain ⟨err3, st3, h3, hflag3⟩ := ih
      (fun x hx => hres x (List.mem_cons_of_mem _ hx))
      (fun x hx => hcov x (List.mem_cons_of_mem _ hx)) s2
    refine ⟨err3, st3, h3, ?_⟩
    have hm : (if serviceOrg = dep.Org ∧ serviceUrl = dep.URL ∧
              E.sv.IntersectsWith serviceVersionExp
                (versionExpOrNil E.sv (normalizeVersionRange dep.VersionRange)) = none
          then true else st.foundMatchService) = true ↔
        matchesDependency E serviceOrg serviceUrl serviceVersionExp dep ∨
          st.foundMatchService = true := by
      unfold matchesDependency
      by_cases hcond : serviceOrg = dep.Org ∧ serviceUrl = dep.URL ∧
              E.sv.IntersectsWith serviceVersionExp
                (versionExpOrNil E.sv (normalizeVersionRange dep.VersionRange)) = none
      · rw [if_pos hcond]
        exact ⟨fun _ => Or.inl hcond, fun _ => rfl⟩
      · rw [if_neg hcond]
        exact ⟨fun h => Or.inr h, fun h => h.resolve_left hcond⟩
    have hP : ∀ d2, resolvesTo E dep d2 → P d2 → P d := by
      intro d2 h2 hp
      unfold resolvesTo at h2
      rw [hd2] at h2
      have heq : d = d2 := by
        injection h2 with h3 _
        injection h3
      rw [heq]
      exact hp
    rw [hflag3, hflag]
    constructor
    · rintro ((h0 | hp) | ⟨x, hx, hq⟩)
      · rcases hm.mp h0 with h1 | h1
        · exact Or.inr ⟨dep, List.mem_cons_self _ _, Or.inl h1⟩
        · exact Or.inl h1
      · exact Or.inr ⟨dep, List.mem_cons_self _ _, Or.inr ⟨d, hd, hp⟩⟩
      · exact Or.inr ⟨x, List.mem_cons_of_mem _ hx, hq⟩
    · rintro (h0 | ⟨x, hx, hq⟩)
      · exact Or.inl (Or.inl (hm.mpr (Or.inr h0)))
      · rcases List.mem_cons.mp hx with h1 | h1
        · rw [h1] at hq
          rcases hq with hq | ⟨d2, h2, hp⟩
          · exact Or.inl (Or.inl (hm.mpr (Or.inl hq)))
          · exact Or.inl (Or.inr (hP d2 h2 hp))
        · exact Or.inr ⟨x, h1, hq⟩

theorem walkDepth_mono {V VE : Type} (E : ValidationEnv V VE) (n : Nat) :
    ∀ (m : Nat) (root : ServiceDefinition), n ≤ m → WalkDepth E n root → WalkDepth E m root := by
  induction n with
  | zero =>
    intro m root _ h
    exact False.elim h
  | succ n ih =>
    intro m root hm h
    cases m with
    | zero => exact absurd hm (Nat.not_succ_le_zero n)
    | succ m =>
      intro dep hdep d hd
      exact ih m d (Nat.le_of_succ_le_succ hm) (h dep hdep d hd)

theorem checkDependentServices_walk {V VE : Type} (E : ValidationEnv V VE)
    (serviceOrg serviceUrl : String) (serviceVersionExp : VE)
    (userInputsMap patternUserInputsMap : List (String × policy.UserInput V))
    (emptyMap : List (String × List UserInput)) (n : Nat) :
    ∀ (root : ServiceDefinition) (st : WalkState), WalkDepth E n root →
      (∀ dep, ReachableDependency E root dep → ∃ d, resolvesTo E dep d) →
      (∀ dep, ReachableDependency E root dep →
        defaultValueCheck userInputsMap emptyMap dep.Org dep.URL = none) →
      ∃ err st2, checkDependentServices E serviceOrg serviceUrl serviceVersionExp userInputsMap
          patternUserInputsMap emptyMap n root st = some (st2.foundMatchService, true, err, st2) ∧
        (st2.foundMatchService = true ↔ st.foundMatchService = true ∨
          ∃ dep, ReachableDependency E root dep ∧
            matchesDependency E serviceOrg serviceUrl serviceVersionExp dep) := by
  induction n with
  | zero =>
    intro root st h
    exact False.elim h
  | succ n ih =>
    intro root st hdepth hresolve hcov
    unfold checkDependentServices
    by_cases hlen : root.RequiredServices.length = 0
    · rw [if_pos hlen]
      have hnil : root.RequiredServices = [] := List.length_eq_zero.mp hlen
      have hnone : ¬ ∃ dep, ReachableDependency E root dep ∧
          matchesDependency E serviceOrg serviceUrl serviceVersionExp dep := by
        rintro ⟨dep, hreach, _⟩
        cases hreach with
        | direct _ _ hmem =>
          rw [hnil] at hmem
          exact absurd hmem (List.not_mem_nil _)
        | through _ via d _ hmem _ _ =>
          rw [hnil] at hmem
          exact absurd hmem (List.not_mem_nil _)
      cases hf : st.foundMatchService with
      | true =>
        refine ⟨none, st, by simp [hf], ?_⟩
        rw [hf]
        exact ⟨fun h => Or.inl h, fun _ => rfl⟩
      | false =>
        refine ⟨some ("No dependent service for service " ++ root.Owner ++ ", " ++ root.URL ++
          ", " ++ root.Arch ++ ", " ++ root.Version), st, by simp [hf], ?_⟩
        rw [hf]
        exact ⟨fun h => Or.inl h, fun h => h.elim id (fun h2 => absurd h2 hnone)⟩
    · rw [if_neg hlen]
      obtain ⟨err, st2, hloop, hflag⟩ := checkDependentServicesLoop_walk E serviceOrg serviceUrl
        serviceVersionExp userInputsMap emptyMap
        (fun d s => checkDependentServices E serviceOrg serviceUrl serviceVersionExp userInputsMap
          patternUserInputsMap emptyMap n d s)
        (fun d => ∃ dep, ReachableDependency E d dep ∧
          matchesDependency E serviceOrg serviceUrl serviceVersionExp dep)
        root.RequiredServices
        (fun dep hdep => by
          obtain ⟨d, hd⟩ := hresolve dep (ReachableDependency.direct root dep hdep)
          refine ⟨d, hd, fun s => ?_⟩
          obtain ⟨err, s2, hs2, hf2⟩ := ih d s (hdepth dep hdep d hd)
            (fun x hx => hresolve x (ReachableDependency.through root dep d x hdep hd hx))
            (fun x hx => hcov x (ReachableDependency.through root dep d x hdep hd hx))
          exact ⟨s2.foundMatchService, err, s2, hs2, hf2⟩)
        (fun dep hdep => hcov dep (ReachableDependency.direct root dep hdep))
        st
      refine ⟨err, st2, hloop, ?_⟩
      rw [hflag]
      constructor
      · rintro (h0 | ⟨dep, hdep, hm | ⟨d, hd, x, hx, hm⟩⟩)
        · exact Or.inl h0
        · exact Or.inr ⟨dep, ReachableDependency.direct root dep hdep, hm⟩
        · exact Or.inr ⟨x, ReachableDependency.through root dep d x hdep hd hx, hm⟩
      · rintro (h0 | ⟨dep, hreach, hm⟩)
        · exact Or.inl h0
        · cases hreach with
          | direct _ _ hmem => exact Or.inr ⟨dep, hmem, Or.inl hm⟩
          | through _ via d _ hmem hd hx => exact Or.inr ⟨via, hmem, Or.inr ⟨d, hd, dep, hx, hm⟩⟩

/-- C16: `checkDependentServices`, called with the match flag false on a finite
acyclic graph (every chain of required services from the root ends within `n`
steps) in which every reachable required service resolves and passes the
default-value check, returns for every fuel of at least `n`, its second result
is true, and its first result is true exactly when some required service
reachable from the root has the org and url of the identity under validation and
a declared version range that intersects the version expression of the user
input. With the version ranges of the examples, a required service declaring
`[1.0.0,2.0.0)` is matched by a user input targeting 1.5.0 and not by one
targeting 2.5.0. -/
theorem checkDependentServices_match {V VE : Type} :
    (∀ (E : ValidationEnv V VE) (serviceOrg serviceUrl : String) (serviceVersionExp : VE)
      (userInputsMap patternUserInputsMap : List (String × policy.UserInput V))
      (emptyMap : List (String × List UserInput)) (n : Nat) (root : ServiceDefinition)
      (st : WalkState), st.foundMatchService = false →
      WalkDepth E n root →
      (∀ dep, ReachableDependency E root dep → ∃ d, resolvesTo E dep d) →
      (∀ dep, ReachableDependency E root dep →
        defaultValueCheck userInputsMap emptyMap dep.Org dep.URL = none) →
      ∀ fuel, n ≤ fuel → ∃ found err st2,
        checkDependentServices E serviceOrg serviceUrl serviceVersionExp userInputsMap
            patternUserInputsMap emptyMap fuel root st = some (found, true, err, st2) ∧
          (found = true ↔ ∃ dep, ReachableDependency E root dep ∧
            matchesDependency E serviceOrg serviceUrl serviceVersionExp dep)) ∧
    exampleEnv.sv.Version_Expression_Factory "1.5.0" = Except.ok exampleVersionExp_1_5_0 ∧
    exampleEnv.sv.Version_Expression_Factory "2.5.0" = Except.ok exampleVersionExp_2_5_0 ∧
    checkDependentServices exampleEnv "myorg" "dep" exampleVersionExp_1_5_0 [] [] [] 2
        exampleTopDefinition { foundMatchService := false } =
      some (true, true, none, { foundMatchService := true, resolverCalls := 1 }) ∧
    checkDependentServices exampleEnv "myorg" "dep" exampleVersionExp_2_5_0 [] [] [] 2
        exampleTopDefinition { foundMatchService := false } =
      some (false, true,
        some "Service myorg, dep, [2.5.0,INFINITY) does not define a dependent service",
        { foundMatchService := false, resolverCalls := 1 }) := by
  refine ⟨?_, by decide, by decide, by decide, by decide⟩
  intro E serviceOrg serviceUrl serviceVersionExp userInputsMap patternUserInputsMap emptyMap n
    root st hflag hacyclic hresolve hcov fuel hfuel
  obtain ⟨err, st2, hrun, hiff⟩ := checkDependentServices_walk E serviceOrg serviceUrl
    serviceVersionExp userInputsMap patternUserInputsMap emptyMap fuel root st
    (walkDepth_mono E n fuel root hfuel hacyclic) hresolve hcov
  refine ⟨st2.foundMatchService, err, st2, hrun, ?_⟩
  rw [hiff, hflag]
  exact ⟨fun h => h.elim (fun h0 => Bool.noConfusion h0) id, fun h => Or.inr h⟩

theorem example_resolvesTo_dep (d : ServiceDefinition) :
    resolvesTo exampleEnv
      { URL := "dep", Org := "myorg", VersionRange := "[1.0.0,2.0.0)", Arch := "amd64" } d ↔
      d = exampleDepDefinition := by
  have h : exampleEnv.serviceDefResolverHandler "dep" "myorg"
      (normalizeVersionRange "[1.0.0,2.0.0)") "amd64" = (some exampleDepDefinition, none) := by
    decide
  unfold resolvesTo
  simp only [h]
  constructor
  · intro h2
    injection h2 with h3 _
    injection h3 with h4
    exact h4.symm
  · intro h2
    rw [h2]

theorem example_reachable (dep : ServiceDependency) :
    ReachableDependency exampleEnv exampleTopDefinition dep ↔
      dep = { URL := "dep", Org := "myorg", VersionRange := "[1.0.0,2.0.0)", Arch := "amd64" } := by
  have hleaf : ∀ x, ¬ ReachableDependency exampleEnv exampleDepDefinition x := by
    intro x hx
    cases hx with
    | direct _ _ hmem => exact absurd hmem (List.not_mem_nil _)
    | through _ _ _ _ hmem _ _ => exact absurd hmem (List.not_mem_nil _)
  constructor
  · intro h
    cases h with
    | direct _ _ hmem => exact List.mem_singleton.mp hmem
    | through _ via d _ hmem hd hx =>
      rw [List.mem_singleton.mp hmem] at hd
      rw [(example_resolvesTo_dep d).mp hd] at hx
      exact absurd hx (hleaf dep)
  · intro h
    rw [h]
    exact ReachableDependency.direct _ _ (List.mem_singleton.mpr rfl)

theorem example_walkDepth : WalkDepth exampleEnv 2 exampleTopDefinition := by
  intro dep hdep d hd
  rw [List.mem_singleton.mp hdep] at hd
  rw [(example_resolvesTo_dep d).mp hd]
  intro x hx
  exact absurd hx (List.not_mem_nil _)

/-- Witness of C16 on the registry of the examples: `myorg/top` requires `myorg/dep`
in the range `[1.0.0,2.0.0)`; the walk for a user input of `myorg/dep` targeting
1.5.0 returns, and its first result tells whether a reachable required service
matches, which the one required service does. -/
theorem checkDependentServices_match_witness :
    (∃ found err st2,
      checkDependentServices exampleEnv "myorg" "dep" exampleVersionExp_1_5_0 [] [] [] 2
          exampleTopDefinition { foundMatchService := false } = some (found, true, err, st2) ∧
        (found = true ↔ ∃ dep, ReachableDependency exampleEnv exampleTopDefinition dep ∧
          matchesDependency exampleEnv "myorg" "dep" exampleVersionExp_1_5_0 dep)) ∧
    matchesDependency exampleEnv "myorg" "dep" exampleVersionExp_1_5_0
      { URL := "dep", Org := "myorg", VersionRange := "[1.0.0,2.0.0)", Arch := "amd64" } ∧
    ¬ matchesDependency exampleEnv "myorg" "dep" exampleVersionExp_2_5_0
      { URL := "dep", Org := "myorg", VersionRange := "[1.0.0,2.0.0)", Arch := "amd64" } :=
  ⟨(@checkDependentServices_match PropertyValue ExampleVersionExp).1 exampleEnv "myorg" "dep"
      exampleVersionExp_1_5_0 [] [] [] 2 exampleTopDefinition { foundMatchService := false } rfl
      example_walkDepth
      (fun dep h => ⟨exampleDepDefinition, by
        rw [(example_reachable dep).mp h]
        exact (example_resolvesTo_dep _).mpr rfl⟩)
      (fun _ _ => rfl) 2 (Nat.le_refl 2),
   by unfold matchesDependency; decide,
   by unfold matchesDependency; decide⟩

/-! ### Evaluations of `ValidateUserInput` on the registry of the examples -/

/-- C14, the code at the failing input: the pattern's only top-level service
`myorg/top` requires `myorg/dep` in the range `[1.0.0,2.0.0)`, every service
resolves and no default-value check fails; the user input is for `myorg/dep`
and targets 1.5.0, which intersects that range. The walk from the definition of
`myorg/top` finds the required service, but `ValidateUserInput` walks from the
definition of the user input's own service, `myorg/dep`, which requires nothing,
and returns `validated = false`. -/
theorem ValidateUserInput_required_service_rejected :
    exampleEnv.serviceDefResolverHandler "top" "myorg" "1.0.0" "amd64" =
      (some exampleTopDefinition, none) ∧
    exampleEnv.serviceDefResolverHandler "dep" "myorg" "1.5.0" "amd64" =
      (some exampleDepDefinition, none) ∧
    exampleTopDefinition.RequiredServices =
      [{ URL := "dep", Org := "myorg", VersionRange := "[1.0.0,2.0.0)", Arch := "amd64" }] ∧
    checkDependentServices exampleEnv "myorg" "dep" exampleVersionExp_1_5_0
        [("myorg/dep", exampleDepUserInput "1.5.0")] [] [] 5 exampleTopDefinition
        { foundMatchService := false } =
      some (true, true, none, { foundMatchService := true, resolverCalls := 1 }) ∧
    checkDependentServices exampleEnv "myorg" "dep" exampleVersionExp_1_5_0
        [("myorg/dep", exampleDepUserInput "1.5.0")] [] [] 5 exampleDepDefinition
        { foundMatchService := false } =
      some (false, true, some "No dependent service for service myorg, dep, amd64, 1.5.0",
        { foundMatchService := false, resolverCalls := 0 }) ∧
    ValidateUserInput exampleEnv 5 (exampleDepUserInput "1.5.0") "myorg/pat"
        exampleTopLevelServices [("myorg/dep", exampleDepUserInput "1.5.0")] [] [] =
      some (false, "",
        some "Service myorg dep amd64 [1.5.0,INFINITY) in userInput is not defined in pattern myorg/pat or its dependent services") := by
  decide

/-- C15, the code at the failing input: the node has the pattern of the examples and
the user input is for `myorg/ghost`, which is no top-level service of the
pattern and no required service; the resolver gives no definition and no error
for it, and `ValidateUserInput` returns `validated = false` with a nil error. -/
theorem ValidateUserInput_unknown_identity_nil_error :
    (∀ tl ∈ exampleTopLevelServices,
      ¬ (exampleGhostUserInput.ServiceOrgid = tl.ServiceOrg ∧
          exampleGhostUserInput.ServiceUrl = tl.ServiceURL)) ∧
    (∀ dep ∈ exampleTopDefinition.RequiredServices,
      ¬ (exampleGhostUserInput.ServiceOrgid = dep.Org ∧
          exampleGhostUserInput.ServiceUrl = dep.URL)) ∧
    exampleDepDefinition.RequiredServices = [] ∧
    ValidateUserInput exampleEnv 5 exampleGhostUserInput "myorg/pat" exampleTopLevelServices
        [("myorg/ghost", exampleGhostUserInput)] [] [] =
      some (false, "", none) := by
  decide

/-- C18, the code at the failing input: the resolver returns no service definition and
no error for the service of the user input, and `ValidateUserInput` returns
`validated = false` with a nil error. -/
theorem ValidateUserInput_failure_with_nil_error :
    exampleEnv.sv.Version_Expression_Factory "1.0.0" =
      Except.ok ⟨"1.0.0", "INFINITY", (1, 0, 0), true, none, false⟩ ∧
    exampleEnv.serviceDefResolverHandler "ghost" "myorg" "1.0.0" "amd64" = (none, none) ∧
    ValidateUserInput exampleEnv 5 exampleGhostUserInput "" []
        [("myorg/ghost", exampleGhostUserInput)] [] [] =
      some (false, "", none) := by
  decide

/-! ### Failures of `ValidateUserInput` and their errors -/

theorem checkDependentServicesLoop_failure_error {V VE : Type} (E : ValidationEnv V VE)
    (serviceOrg serviceUrl : String) (serviceVersionExp : VE)
    (userInputsMap : List (String × policy.UserInput V))
    (emptyMap : List (String × List UserInput))
    (recurse : ServiceDefinition → WalkState → Option (Bool × Bool × Option String × WalkState))
    (hrec : ∀ d s r, recurse d s = some r → r.2.1 = false → r.2.2.1 ≠ none)
    (ds : List ServiceDependency) (st : WalkState)
    (r : Bool × Bool × Option String × WalkState)
    (h : checkDependentServicesLoop E serviceOrg serviceUrl serviceVersionExp userInputsMap
      emptyMap recurse ds st = some r) (hfalse : r.2.1 = false) :
    r.2.2.1 ≠ none := by
  induction ds generalizing st with
  | nil =>
    unfold checkDependentServicesLoop at h
    split at h <;> (cases h; exact Bool.noConfusion hfalse)
  | cons dep rest ih =>
    unfold checkDependentServicesLoop at h
    split at h
    · split at h
      · cases h
        exact Option.noConfusion
      · split at h
        · exact Option.noConfusion h
        · rename_i hr
          cases h
          have herr := hrec _ _ _ hr rfl
          exact herr
        · exact ih _ h
    · cases h
      exact Bool.noConfusion hfalse

theorem checkDependentServices_failure_error {V VE : Type} (E : ValidationEnv V VE)
    (serviceOrg serviceUrl : String) (serviceVersionExp : VE)
    (userInputsMap patternUserInputsMap : List (String × policy.UserInput V))
    (emptyMap : List (String × List UserInput)) (fuel : Nat) :
    ∀ (root : ServiceDefinition) (st : WalkState) (r : Bool × Bool × Option String × WalkState),
      checkDependentServices E serviceOrg serviceUrl serviceVersionExp userInputsMap
        patternUserInputsMap emptyMap fuel root st = some r → r.2.1 = false → r.2.2.1 ≠ none := by
  induction fuel with
  | zero =>
    intro root st r h
    unfold checkDependentServices at h
    exact Option.noConfusion h
  | succ fuel ih =>
    intro root st r h hfalse
    unfold checkDependentServices at h
    split at h
    · split at h <;> (cases h; exact Bool.noConfusion hfalse)
    · exact checkDependentServicesLoop_failure_error E serviceOrg serviceUrl serviceVersionExp
        userInputsMap emptyMap _ (fun d s r2 => ih d s r2) _ st r h hfalse

theorem topLevelServicesLoop_failure_error {V VE : Type} (E : ValidationEnv V VE) (fuel : Nat)
    (userInput : policy.UserInput V) (nodePattern : String) (vExp : VE) (warningMessage : String)
    (userInputsMap patternUserInputsMap : List (String × policy.UserInput V))
    (emptyMap : List (String × List UserInput)) (tls : List ServiceReference)
    (s : ServiceDefinition × Bool) (r : Bool × String × Option String)
    (h : topLevelServicesLoop E fuel userInput nodePattern vExp warningMessage userInputsMap
      patternUserInputsMap emptyMap tls s = some r) (hfalse : r.1 = false) :
    r.2.2 ≠ none := by
  induction tls generalizing s with
  | nil =>
    unfold topLevelServicesLoop at h
    split at h
    · cases h
      exact Bool.noConfusion hfalse
    · cases h
      exact Option.noConfusion
  | cons tl rest ih =>
    unfold topLevelServicesLoop at h
    split at h
    · exact Option.noConfusion h
    · split at h
      · split at h
        · cases h
          exact Option.noConfusion
        · split at h
          · cases h
            exact Option.noConfusion
          · split at h
            · exact Option.noConfusion h
            · rename_i hr
              cases h
              exact checkDependentServices_failure_error E _ _ _ _ _ _ fuel _ _ _ hr rfl
            · exact ih _ h
      · cases h
        exact Option.noConfusion

/-- A failure of `ValidateUserInput` has a nil error only when the resolver returned
no definition and no error for the service of the user input. -/
theorem ValidateUserInput_nil_error_only {V VE : Type} (E : ValidationEnv V VE) (fuel : Nat)
    (userInput : policy.UserInput V) (nodePattern : String)
    (topLevelServices : List ServiceReference)
    (userInputsMap patternUserInputsMap : List (String × policy.UserInput V))
    (emptyMap : List (String × List UserInput)) (r : Bool × String × Option String)
    (h : ValidateUserInput E fuel userInput nodePattern topLevelServices userInputsMap
      patternUserInputsMap emptyMap = some r)
    (hfalse : r.1 = false) (hnil : r.2.2 = none) :
    E.serviceDefResolverHandler userInput.ServiceUrl userInput.ServiceOrgid
      (normalizeVersionRange userInput.ServiceVersionRange) userInput.ServiceArch =
      (none, none) := by
  unfold ValidateUserInput at h
  split at h
  · cases h
    exact Option.noConfusion hnil
  · split at h
    · split at h
      · cases h
        exact Option.noConfusion hnil
      · split at h
        · exact absurd hnil (topLevelServicesLoop_failure_error E fuel userInput nodePattern _ _
            userInputsMap patternUserInputsMap emptyMap topLevelServices _ r h hfalse)
        · split at h <;> (cases h; exact Bool.noConfusion hfalse)
    · rename_i x err hne heq
      cases h
      simp only at hnil
      subst hnil
      cases x with
      | none => exact heq
      | some d => exact absurd rfl (hne d rfl)
theorem checkDependentServicesLoop_no_match {V VE : Type} (E : ValidationEnv V VE)
    (serviceOrg serviceUrl : String) (serviceVersionExp : VE)
    (userInputsMap : List (String × policy.UserInput V))
    (emptyMap : List (String × List UserInput))
    (recurse : ServiceDefinition → WalkState → Option (Bool × Bool × Option String × WalkState))
    (ds : List ServiceDependency)
    (hno : ∀ dep ∈ ds, ¬ matchesDependency E serviceOrg serviceUrl serviceVersionExp dep)
    (hrec : ∀ dep ∈ ds, ∀ d, resolvesTo E dep d → ∀ s, s.foundMatchService = false →
      ∃ b err s2, recurse d s = some (false, b, err, s2) ∧ s2.foundMatchService = false ∧
        ((∀ org url, defaultValueCheck userInputsMap emptyMap org url = none) → b = true))
    (st : WalkState) (hst : st.foundMatchService = false) :
    ∃ b err st2, checkDependentServicesLoop E serviceOrg serviceUrl serviceVersionExp
        userInputsMap emptyMap recurse ds st = some (false, b, err, st2) ∧
      st2.foundMatchService = false ∧
      ((∀ org url, defaultValueCheck userInputsMap emptyMap org url = none) → b = true) := by
  induction ds generalizing st with
  | nil =>
    unfold checkDependentServicesLoop
    rw [hst]
    exact ⟨true, _, st, rfl, hst, fun _ => rfl⟩
  | cons dep rest ih =>
    have hnm := hno dep (List.mem_cons_self _ _)
    unfold matchesDependency at hnm
    unfold checkDependentServicesLoop
    split
    · rename_i dsdef hd
      split
      · rename_i err hc
        refine ⟨false, some err, { st with resolverCalls := st.resolverCalls + 1 }, by rw [hst],
          hst, ?_⟩
        intro hcov
        rw [hcov] at hc
        exact Option.noConfusion hc
      · rw [if_neg hnm]
        obtain ⟨b, err, s2, hs2, hf2, hb⟩ := hrec dep (List.mem_cons_self _ _) dsdef hd
          { foundMatchService := st.foundMatchService, resolverCalls := st.resolverCalls + 1 } hst
        rw [hs2]
        cases b with
        | false =>
          refine ⟨false, err, s2, by simp only [hf2], hf2, hb⟩
        | true =>
          exact ih (fun x hx => hno x (List.mem_cons_of_mem _ hx))
            (fun x hx => hrec x (List.mem_cons_of_mem _ hx)) s2 hf2
    · exact ⟨true, _, _, rfl, hst, fun _ => rfl⟩

theorem checkDependentServices_no_match {V VE : Type} (E : ValidationEnv V VE)
    (serviceOrg serviceUrl : String) (serviceVersionExp : VE)
    (userInputsMap patternUserInputsMap : List (String × policy.UserInput V))
    (emptyMap : List (String × List UserInput)) (n : Nat) :
    ∀ (root : ServiceDefinition) (st : WalkState), WalkDepth E n root →
      st.foundMatchService = false →
      (∀ dep, ReachableDependency E root dep →
        ¬ matchesDependency E serviceOrg serviceUrl serviceVersionExp dep) →
      ∃ b err st2, checkDependentServices E serviceOrg serviceUrl serviceVersionExp userInputsMap
          patternUserInputsMap emptyMap n root st = some (false, b, err, st2) ∧
        st2.foundMatchService = false ∧
        ((∀ org url, defaultValueCheck userInputsMap emptyMap org url = none) → b = true) := by
  induction n with
  | zero =>
    intro root st h
    exact False.elim h
  | succ n ih =>
    intro root st hdepth hst hno
    unfold checkDependentServices
    split
    · rw [hst]
      exact ⟨true, _, st, rfl, hst, fun _ => rfl⟩
    · exact checkDependentServicesLoop_no_match E serviceOrg serviceUrl serviceVersionExp
        userInputsMap emptyMap _ root.RequiredServices
        (fun dep hdep => hno dep (ReachableDependency.direct root dep hdep))
        (fun dep hdep d hd s hs => ih d s (hdepth dep hdep d hd) hs
          (fun x hx => hno x (ReachableDependency.through root dep d x hdep hd hx)))
        st hst

theorem topLevelVersionsLoop_out_of_range {V VE : Type} (E : ValidationEnv V VE) (vExp : VE)
    (tl : ServiceReference) (vs : List ServiceChoice)
    (h : ∀ v ∈ vs, E.sv.Is_within_range vExp v.Version = false) (s : ServiceDefinition × Bool) :
    topLevelVersionsLoop E vExp tl vs s = Except.ok s := by
  induction vs with
  | nil => rfl
  | cons v rest ih =>
    unfold topLevelVersionsLoop
    rw [h v (List.mem_cons_self _ _)]
    simp only [Bool.false_eq_true, if_false]
    exact ih (fun x hx => h x (List.mem_cons_of_mem _ hx))

/-- The graph error of `ValidateUserInput`: when the service of the user input
resolves and its inputs pass `compareUserInput`, no top-level service of the
pattern with the org and url of the user input lists a version inside its range,
and the walks, which start at the definition of the user input's service, reach
no matching required service, `ValidateUserInput` returns `validated = false`
with a non-nil error; the error is the `is not defined in pattern` message when
every top-level service resolves and every default-value check passes. -/
theorem ValidateUserInput_not_in_pattern {V VE : Type} (E : ValidationEnv V VE) (fuel n : Nat)
    (userInput : policy.UserInput V) (nodePattern : String)
    (topLevelServices : List ServiceReference)
    (userInputsMap patternUserInputsMap : List (String × policy.UserInput V))
    (emptyMap : List (String × List UserInput)) (vExp : VE) (sdef : ServiceDefinition)
    (w : Option String)
    (hfac : E.sv.Version_Expression_Factory (normalizeVersionRange userInput.ServiceVersionRange) =
      Except.ok vExp)
    (hres : E.serviceDefResolverHandler userInput.ServiceUrl userInput.ServiceOrgid
      (normalizeVersionRange userInput.ServiceVersionRange) userInput.ServiceArch =
      (some sdef, none))
    (hcmp : compareUserInput E.VerifyWorkloadVarTypes sdef.UserInputs userInput.Inputs = (true, w))
    (hpattern : topLevelServices ≠ [])
    (hvers : ∀ tl ∈ topLevelServices, tl.ServiceVersions ≠ [])
    (htop : ∀ tl ∈ topLevelServices, userInput.ServiceOrgid = tl.ServiceOrg →
      userInput.ServiceUrl = tl.ServiceURL →
      ∀ v ∈ tl.ServiceVersions, E.sv.Is_within_range vExp v.Version = false)
    (hacyclic : WalkDepth E n sdef) (hfuel : n ≤ fuel)
    (hno : ∀ dep, ReachableDependency E sdef dep →
      ¬ matchesDependency E userInput.ServiceOrgid userInput.ServiceUrl vExp dep) :
    ∃ e, ValidateUserInput E fuel userInput nodePattern topLevelServices userInputsMap
        patternUserInputsMap emptyMap = some (false, compareWarningMessage userInput w, some e) ∧
      ((∀ tl ∈ topLevelServices, ∀ first ∈ tl.ServiceVersions.head?,
          ∃ d, E.serviceDefResolverHandler tl.ServiceURL tl.ServiceOrg first.Version
            tl.ServiceArch = (some d, none)) →
        (∀ org url, defaultValueCheck userInputsMap emptyMap org url = none) →
        e = "Service " ++ userInput.ServiceOrgid ++ " " ++ userInput.ServiceUrl ++ " " ++
          userInput.ServiceArch ++ " " ++ E.sv.Get_expression vExp ++
          " in userInput is not defined in pattern " ++ nodePattern ++
          " or its dependent services") := by
  have hlen : topLevelServices.length ≠ 0 := fun h0 => hpattern (List.length_eq_zero.mp h0)
  have hval : ValidateUserInput E fuel userInput nodePattern topLevelServices userInputsMap
        patternUserInputsMap emptyMap =
      topLevelServicesLoop E fuel userInput nodePattern vExp (compareWarningMessage userInput w)
        userInputsMap patternUserInputsMap emptyMap topLevelServices (sdef, false) := by
    unfold ValidateUserInput
    simp only [hfac, hres, hcmp]
    rw [if_pos hlen]
  rw [hval]
  clear hval hlen hpattern
  induction topLevelServices with
  | nil =>
    unfold topLevelServicesLoop
    exact ⟨_, rfl, fun _ _ => rfl⟩
  | cons tl rest ih =>
    obtain ⟨e, he, hmsg⟩ := ih (fun x hx => hvers x (List.mem_cons_of_mem _ hx))
      (fun x hx => htop x (List.mem_cons_of_mem _ hx))
    unfold topLevelServicesLoop
    cases hv : tl.ServiceVersions with
    | nil => exact absurd hv (hvers tl (List.mem_cons_self _ _))
    | cons first vs =>
      simp only
      split
      · rename_i d hd
        split
        · rename_i err hc
          refine ⟨err, rfl, ?_⟩
          intro _ hcov
          rw [hcov] at hc
          exact Option.noConfusion hc
        · have hloop : (if userInput.ServiceOrgid = tl.ServiceOrg ∧
                userInput.ServiceUrl = tl.ServiceURL then
              topLevelVersionsLoop E vExp tl (first :: vs) (sdef, false)
            else Except.ok (sdef, false)) = Except.ok (sdef, false) := by
            by_cases hid : userInput.ServiceOrgid = tl.ServiceOrg ∧
                userInput.ServiceUrl = tl.ServiceURL
            · rw [if_pos hid]
              apply topLevelVersionsLoop_out_of_range
              rw [← hv]
              exact htop tl (List.mem_cons_self _ _) hid.1 hid.2
            · rw [if_neg hid]
          rw [hloop]
          simp only
          obtain ⟨b, err, st2, hwalk, _, hb⟩ := checkDependentServices_no_match E
            userInput.ServiceOrgid userInput.ServiceUrl vExp userInputsMap patternUserInputsMap
            emptyMap fuel sdef { foundMatchService := false }
            (walkDepth_mono E n fuel sdef hfuel hacyclic) rfl hno
          rw [hwalk]
          cases b with
          | false =>
            simp only
            have herr := checkDependentServices_failure_error E userInput.ServiceOrgid
              userInput.ServiceUrl vExp userInputsMap patternUserInputsMap emptyMap fuel sdef
              { foundMatchService := false } _ hwalk rfl
            cases err with
            | none => exact absurd rfl herr
            | some e2 =>
              refine ⟨e2, rfl, ?_⟩
              intro _ hcov
              exact absurd (hb hcov) Bool.noConfusion
          | true =>
            simp only [Bool.or_false]
            refine ⟨e, he, ?_⟩
            intro htl hcov
            exact hmsg (fun x hx => htl x (List.mem_cons_of_mem _ hx)) hcov
      · rename_i hne
        refine ⟨_, rfl, ?_⟩
        intro htl _
        obtain ⟨d, hd⟩ := htl tl (List.mem_cons_self _ _) first (by rw [hv]; rfl)
        exact absurd hd (hne d)

/-- The graph error on the registry of the examples: a user input for `myorg/dep`
targeting 2.5.0 on a node with the pattern of the examples. -/
theorem ValidateUserInput_not_in_pattern_witness :
    ∃ e, ValidateUserInput exampleEnv 5 (exampleDepUserInput "2.5.0") "myorg/pat"
        exampleTopLevelServices [("myorg/dep", exampleDepUserInput "2.5.0")] [] [] =
      some (false, compareWarningMessage (exampleDepUserInput "2.5.0") none, some e) ∧
      e = "Service myorg dep amd64 [2.5.0,INFINITY) in userInput is not defined in pattern myorg/pat or its dependent services" := by
  obtain ⟨e, he, hmsg⟩ := ValidateUserInput_not_in_pattern exampleEnv 5 1
    (exampleDepUserInput "2.5.0") "myorg/pat" exampleTopLevelServices
    [("myorg/dep", exampleDepUserInput "2.5.0")] [] [] exampleVersionExp_2_5_0
    exampleDepDefinition none (by decide) (by decide) (by decide) (by decide) (by decide)
    (by decide)
    (fun dep hdep => absurd hdep (List.not_mem_nil _)) (by decide)
    (fun dep hreach => by
      cases hreach with
      | direct _ _ hmem => exact absurd hmem (List.not_mem_nil _)
      | through _ _ _ _ hmem _ _ => exact absurd hmem (List.not_mem_nil _))
  refine ⟨e, he, ?_⟩
  rw [hmsg (fun tl htl first hfirst => by
    rw [List.mem_singleton.mp htl] at hfirst ⊢
    have hf : first = ⟨"1.0.0"⟩ := (Option.some.inj hfirst).symm
    rw [hf]
    exact ⟨exampleTopDefinition, by decide⟩) (fun _ _ => rfl)]
  decide

/-! ### Empty version ranges -/

theorem normalizeVersionRange_idem (r : String) :
    normalizeVersionRange (normalizeVersionRange r) = normalizeVersionRange r := by
  unfold normalizeVersionRange
  by_cases h : r = ""
  · rw [if_pos h]
    decide
  · rw [if_neg h, if_neg h]

theorem topLevelServicesLoop_congr {V VE : Type} (E : ValidationEnv V VE) (fuel : Nat)
    (u1 u2 : policy.UserInput V) (nodePattern : String) (vExp : VE) (warningMessage : String)
    (userInputsMap patternUserInputsMap : List (String × policy.UserInput V))
    (emptyMap : List (String × List UserInput))
    (horg : u1.ServiceOrgid = u2.ServiceOrgid) (hurl : u1.ServiceUrl = u2.ServiceUrl)
    (harch : u1.ServiceArch = u2.ServiceArch) (tls : List ServiceReference)
    (s : ServiceDefinition × Bool) :
    topLevelServicesLoop E fuel u1 nodePattern vExp warningMessage userInputsMap
        patternUserInputsMap emptyMap tls s =
      topLevelServicesLoop E fuel u2 nodePattern vExp warningMessage userInputsMap
        patternUserInputsMap emptyMap tls s := by
  induction tls generalizing s with
  | nil =>
    unfold topLevelServicesLoop
    rw [horg, hurl, harch]
  | cons tl rest ih =>
    unfold topLevelServicesLoop
    simp only [horg, hurl, ih]

theorem checkDependentServicesLoop_normalize {V VE : Type} (E : ValidationEnv V VE)
    (serviceOrg serviceUrl : String) (serviceVersionExp : VE)
    (userInputsMap : List (String × policy.UserInput V))
    (emptyMap : List (String × List UserInput))
    (recurse : ServiceDefinition → WalkState → Option (Bool × Bool × Option String × WalkState))
    (ds : List ServiceDependency) (st : WalkState) :
    checkDependentServicesLoop E serviceOrg serviceUrl serviceVersionExp userInputsMap emptyMap
        recurse (ds.map normalizeDependency) st =
      checkDependentServicesLoop E serviceOrg serviceUrl serviceVersionExp userInputsMap emptyMap
        recurse ds st := by
  induction ds generalizing st with
  | nil => rfl
  | cons dep rest ih =>
    rw [List.map_cons]
    unfold checkDependentServicesLoop
    simp only [normalizeDependency, normalizeVersionRange_idem, ih]

/-- C17: an empty version range is read as `0.0.0`. Where the version expression
factory accepts `0.0.0`, `ValidateUserInput` returns for a user input with the
version range `""` exactly what it returns for the same user input with the
version range `0.0.0`; and `checkDependentServices` returns for a service
definition exactly what it returns for that definition with the empty version
ranges of its required services written as `0.0.0`. -/
theorem ValidateUserInput_empty_version_range {V VE : Type} (E : ValidationEnv V VE)
    (fuel : Nat) (userInput : policy.UserInput V) (nodePattern : String)
    (topLevelServices : List ServiceReference)
    (userInputsMap patternUserInputsMap : List (String × policy.UserInput V))
    (emptyMap : List (String × List UserInput)) (vExp : VE)
    (hfac : E.sv.Version_Expression_Factory "0.0.0" = Except.ok vExp)
    (hempty : userInput.ServiceVersionRange = "") :
    ValidateUserInput E fuel userInput nodePattern topLevelServices userInputsMap
        patternUserInputsMap emptyMap =
      ValidateUserInput E fuel { userInput with ServiceVersionRange := "0.0.0" } nodePattern
        topLevelServices userInputsMap patternUserInputsMap emptyMap ∧
    (∀ (serviceOrg serviceUrl : String) (serviceVersionExp : VE) (fuel2 : Nat)
      (root : ServiceDefinition) (st : WalkState),
      checkDependentServices E serviceOrg serviceUrl serviceVersionExp userInputsMap
          patternUserInputsMap emptyMap fuel2
          { root with RequiredServices := root.RequiredServices.map normalizeDependency } st =
        checkDependentServices E serviceOrg serviceUrl serviceVersionExp userInputsMap
          patternUserInputsMap emptyMap fuel2 root st) ∧
    (∀ dep : ServiceDependency, dep.VersionRange = "" →
      normalizeDependency dep = { dep with VersionRange := "0.0.0" }) := by
  refine ⟨?_, ?_, ?_⟩
  · have h1 : normalizeVersionRange userInput.ServiceVersionRange = "0.0.0" := by
      rw [hempty]
      decide
    have h2 : normalizeVersionRange "0.0.0" = "0.0.0" := by decide
    unfold ValidateUserInput
    simp only [h1, h2, hfac, compareWarningMessage]
    split
    · split
      · rfl
      · rw [topLevelServicesLoop_congr E fuel userInput
          { userInput with ServiceVersionRange := "0.0.0" } nodePattern vExp _ userInputsMap
          patternUserInputsMap emptyMap rfl rfl rfl]
    · rfl
  · intro serviceOrg serviceUrl serviceVersionExp fuel2 root st
    cases fuel2 with
    | zero => rfl
    | succ k =>
      unfold checkDependentServices
      simp only [List.length_map, checkDependentServicesLoop_normalize]
  · intro dep hdep
    unfold normalizeDependency
    rw [hdep]
    rfl

/-- Witness of C17: a user input for `myorg/dep` without a version range, on a node
without a pattern. -/
theorem ValidateUserInput_empty_version_range_witness :
    ValidateUserInput exampleEnv 5 (exampleDepUserInput "") "" []
        [("myorg/dep", exampleDepUserInput "")] [] [] =
      ValidateUserInput exampleEnv 5
        { exampleDepUserInput "" with ServiceVersionRange := "0.0.0" } "" []
        [("myorg/dep", exampleDepUserInput "")] [] [] ∧
    ValidateUserInput exampleEnv 5 (exampleDepUserInput "0.0.0") "" []
        [("myorg/dep", exampleDepUserInput "")] [] [] = some (true, "", none) :=
  ⟨(ValidateUserInput_empty_version_range exampleEnv 5 (exampleDepUserInput "") "" []
      [("myorg/dep", exampleDepUserInput "")] [] []
      ⟨"0.0.0", "INFINITY", (0, 0, 0), true, none, false⟩ (by decide) rfl).1,
   by decide⟩

/-! ### The node policy of the Exchange -/

theorem getNodePolicyLoop_transport {NP EP C : Type} (X : ExchangeEnv NP EP C)
    (deviceId : String) (cache : C) (fuel : Nat) (retryCount : Int) (calls : Nat) (t : String)
    (ht : X.InvokeExchange calls = InvokeResult.transportError t) :
    getNodePolicyLoop X deviceId cache (fuel + 1) retryCount calls =
      if X.RetryCount = 0 then
        getNodePolicyLoop X deviceId cache fuel retryCount (calls + 1)
      else if retryCount = 0 then
        some ⟨none,
          some ("Exceeded " ++ toString X.RetryCount ++ " retries for error: " ++ t),
          cache, calls + 1⟩
      else
        getNodePolicyLoop X deviceId cache fuel (retryCount - 1) (calls + 1) := by
  rw [getNodePolicyLoop]
  simp only [ht]

theorem getNodePolicyLoop_skip {NP EP C : Type} (X : ExchangeEnv NP EP C) (deviceId : String)
    (cache : C) (m : Nat) :
    ∀ (fuel : Nat) (retryCount : Int) (calls : Nat),
      (∀ j, j < m → ∃ t, X.InvokeExchange (calls + j) = InvokeResult.transportError t) →
      (X.RetryCount = 0 ∨ (m : Int) ≤ retryCount) →
      getNodePolicyLoop X deviceId cache (fuel + m) retryCount calls =
        getNodePolicyLoop X deviceId cache fuel
          (if X.RetryCount = 0 then retryCount else retryCount - m) (calls + m) := by
  induction m with
  | zero =>
    intro fuel retryCount calls _ _
    simp
  | succ m ih =>
    intro fuel retryCount calls hcalls hbound
    obtain ⟨t, ht⟩ := hcalls 0 (Nat.succ_pos m)
    rw [Nat.add_zero] at ht
    have hstep : fuel + (m + 1) = (fuel + m) + 1 := rfl
    rw [hstep, getNodePolicyLoop_transport X deviceId cache (fuel + m) retryCount calls t ht]
    have hrest : ∀ j, j < m → ∃ t, X.InvokeExchange (calls + 1 + j) = InvokeResult.transportError t := by
      intro j hj
      have h1 := hcalls (j + 1) (Nat.succ_lt_succ hj)
      have h2 : calls + (j + 1) = calls + 1 + j := by omega
      rw [h2] at h1
      exact h1
    by_cases h0 : X.RetryCount = 0
    · rw [if_pos h0, ih fuel retryCount (calls + 1) hrest (Or.inl h0)]
      simp only [h0, if_true]
      have h3 : calls + 1 + m = calls + (m + 1) := by omega
      rw [h3]
    · have hle : ((m + 1 : Nat) : Int) ≤ retryCount := hbound.resolve_left h0
      have hne : retryCount ≠ 0 := by
        intro hz
        rw [hz] at hle
        omega
      rw [if_neg h0, if_neg hne, ih fuel (retryCount - 1) (calls + 1) hrest (Or.inr (by omega))]
      simp only [h0, if_false]
      have h3 : calls + 1 + m = calls + (m + 1) := by omega
      have h4 : retryCount - 1 - (m : Int) = retryCount - ((m + 1 : Nat) : Int) := by omega
      rw [h3, h4]

/-- C20: on a cache miss, when the Exchange answers with a document after any number
of transport errors that the retry count allows, `GetNodePolicy` returns, and it
returns a nil policy with a nil error exactly when the document has an empty
`LastUpdated`; in that case the cache is left as it was. -/
theorem GetNodePolicy_absent {NP EP C : Type} (X : ExchangeEnv NP EP C) (deviceId : String)
    (cache : C) (fuel m : Nat) (doc : ExchangeNodePolicy NP)
    (hmiss : X.GetNodePolicyFromCache cache (X.GetOrg deviceId) (X.GetId deviceId) = none)
    (hretry : ∀ j, j < m → ∃ t, X.InvokeExchange j = InvokeResult.transportError t)
    (hbound : X.RetryCount = 0 ∨ (m : Int) ≤ X.RetryCount)
    (hok : X.InvokeExchange m = InvokeResult.success doc)
    (hfuel : m < fuel) :
    ∃ r, GetNodePolicy X deviceId cache fuel = some r ∧ r.invocations = m + 1 ∧
      ((r.policy = none ∧ r.error = none) ↔ doc.LastUpdated = "") ∧
      (doc.LastUpdated = "" → r.cache = cache) := by
  obtain ⟨k, hk⟩ : ∃ k, fuel = (k + 1) + m := ⟨fuel - m - 1, by omega⟩
  unfold GetNodePolicy
  rw [hmiss]
  simp only
  rw [hk, getNodePolicyLoop_skip X deviceId cache m (k + 1) X.RetryCount 0
    (fun j hj => by rw [Nat.zero_add]; exact hretry j hj) hbound]
  rw [getNodePolicyLoop, Nat.zero_add]
  simp only [hok]
  by_cases hl : doc.LastUpdated = ""
  · rw [if_pos hl]
    exact ⟨_, rfl, rfl, ⟨fun _ => hl, fun _ => ⟨rfl, rfl⟩⟩, fun _ => rfl⟩
  · rw [if_neg hl]
    by_cases hv : doc.NodePolicyVersion = ""
    · rw [if_pos hv]
      exact ⟨_, rfl, rfl, ⟨fun h => Option.noConfusion h.1, fun h => absurd h hl⟩,
        fun h => absurd h hl⟩
    · rw [if_neg hv]
      by_cases hv2 : doc.NodePolicyVersion = X.NODEPOLICY_VERSION_VERSION_2
      · rw [if_pos hv2]
        exact ⟨_, rfl, rfl, ⟨fun h => Option.noConfusion h.1, fun h => absurd h hl⟩,
          fun h => absurd h hl⟩
      · rw [if_neg hv2]
        exact ⟨_, rfl, rfl, ⟨fun h => Option.noConfusion h.2, fun h => absurd h hl⟩,
          fun h => absurd h hl⟩

/-- Witness of C20: after one transport error the Exchange answers with a document
without `LastUpdated`; the result is nil with a nil error and the cache stays
empty. A stored policy of version 2 is returned and cached. -/
theorem GetNodePolicy_absent_witness :
    (∃ r, GetNodePolicy
        (exampleExchange [InvokeResult.transportError "timeout",
          InvokeResult.success exampleAbsentNodePolicy] 3) "node1" [] 5 = some r ∧
      r.invocations = 1 + 1 ∧
      ((r.policy = none ∧ r.error = none) ↔ exampleAbsentNodePolicy.LastUpdated = "") ∧
      (exampleAbsentNodePolicy.LastUpdated = "" → r.cache = [])) ∧
    (GetNodePolicy (exampleExchange [InvokeResult.success exampleStoredNodePolicy] 3)
        "node1" [] 5).map (fun r => (r.policy, r.error, r.cache, r.invocations)) =
      some (some exampleStoredNodePolicy, none, [("myorg/node1", exampleStoredNodePolicy)], 1) :=
  ⟨GetNodePolicy_absent
      (exampleExchange [InvokeResult.transportError "timeout",
        InvokeResult.success exampleAbsentNodePolicy] 3) "node1" [] 5 1 exampleAbsentNodePolicy
      rfl
      (fun j hj => by
        rw [Nat.lt_one_iff.mp hj]
        exact ⟨"timeout", rfl⟩)
      (Or.inr (by decide)) rfl (by decide),
   by rfl⟩

/-! ### Node update -/

theorem validateUserInputs_spec {V VE J HB : Type} (X : NodeUpdateEnv V VE J HB) (fuel : Nat)
    (nodePatternString : String) (ctx : PatternContext V)
    (userInputsMap : List (String × policy.UserInput V)) (l : List (policy.UserInput V))
    (effects : List (Effect V HB)) (run : Run V HB)
    (h : validateUserInputs X fuel nodePatternString ctx userInputsMap l effects = some run) :
    ∃ ws, run.effects = effects ++ ws ∧ (∀ x ∈ ws, ∃ msg, x = Effect.warning msg) ∧
      (run.fatal = none → ∀ u ∈ l, ∃ warningMessage err,
        ValidateUserInput X.validation fuel u nodePatternString ctx.topLevelServices
            userInputsMap ctx.patternUserInputsMap ctx.userInputWithEmptyDefaultValueMap =
          some (true, warningMessage, err)) := by
  induction l generalizing effects with
  | nil =>
    unfold validateUserInputs at h
    cases h
    exact ⟨[], by simp, fun x hx => absurd hx (List.not_mem_nil x),
      fun _ u hu => absurd hu (List.not_mem_nil u)⟩
  | cons u rest ih =>
    unfold validateUserInputs at h
    split at h
    · exact Option.noConfusion h
    · cases h
      exact ⟨[], by simp, fun x hx => absurd hx (List.not_mem_nil x),
        fun hf => Option.noConfusion hf⟩
    · rename_i w e hv
      obtain ⟨ws, heff, hws, hall⟩ := ih _ h
      by_cases hw : w ≠ ""
      · rw [if_pos hw] at heff
        refine ⟨Effect.warning ("validate exchange node/userinput " ++ w ++ " ") :: ws, ?_, ?_, ?_⟩
        · rw [heff, List.append_assoc]
          rfl
        · intro x hx
          rcases List.mem_cons.mp hx with h1 | h1
          · exact ⟨_, h1⟩
          · exact hws x h1
        · intro hf y hy
          rcases List.mem_cons.mp hy with h1 | h1
          · rw [h1]
            exact ⟨w, e, hv⟩
          · exact hall hf y h1
      · rw [if_neg hw] at heff
        refine ⟨ws, heff, hws, ?_⟩
        intro hf y hy
        rcases List.mem_cons.mp hy with h1 | h1
        · rw [h1]
          exact ⟨w, e, hv⟩
        · exact hall hf y h1

theorem validateUserInputs_of_validated {V VE J HB : Type} (X : NodeUpdateEnv V VE J HB)
    (fuel : Nat) (nodePatternString : String) (ctx : PatternContext V)
    (userInputsMap : List (String × policy.UserInput V)) (l : List (policy.UserInput V))
    (hall : ∀ u ∈ l, ∃ warningMessage err,
      ValidateUserInput X.validation fuel u nodePatternString ctx.topLevelServices
          userInputsMap ctx.patternUserInputsMap ctx.userInputWithEmptyDefaultValueMap =
        some (true, warningMessage, err))
    (effects : List (Effect V HB)) :
    ∃ ws, validateUserInputs X fuel nodePatternString ctx userInputsMap l effects =
        some ⟨effects ++ ws, none⟩ ∧ (∀ x ∈ ws, ∃ msg, x = Effect.warning msg) := by
  induction l generalizing effects with
  | nil =>
    unfold validateUserInputs
    exact ⟨[], by simp, fun x hx => absurd hx (List.not_mem_nil x)⟩
  | cons u rest ih =>
    obtain ⟨w, e, hv⟩ := hall u (List.mem_cons_self _ _)
    unfold validateUserInputs
    rw [hv]
    simp only
    obtain ⟨ws, hrun, hws⟩ := ih (fun y hy => hall y (List.mem_cons_of_mem _ hy))
      (if w ≠ "" then
        effects ++ [Effect.warning ("validate exchange node/userinput " ++ w ++ " ")]
      else effects)
    by_cases hw : w ≠ ""
    · rw [if_pos hw] at hrun ⊢
      refine ⟨Effect.warning ("validate exchange node/userinput " ++ w ++ " ") :: ws, ?_, ?_⟩
      · rw [hrun, List.append_assoc]
        rfl
      · intro x hx
        rcases List.mem_cons.mp hx with h1 | h1
        · exact ⟨_, h1⟩
        · exact hws x h1
    · rw [if_neg hw] at hrun ⊢
      exact ⟨ws, hrun, hws⟩

theorem updateUserInput_spec {V VE J HB : Type} (X : NodeUpdateEnv V VE J HB) (org : String)
    (fuel : Nat) (nodes : List (String × Device)) (ui : List (policy.UserInput V))
    (effects : List (Effect V HB)) (run : Run V HB)
    (h : updateUserInput X org fuel nodes ui effects = some run) :
    ∃ ws, run.effects = effects ++ ws ∧ (∀ x ∈ ws, ∃ msg, x = Effect.warning msg) ∧
      (run.fatal = none → UserInputValidated X org fuel nodes ui) := by
  have hnone : ∃ ws : List (Effect V HB), effects = effects ++ ws ∧
      (∀ x ∈ ws, ∃ msg, x = Effect.warning msg) :=
    ⟨[], by simp, fun x hx => absurd hx (List.not_mem_nil x)⟩
  unfold updateUserInput at h
  split at h
  · cases h
    obtain ⟨ws, h1, h2⟩ := hnone
    exact ⟨ws, h1, h2, fun hf => Option.noConfusion hf⟩
  · rename_i hlen
    have hlen1 : nodes.length = 1 := not_not.mp hlen
    split at h
    · exact Option.noConfusion h
    · cases h
      obtain ⟨ws, h1, h2⟩ := hnone
      exact ⟨ws, h1, h2, fun hf => Option.noConfusion hf⟩
    · rename_i ctx hctx
      by_cases hui : ui.length ≠ 0
      · rw [if_pos hui] at h
        cases hmap : userInputsMapOf ui [] with
        | error msg =>
          rw [hmap] at h
          simp only at h
          cases h
          obtain ⟨ws, h1, h2⟩ := hnone
          exact ⟨ws, h1, h2, fun hf => Option.noConfusion hf⟩
        | ok userInputsMap =>
          rw [hmap] at h
          simp only at h
          cases hval : validateUserInputs X fuel (lastNodePattern nodes) ctx userInputsMap ui
              effects with
          | none =>
            rw [hval] at h
            exact Option.noConfusion h
          | some r =>
            rw [hval] at h
            obtain ⟨ws, h1, h2, h3⟩ := validateUserInputs_spec X fuel (lastNodePattern nodes) ctx
              userInputsMap ui effects r hval
            cases r with
            | mk eff fatal =>
              cases fatal with
              | some msg =>
                simp only at h
                cases h
                exact ⟨ws, h1, h2, fun hf => Option.noConfusion hf⟩
              | none =>
                simp only at h
                cases h
                refine ⟨ws, h1, h2, ?_⟩
                intro hf
                exact ⟨hlen1, ctx, userInputsMap, hctx, hmap, h3 rfl, hf⟩
      · rw [if_neg hui] at h
        simp only at h
        cases h
        obtain ⟨ws, h1, h2⟩ := hnone
        refine ⟨ws, h1, h2, ?_⟩
        intro hf
        have hnil : ui = [] := List.length_eq_zero.mp (not_not.mp hui)
        refine ⟨hlen1, ctx, [], hctx, ?_, ?_, hf⟩
        · rw [hnil]
          rfl
        · intro u hu
          rw [hnil] at hu
          exact absurd hu (List.not_mem_nil u)

theorem updateUserInput_of_validated {V VE J HB : Type} (X : NodeUpdateEnv V VE J HB)
    (org : String) (fuel : Nat) (nodes : List (String × Device))
    (ui : List (policy.UserInput V)) (hval : UserInputValidated X org fuel nodes ui)
    (effects : List (Effect V HB)) :
    ∃ ws, updateUserInput X org fuel nodes ui effects = some ⟨effects ++ ws, none⟩ ∧
      (∀ x ∈ ws, ∃ msg, x = Effect.warning msg) := by
  obtain ⟨hlen, ctx, userInputsMap, hctx, hmap, hall, hverify⟩ := hval
  unfold updateUserInput
  rw [if_neg (not_not.mpr hlen), hctx]
  simp only
  by_cases hui : ui.length ≠ 0
  · rw [if_pos hui, hmap]
    simp only
    obtain ⟨ws, hrun, hws⟩ := validateUserInputs_of_validated X fuel (lastNodePattern nodes) ctx
      userInputsMap ui hall effects
    rw [hrun]
    simp only
    rw [hverify]
    exact ⟨ws, rfl, hws⟩
  · rw [if_neg hui]
    simp only
    rw [hverify]
    exact ⟨[], by simp, fun x hx => absurd hx (List.not_mem_nil x)⟩

theorem attributePatch_spec {V VE J HB : Type} (X : NodeUpdateEnv V VE J HB) (org : String)
    (fuel : Nat) (nodes : List (String × Device)) (k : String) (v : J)
    (effects effects2 : List (Effect V HB))
    (res : Except String (List (String × PatchValue V HB)))
    (h : attributePatch X org fuel nodes k v effects = some (effects2, res)) :
    ∃ ws, effects2 = effects ++ ws ∧ (∀ x ∈ ws, ∃ msg, x = Effect.warning msg) ∧
      ∀ body, res = Except.ok body → ∀ k2 ui, (k2, PatchValue.userInput ui) ∈ body →
        UserInputValidated X org fuel nodes ui := by
  have hnone : ∃ ws : List (Effect V HB), effects = effects ++ ws ∧
      (∀ x ∈ ws, ∃ msg, x = Effect.warning msg) :=
    ⟨[], by simp, fun x hx => absurd hx (List.not_mem_nil x)⟩
  obtain ⟨ws0, h01, h02⟩ := hnone
  unfold attributePatch at h
  split at h
  · split at h
    · cases h
      exact ⟨ws0, h01, h02, fun body hb => Except.noConfusion hb⟩
    · rename_i ui hui
      cases hup : updateUserInput X org fuel nodes ui effects with
      | none =>
        rw [hup] at h
        exact Option.noConfusion h
      | some r =>
        rw [hup] at h
        obtain ⟨ws, h1, h2, h3⟩ := updateUserInput_spec X org fuel nodes ui effects r hup
        cases r with
        | mk eff fatal =>
          cases fatal with
          | some msg =>
            simp only at h
            cases h
            exact ⟨ws, h1, h2, fun body hb => Except.noConfusion hb⟩
          | none =>
            simp only at h
            cases h
            refine ⟨ws, h1, h2, ?_⟩
            intro body hb k2 ui2 hmem
            cases hb
            rcases List.mem_singleton.mp hmem with heq
            injection heq with _ h5
            injection h5 with h6
            rw [h6]
            exact h3 rfl
  · split at h
    · split at h
      · cases h
        exact ⟨ws0, h01, h02, fun body hb => Except.noConfusion hb⟩
      · cases h
        refine ⟨ws0, h01, h02, ?_⟩
        intro body hb k2 ui2 hmem
        cases hb
        rcases List.mem_singleton.mp hmem with heq
        injection heq with _ h5
        exact PatchValue.noConfusion h5
    · split at h
      · split at h
        · cases h
          exact ⟨ws0, h01, h02, fun body hb => Except.noConfusion hb⟩
        · cases h
          refine ⟨ws0, h01, h02, ?_⟩
          intro body hb k2 ui2 hmem
          cases hb
          rcases List.mem_singleton.mp hmem with heq
          injection heq with _ h5
          exact PatchValue.noConfusion h5
      · cases h
        refine ⟨ws0, h01, h02, ?_⟩
        intro body hb k2 ui2 hmem
        cases hb
        exact absurd hmem (List.not_mem_nil _)

theorem nodeUpdateLoop_spec {V VE J HB : Type} (X : NodeUpdateEnv V VE J HB) (org : String)
    (fuel : Nat) (nodeOrg node : String) (nodes : List (String × Device))
    (attributes : List (String × J)) (effects : List (Effect V HB)) (run : Run V HB)
    (hinv : ∀ body, Effect.patch body ∈ effects → ∀ k ui, (k, PatchValue.userInput ui) ∈ body →
      UserInputValidated X org fuel nodes ui)
    (h : nodeUpdateLoop X org fuel nodeOrg node nodes attributes effects = some run) :
    ∀ body, Effect.patch body ∈ run.effects → ∀ k ui, (k, PatchValue.userInput ui) ∈ body →
      UserInputValidated X org fuel nodes ui := by
  induction attributes generalizing effects with
  | nil =>
    unfold nodeUpdateLoop at h
    cases h
    exact hinv
  | cons kv rest ih =>
    obtain ⟨k, v⟩ := kv
    unfold nodeUpdateLoop at h
    cases hat : attributePatch X org fuel nodes k v effects with
    | none =>
      rw [hat] at h
      exact Option.noConfusion h
    | some r =>
      obtain ⟨effects2, res⟩ := r
      rw [hat] at h
      obtain ⟨ws, h1, h2, h3⟩ := attributePatch_spec X org fuel nodes k v effects effects2 res hat
      have hinv2 : ∀ body, Effect.patch body ∈ effects2 → ∀ k ui,
          (k, PatchValue.userInput ui) ∈ body → UserInputValidated X org fuel nodes ui := by
        intro body hb
        rw [h1] at hb
        rcases List.mem_append.mp hb with h4 | h4
        · exact hinv body h4
        · obtain ⟨msg, hmsg⟩ := h2 _ h4
          exact Effect.noConfusion hmsg
      cases res with
      | error msg =>
        simp only at h
        cases h
        exact hinv2
      | ok body0 =>
        simp only at h
        have hinv3 : ∀ body, Effect.patch body ∈ effects2 ++ [Effect.patch body0] → ∀ k ui,
            (k, PatchValue.userInput ui) ∈ body → UserInputValidated X org fuel nodes ui := by
          intro body hb
          rcases List.mem_append.mp hb with h4 | h4
          · exact hinv2 body h4
          · have h5 := List.mem_singleton.mp h4
            injection h5 with h6
            rw [h6]
            exact h3 body0 rfl
        split at h
        · cases h
          exact hinv3
        · exact ih _ hinv3 h

/-- C19: in every run of `NodeUpdate`, a PATCH request whose body carries a user input
was sent only after that user input passed the validation, that is, after
`ValidateUserInput` returned `validated = true` for every entry of it and
`verifyNodeUserInput` returned without ending the run; and for a file with the
attribute `userInput` alone whose user input passes the validation, the run
prints the warnings of the validation, if any, and then sends the PATCH request
with that user input: a warning does not prevent it. -/
theorem NodeUpdate_patch_after_validation {V VE J HB : Type} :
    (∀ (X : NodeUpdateEnv V VE J HB) (org node : String) (findPatchType : List (String × J))
      (fuel : Nat) (run : Run V HB),
      NodeUpdate X org node findPatchType fuel = some run →
      ∀ body, Effect.patch body ∈ run.effects → ∀ k ui, (k, PatchValue.userInput ui) ∈ body →
        UserInputValidated X org fuel (X.getNodes (X.TrimOrg org node).1 (X.TrimOrg org node).2).2
          ui) ∧
    (∀ (X : NodeUpdateEnv V VE J HB) (org node : String) (v : J)
      (ui : List (policy.UserInput V)) (fuel : Nat),
      (X.getNodes (X.TrimOrg org node).1 (X.TrimOrg org node).2).1 ≠ 404 →
      X.unmarshalUserInput v = Except.ok ui →
      UserInputValidated X org fuel (X.getNodes (X.TrimOrg org node).1 (X.TrimOrg org node).2).2
        ui →
      ∃ ws, (∀ x ∈ ws, ∃ msg, x = Effect.warning msg) ∧
        NodeUpdate X org node [("userInput", v)] fuel =
          some ⟨ws ++ [Effect.patch [("userInput", PatchValue.userInput ui)]],
            X.patch (X.TrimOrg org node).1 (X.TrimOrg org node).2
              [("userInput", PatchValue.userInput ui)]⟩) := by
  constructor
  · intro X org node findPatchType fuel run h
    unfold NodeUpdate at h
    split at h
    · cases h
      intro body hb
      exact absurd hb (List.not_mem_nil _)
    · split at h
      · cases h
        intro body hb
        exact absurd hb (List.not_mem_nil _)
      · exact nodeUpdateLoop_spec X org fuel _ _ _ findPatchType [] run
          (fun body hb => absurd hb (List.not_mem_nil _)) h
  · intro X org node v ui fuel hcode hjson hval
    obtain ⟨ws, hrun, hws⟩ := updateUserInput_of_validated X org fuel _ ui hval []
    refine ⟨ws, hws, ?_⟩
    unfold NodeUpdate
    rw [if_neg hcode]
    have hfind : List.find?
        (fun kv : String × J =>
          decide (kv.1 ≠ "userInput" ∧ kv.1 ≠ "pattern" ∧ kv.1 ≠ "heartbeatIntervals"))
        [("userInput", v)] = none := by
      simp [List.find?]
    rw [hfind]
    simp only
    unfold nodeUpdateLoop attributePatch
    simp only [if_true, hjson, hrun, List.nil_append]
    cases hp : X.patch (X.TrimOrg org node).1 (X.TrimOrg org node).2
        [("userInput", PatchValue.userInput ui)] with
    | some msg => rfl
    | none =>
      simp only
      unfold nodeUpdateLoop
      rfl

/-- Witness of C19 on a node without a pattern: the user input for `myorg/top` sets an
input the service does not declare, so its validation gives a warning, and the
PATCH request follows the warning; the user input for `myorg/ghost` fails the
validation, and the run ends without a PATCH request. -/
theorem NodeUpdate_patch_after_validation_witness :
    NodeUpdate (exampleNodeUpdateEnv "") "myorg" "node1"
        [("userInput", [exampleTopUserInput])] 5 =
      some ⟨[Effect.warning
              "validate exchange node/userinput For service myorg top amd64, got warning message: The following variables are not defined in userInput for service in its highest version: [key] \n ",
             Effect.patch [("userInput", PatchValue.userInput [exampleTopUserInput])]],
        none⟩ ∧
    UserInputValidated (exampleNodeUpdateEnv "") "myorg" 5
      [("myorg/node1", { Name := "node1", Arch := "amd64", Pattern := "" })]
      [exampleTopUserInput] ∧
    NodeUpdate (exampleNodeUpdateEnv "") "myorg" "node1"
        [("userInput", [exampleGhostUserInput])] 5 =
      some ⟨[], some "Unable to validate exchange node userInput, error: <nil>"⟩ :=
  ⟨by rfl,
   (@NodeUpdate_patch_after_validation PropertyValue ExampleVersionExp
      (List (policy.UserInput PropertyValue)) Nat).1 (exampleNodeUpdateEnv "") "myorg" "node1"
      [("userInput", [exampleTopUserInput])] 5 _ (by rfl)
      [("userInput", PatchValue.userInput [exampleTopUserInput])]
      (List.mem_cons_of_mem _ (List.mem_singleton.mpr rfl))
      "userInput" [exampleTopUserInput] (List.mem_singleton.mpr rfl),
   by rfl⟩

theorem GetNodePolicy_after_retries {NP EP C : Type} (X : ExchangeEnv NP EP C)
    (deviceId : String) (cache : C) (fuel m : Nat)
    (hmiss : X.GetNodePolicyFromCache cache (X.GetOrg deviceId) (X.GetId deviceId) = none)
    (hretry : ∀ j, j < m → ∃ t, X.InvokeExchange j = InvokeResult.transportError t)
    (hbound : X.RetryCount = 0 ∨ (m : Int) ≤ X.RetryCount)
    (hfuel : m < fuel) :
    ∃ k, GetNodePolicy X deviceId cache fuel =
      getNodePolicyLoop X deviceId cache (k + 1)
        (if X.RetryCount = 0 then X.RetryCount else X.RetryCount - m) m := by
  obtain ⟨k, hk⟩ : ∃ k, fuel = (k + 1) + m := ⟨fuel - m - 1, by omega⟩
  refine ⟨k, ?_⟩
  unfold GetNodePolicy
  rw [hmiss]
  simp only
  rw [hk, getNodePolicyLoop_skip X deviceId cache m (k + 1) X.RetryCount 0
    (fun j hj => by rw [Nat.zero_add]; exact hretry j hj) hbound, Nat.zero_add]

/-- C21: on a cache miss, when the Exchange answers (after transport errors that the
retry count allows) with a document whose `LastUpdated` is not empty:
if its `NodePolicyVersion` is empty, `GetNodePolicy` returns, and writes to the
cache, the policy whose `NodePolicy` is `ConvertNodePolicy_v1Tov2` of the
external policy of the document, whose `NodePolicyVersion` is the version-2 tag
and whose `LastUpdated` is the document's; if its version is the (non-empty)
version-2 tag, the document is returned, and cached, unchanged; for any other
version the result is no policy, the error `Unsupported node policy version
<v>`, and the cache as it was. -/
theorem GetNodePolicy_version_upgrade {NP EP C : Type} (X : ExchangeEnv NP EP C)
    (deviceId : String) (cache : C) (fuel m : Nat) (doc : ExchangeNodePolicy NP)
    (hmiss : X.GetNodePolicyFromCache cache (X.GetOrg deviceId) (X.GetId deviceId) = none)
    (hretry : ∀ j, j < m → ∃ t, X.InvokeExchange j = InvokeResult.transportError t)
    (hbound : X.RetryCount = 0 ∨ (m : Int) ≤ X.RetryCount)
    (hok : X.InvokeExchange m = InvokeResult.success doc)
    (hfuel : m < fuel) (hupdated : doc.LastUpdated ≠ "") :
    ∃ r, GetNodePolicy X deviceId cache fuel = some r ∧
      (doc.NodePolicyVersion = "" →
        r.policy = some
          { NodePolicy := X.ConvertNodePolicy_v1Tov2 (X.ExternalPolicy doc.NodePolicy),
            NodePolicyVersion := X.NODEPOLICY_VERSION_VERSION_2,
            LastUpdated := doc.LastUpdated } ∧
        r.error = none ∧
        r.cache = X.UpdateCache cache (X.NodeCacheMapKey (X.GetOrg deviceId) (X.GetId deviceId))
          { NodePolicy := X.ConvertNodePolicy_v1Tov2 (X.ExternalPolicy doc.NodePolicy),
            NodePolicyVersion := X.NODEPOLICY_VERSION_VERSION_2,
            LastUpdated := doc.LastUpdated }) ∧
      (doc.NodePolicyVersion ≠ "" → doc.NodePolicyVersion = X.NODEPOLICY_VERSION_VERSION_2 →
        r.policy = some doc ∧ r.error = none ∧
        r.cache =
          X.UpdateCache cache (X.NodeCacheMapKey (X.GetOrg deviceId) (X.GetId deviceId)) doc) ∧
      (doc.NodePolicyVersion ≠ "" → doc.NodePolicyVersion ≠ X.NODEPOLICY_VERSION_VERSION_2 →
        r.policy = none ∧
        r.error = some ("Unsupported node policy version " ++ doc.NodePolicyVersion) ∧
        r.cache = cache) := by
  obtain ⟨k, hk⟩ := GetNodePolicy_after_retries X deviceId cache fuel m hmiss hretry hbound hfuel
  rw [hk, getNodePolicyLoop]
  simp only [hok, if_neg hupdated]
  by_cases hv : doc.NodePolicyVersion = ""
  · rw [if_pos hv]
    exact ⟨_, rfl, fun _ => ⟨rfl, rfl, rfl⟩, fun h => absurd hv h, fun h => absurd hv h⟩
  · rw [if_neg hv]
    by_cases hv2 : doc.NodePolicyVersion = X.NODEPOLICY_VERSION_VERSION_2
    · rw [if_pos hv2]
      exact ⟨_, rfl, fun h => absurd h hv, fun _ _ => ⟨rfl, rfl, rfl⟩, fun _ h => absurd hv2 h⟩
    · rw [if_neg hv2]
      exact ⟨_, rfl, fun h => absurd h hv, fun _ h => absurd h hv2, fun _ _ => ⟨rfl, rfl, rfl⟩⟩

/-- Witness of C21: a stored policy without a version tag is converted, tagged and
cached; one tagged `2` is returned as it is; one tagged `3` is refused. -/
theorem GetNodePolicy_version_upgrade_witness :
    (∃ r, GetNodePolicy
        (exampleExchange [InvokeResult.success
          { exampleStoredNodePolicy with NodePolicyVersion := "" }] 3) "node1" [] 5 = some r ∧
      r.policy = some exampleStoredNodePolicy ∧ r.error = none ∧
      r.cache = [("myorg/node1", exampleStoredNodePolicy)]) ∧
    (∃ r, GetNodePolicy
        (exampleExchange [InvokeResult.success exampleStoredNodePolicy] 3) "node1" [] 5 =
          some r ∧
      r.policy = some exampleStoredNodePolicy ∧ r.error = none ∧
      r.cache = [("myorg/node1", exampleStoredNodePolicy)]) ∧
    (∃ r, GetNodePolicy
        (exampleExchange [InvokeResult.success
          { exampleStoredNodePolicy with NodePolicyVersion := "3" }] 3) "node1" [] 5 = some r ∧
      r.policy = none ∧ r.error = some "Unsupported node policy version 3" ∧ r.cache = []) := by
  refine ⟨?_, ?_, ?_⟩
  · obtain ⟨r, hr, h1, _, _⟩ := GetNodePolicy_version_upgrade
      (exampleExchange [InvokeResult.success
        { exampleStoredNodePolicy with NodePolicyVersion := "" }] 3) "node1" [] 5 0
      { exampleStoredNodePolicy with NodePolicyVersion := "" } rfl
      (fun j hj => absurd hj (Nat.not_lt_zero j)) (Or.inr (by decide)) rfl (by decide)
      (by decide)
    exact ⟨r, hr, h1 rfl⟩
  · obtain ⟨r, hr, _, h2, _⟩ := GetNodePolicy_version_upgrade
      (exampleExchange [InvokeResult.success exampleStoredNodePolicy] 3) "node1" [] 5 0
      exampleStoredNodePolicy rfl
      (fun j hj => absurd hj (Nat.not_lt_zero j)) (Or.inr (by decide)) rfl (by decide)
      (by decide)
    exact ⟨r, hr, h2 (by decide) rfl⟩
  · obtain ⟨r, hr, _, _, h3⟩ := GetNodePolicy_version_upgrade
      (exampleExchange [InvokeResult.success
        { exampleStoredNodePolicy with NodePolicyVersion := "3" }] 3) "node1" [] 5 0
      { exampleStoredNodePolicy with NodePolicyVersion := "3" } rfl
      (fun j hj => absurd hj (Nat.not_lt_zero j)) (Or.inr (by decide)) rfl (by decide)
      (by decide)
    exact ⟨r, hr, h3 (by decide) (by decide)⟩

/-- C27: on a cache miss. With a retry count `n > 0` and every call of the Exchange
failing with a transport error, `GetNodePolicy` calls the Exchange exactly
`n + 1` times and returns the error `Exceeded n retries for error: <cause>`,
the cause being the transport error of the last call. An error that is not a
transport error is returned as it is by the call that gave it, the first call
when no transport error came before, and a successful answer ends the loop at the
call that gave it. -/
theorem GetNodePolicy_retries {NP EP C : Type} (X : ExchangeEnv NP EP C) (deviceId : String)
    (cache : C)
    (hmiss : X.GetNodePolicyFromCache cache (X.GetOrg deviceId) (X.GetId deviceId) = none) :
    (∀ (n : Nat) (t : String) (fuel : Nat), 0 < n → X.RetryCount = (n : Int) →
      (∀ k, ∃ tk, X.InvokeExchange k = InvokeResult.transportError tk) →
      X.InvokeExchange n = InvokeResult.transportError t → n < fuel →
      ∃ r, GetNodePolicy X deviceId cache fuel = some r ∧ r.policy = none ∧
        r.error = some ("Exceeded " ++ toString n ++ " retries for error: " ++ t) ∧
        r.invocations = n + 1 ∧ r.cache = cache) ∧
    (∀ (m : Nat) (e : String) (fuel : Nat),
      (∀ j, j < m → ∃ t, X.InvokeExchange j = InvokeResult.transportError t) →
      (X.RetryCount = 0 ∨ (m : Int) ≤ X.RetryCount) →
      X.InvokeExchange m = InvokeResult.error e → m < fuel →
      ∃ r, GetNodePolicy X deviceId cache fuel = some r ∧ r.policy = none ∧
        r.error = some e ∧ r.invocations = m + 1 ∧ r.cache = cache) ∧
    (∀ (m : Nat) (doc : ExchangeNodePolicy NP) (fuel : Nat),
      (∀ j, j < m → ∃ t, X.InvokeExchange j = InvokeResult.transportError t) →
      (X.RetryCount = 0 ∨ (m : Int) ≤ X.RetryCount) →
      X.InvokeExchange m = InvokeResult.success doc → m < fuel →
      ∃ r, GetNodePolicy X deviceId cache fuel = some r ∧ r.invocations = m + 1) := by
  refine ⟨?_, ?_, ?_⟩
  · intro n t fuel hn hcount hall hlast hfuel
    obtain ⟨k, hk⟩ := GetNodePolicy_after_retries X deviceId cache fuel n hmiss
      (fun j _ => hall j) (Or.inr (by rw [hcount])) hfuel
    have hne : X.RetryCount ≠ 0 := by
      rw [hcount]
      omega
    rw [hk, getNodePolicyLoop_transport X deviceId cache k _ n t hlast, if_neg hne, if_neg hne,
      hcount]
    simp only [sub_self, if_true]
    exact ⟨_, rfl, rfl, rfl, rfl, rfl⟩
  · intro m e fuel hretry hbound herr hfuel
    obtain ⟨k, hk⟩ := GetNodePolicy_after_retries X deviceId cache fuel m hmiss hretry hbound
      hfuel
    rw [hk, getNodePolicyLoop]
    simp only [herr]
    exact ⟨_, rfl, rfl, rfl, rfl, rfl⟩
  · intro m doc fuel hretry hbound hok hfuel
    obtain ⟨k, hk⟩ := GetNodePolicy_after_retries X deviceId cache fuel m hmiss hretry hbound
      hfuel
    rw [hk, getNodePolicyLoop]
    simp only [hok]
    split
    · exact ⟨_, rfl, rfl⟩
    · split
      · exact ⟨_, rfl, rfl⟩
      · split
        · exact ⟨_, rfl, rfl⟩
        · exact ⟨_, rfl, rfl⟩

/-- Witness of C27: with a retry count of 3 and an Exchange that only gives transport
errors, the fourth call ends the run; an error of the Exchange ends it at the
first call. -/
theorem GetNodePolicy_retries_witness :
    (∃ r, GetNodePolicy (exampleExchange [] 3) "node1" [] 10 = some r ∧ r.policy = none ∧
      r.error = some ("Exceeded " ++ toString 3 ++ " retries for error: " ++ "timeout") ∧
      r.invocations = 3 + 1 ∧ r.cache = []) ∧
    (∃ r, GetNodePolicy (exampleExchange [InvokeResult.error "status: 500"] 3) "node1" [] 10 =
        some r ∧
      r.policy = none ∧ r.error = some "status: 500" ∧ r.invocations = 0 + 1 ∧ r.cache = []) :=
  ⟨(GetNodePolicy_retries (exampleExchange [] 3) "node1" [] rfl).1 3 "timeout" 10 (by decide) rfl
      (fun _ => ⟨"timeout", rfl⟩) rfl (by decide),
   (GetNodePolicy_retries (exampleExchange [InvokeResult.error "status: 500"] 3) "node1" []
      rfl).2.1 0 "status: 500" 10 (fun j hj => absurd hj (Nat.not_lt_zero j))
      (Or.inr (by decide)) rfl (by decide)⟩

/-! ### Deleting the node policy -/

theorem containsChars_iff (sub s : List Char) :
    containsChars sub s = true ↔ ∃ pre post, s = pre ++ sub ++ post := by
  induction s with
  | nil =>
    unfold containsChars
    constructor
    · intro h
      have hsub : sub = [] := List.isEmpty_iff.mp h
      exact ⟨[], [], by rw [hsub]; rfl⟩
    · rintro ⟨pre, post, h⟩
      have h1 := congrArg List.length h
      simp only [List.length_nil, List.length_append] at h1
      have hsub : sub = [] := List.length_eq_zero.mp (by omega)
      rw [hsub]
      rfl
  | cons c cs ih =>
    unfold containsChars
    rw [Bool.or_eq_true, ih, List.isPrefixOf_iff_prefix]
    constructor
    · rintro (⟨t, ht⟩ | ⟨pre, post, h⟩)
      · exact ⟨[], t, by rw [← ht]; rfl⟩
      · exact ⟨c :: pre, post, by rw [h]; rfl⟩
    · rintro ⟨pre, post, h⟩
      cases pre with
      | nil => exact Or.inl ⟨post, by rw [h]; rfl⟩
      | cons p pre =>
        simp only [List.cons_append, List.cons.injEq] at h
        exact Or.inr ⟨pre, post, h.2⟩

theorem stringsContains_iff (s substr : String) :
    stringsContains s substr = true ↔ ∃ pre post, s.data = pre ++ substr.data ++ post :=
  containsChars_iff substr.data s.data

theorem deleteNodePolicyLoop_transport {C : Type} (X : DeleteEnv C) (deviceId : String)
    (cache : C) (fuel : Nat) (retryCount : Int) (calls : Nat) (t : String)
    (herr : errorOtherThan404 (X.InvokeExchange calls).1 = false)
    (ht : (X.InvokeExchange calls).2 = some t) :
    deleteNodePolicyLoop X deviceId cache (fuel + 1) retryCount calls =
      if X.RetryCount = 0 then
        deleteNodePolicyLoop X deviceId cache fuel retryCount (calls + 1)
      else if retryCount = 0 then
        some ⟨some ("Exceeded " ++ toString X.RetryCount ++ " retries for error: " ++ t),
          cache, calls + 1⟩
      else
        deleteNodePolicyLoop X deviceId cache fuel (retryCount - 1) (calls + 1) := by
  rw [deleteNodePolicyLoop]
  simp only [herr, ht, Bool.false_eq_true, if_false]

theorem deleteNodePolicyLoop_skip {C : Type} (X : DeleteEnv C) (deviceId : String) (cache : C)
    (m : Nat) :
    ∀ (fuel : Nat) (retryCount : Int) (calls : Nat),
      (∀ j, j < m → errorOtherThan404 (X.InvokeExchange (calls + j)).1 = false ∧
        ∃ t, (X.InvokeExchange (calls + j)).2 = some t) →
      (X.RetryCount = 0 ∨ (m : Int) ≤ retryCount) →
      deleteNodePolicyLoop X deviceId cache (fuel + m) retryCount calls =
        deleteNodePolicyLoop X deviceId cache fuel
          (if X.RetryCount = 0 then retryCount else retryCount - m) (calls + m) := by
  induction m with
  | zero =>
    intro fuel retryCount calls _ _
    simp
  | succ m ih =>
    intro fuel retryCount calls hcalls hbound
    obtain ⟨herr, t, ht⟩ := hcalls 0 (Nat.succ_pos m)
    rw [Nat.add_zero] at herr ht
    have hstep : fuel + (m + 1) = (fuel + m) + 1 := rfl
    rw [hstep, deleteNodePolicyLoop_transport X deviceId cache (fuel + m) retryCount calls t herr ht]
    have hrest : ∀ j, j < m → errorOtherThan404 (X.InvokeExchange (calls + 1 + j)).1 = false ∧
        ∃ t, (X.InvokeExchange (calls + 1 + j)).2 = some t := by
      intro j hj
      have h1 := hcalls (j + 1) (Nat.succ_lt_succ hj)
      have h2 : calls + (j + 1) = calls + 1 + j := by omega
      rw [h2] at h1
      exact h1
    by_cases h0 : X.RetryCount = 0
    · rw [if_pos h0, ih fuel retryCount (calls + 1) hrest (Or.inl h0)]
      simp only [h0, if_true]
      have h3 : calls + 1 + m = calls + (m + 1) := by omega
      rw [h3]
    · have hle : ((m + 1 : Nat) : Int) ≤ retryCount := hbound.resolve_left h0
      have hne : retryCount ≠ 0 := by
        intro hz
        rw [hz] at hle
        omega
      rw [if_neg h0, if_neg hne, ih fuel (retryCount - 1) (calls + 1) hrest (Or.inr (by omega))]
      simp only [h0, if_false]
      have h3 : calls + 1 + m = calls + (m + 1) := by omega
      have h4 : retryCount - 1 - (m : Int) = retryCount - ((m + 1 : Nat) : Int) := by omega
      rw [h3, h4]

/-- C22: `DeleteNodePolicy`, at the call of the Exchange that follows the transport
errors the retry count allows, returns nil when the Exchange gives no error and
no transport error, and also when it gives no transport error and an error
whose text contains `status: 404`; in both cases the node policy is deleted
from the cache. An error whose text does not contain `status: 404` is returned
as it is, and the cache is left as it was. -/
theorem DeleteNodePolicy_not_found {C : Type} (X : DeleteEnv C) (deviceId : String) (cache : C)
    (fuel m : Nat)
    (hretry : ∀ j, j < m → errorOtherThan404 (X.InvokeExchange j).1 = false ∧
      ∃ t, (X.InvokeExchange j).2 = some t)
    (hbound : X.RetryCount = 0 ∨ (m : Int) ≤ X.RetryCount)
    (hfuel : m < fuel) :
    (X.InvokeExchange m = (none, none) →
      ∃ r, DeleteNodePolicy X deviceId cache fuel = some r ∧ r.error = none ∧
        r.cache = X.DeleteCacheResource cache
          (X.NodeCacheMapKey (X.GetOrg deviceId) (X.GetId deviceId)) ∧
        r.invocations = m + 1) ∧
    (∀ e, X.InvokeExchange m = (some e, none) →
      (∃ pre post, e.data = pre ++ "status: 404".data ++ post) →
      ∃ r, DeleteNodePolicy X deviceId cache fuel = some r ∧ r.error = none ∧
        r.cache = X.DeleteCacheResource cache
          (X.NodeCacheMapKey (X.GetOrg deviceId) (X.GetId deviceId)) ∧
        r.invocations = m + 1) ∧
    (∀ e tpErr, X.InvokeExchange m = (some e, tpErr) →
      (¬ ∃ pre post, e.data = pre ++ "status: 404".data ++ post) →
      ∃ r, DeleteNodePolicy X deviceId cache fuel = some r ∧ r.error = some e ∧
        r.cache = cache ∧ r.invocations = m + 1) := by
  obtain ⟨k, hk⟩ : ∃ k, fuel = (k + 1) + m := ⟨fuel - m - 1, by omega⟩
  have hrun : DeleteNodePolicy X deviceId cache fuel =
      deleteNodePolicyLoop X deviceId cache (k + 1)
        (if X.RetryCount = 0 then X.RetryCount else X.RetryCount - m) m := by
    unfold DeleteNodePolicy
    rw [hk, deleteNodePolicyLoop_skip X deviceId cache m (k + 1) X.RetryCount 0
      (fun j hj => by rw [Nat.zero_add]; exact hretry j hj) hbound, Nat.zero_add]
  rw [hrun, deleteNodePolicyLoop]
  refine ⟨?_, ?_, ?_⟩
  · intro h
    simp only [h, errorOtherThan404, Bool.false_eq_true, if_false]
    exact ⟨_, rfl, rfl, rfl, rfl⟩
  · intro e h hsub
    have hc : stringsContains e "status: 404" = true := (stringsContains_iff e _).mpr hsub
    simp only [h, errorOtherThan404, hc, Bool.not_true, Bool.false_eq_true, if_false]
    exact ⟨_, rfl, rfl, rfl, rfl⟩
  · intro e tpErr h hsub
    have hc : stringsContains e "status: 404" = false := by
      cases hs : stringsContains e "status: 404" with
      | false => rfl
      | true => exact absurd ((stringsContains_iff e _).mp hs) hsub
    simp only [h, errorOtherThan404, hc, Bool.not_false, if_true]
    exact ⟨_, rfl, rfl, rfl, rfl⟩

/-- Witness of C22: the Exchange answers the DELETE with `status: 404`, and the run
returns nil and drops the cached policy; it answers with `status: 500`, and
that error is returned and the cache kept. -/
theorem DeleteNodePolicy_not_found_witness :
    (∃ r, DeleteNodePolicy
        (exampleDeleteExchange
          [(some "Invocation of DELETE at node1 failed with status: 404", none)] 3)
        "node1" [("myorg/node1", exampleStoredNodePolicy)] 5 = some r ∧
      r.error = none ∧ r.cache = [] ∧ r.invocations = 0 + 1) ∧
    (∃ r, DeleteNodePolicy
        (exampleDeleteExchange
          [(some "Invocation of DELETE at node1 failed with status: 500", none)] 3)
        "node1" [("myorg/node1", exampleStoredNodePolicy)] 5 = some r ∧
      r.error = some "Invocation of DELETE at node1 failed with status: 500" ∧
      r.cache = [("myorg/node1", exampleStoredNodePolicy)] ∧ r.invocations = 0 + 1) :=
  ⟨(DeleteNodePolicy_not_found
      (exampleDeleteExchange
        [(some "Invocation of DELETE at node1 failed with status: 404", none)] 3)
      "node1" [("myorg/node1", exampleStoredNodePolicy)] 5 0
      (fun j hj => absurd hj (Nat.not_lt_zero j)) (Or.inr (by decide)) (by decide)).2.1
      "Invocation of DELETE at node1 failed with status: 404" rfl
      ((stringsContains_iff _ _).mp (by decide)),
   (DeleteNodePolicy_not_found
      (exampleDeleteExchange
        [(some "Invocation of DELETE at node1 failed with status: 500", none)] 3)
      "node1" [("myorg/node1", exampleStoredNodePolicy)] 5 0
      (fun j hj => absurd hj (Nat.not_lt_zero j)) (Or.inr (by decide)) (by decide)).2.2
      "Invocation of DELETE at node1 failed with status: 500" none rfl
      (fun h => absurd ((stringsContains_iff _ _).mpr h) (by decide))⟩

/-! ### Steps of the dependency walk -/

theorem checkDependentServicesLoop_unresolved {V VE : Type} (E : ValidationEnv V VE)
    (serviceOrg serviceUrl : String) (serviceVersionExp : VE)
    (userInputsMap : List (String × policy.UserInput V))
    (emptyMap : List (String × List UserInput))
    (recurse : ServiceDefinition → WalkState → Option (Bool × Bool × Option String × WalkState))
    (dep : ServiceDependency) (rest : List ServiceDependency) (st : WalkState)
    (h : ∀ d, ¬ resolvesTo E dep d) :
    checkDependentServicesLoop E serviceOrg serviceUrl serviceVersionExp userInputsMap emptyMap
        recurse (dep :: rest) st =
      some (false, true,
        some ("service does not exist " ++ dep.Org ++ ", " ++ dep.URL ++ ", " ++ dep.Arch ++
          ", " ++ normalizeVersionRange dep.VersionRange),
        { st with resolverCalls := st.resolverCalls + 1 }) := by
  rw [checkDependentServicesLoop]
  split
  · rename_i d hd
    exact absurd hd (h d)
  · rfl

theorem checkDependentServicesLoop_coverage {V VE : Type} (E : ValidationEnv V VE)
    (serviceOrg serviceUrl : String) (serviceVersionExp : VE)
    (userInputsMap : List (String × policy.UserInput V))
    (emptyMap : List (String × List UserInput))
    (recurse : ServiceDefinition → WalkState → Option (Bool × Bool × Option String × WalkState))
    (dep : ServiceDependency) (rest : List ServiceDependency) (st : WalkState)
    (d : ServiceDefinition) (e : String) (hd : resolvesTo E dep d)
    (hc : defaultValueCheck userInputsMap emptyMap dep.Org dep.URL = some e) :
    checkDependentServicesLoop E serviceOrg serviceUrl serviceVersionExp userInputsMap emptyMap
        recurse (dep :: rest) st =
      some (st.foundMatchService, false, some e,
        { st with resolverCalls := st.resolverCalls + 1 }) := by
  unfold resolvesTo at hd
  rw [checkDependentServicesLoop]
  simp only [hd, hc]

theorem checkDependentServicesLoop_recurse {V VE : Type} (E : ValidationEnv V VE)
    (serviceOrg serviceUrl : String) (serviceVersionExp : VE)
    (userInputsMap : List (String × policy.UserInput V))
    (emptyMap : List (String × List UserInput))
    (recurse : ServiceDefinition → WalkState → Option (Bool × Bool × Option String × WalkState))
    (dep : ServiceDependency) (rest : List ServiceDependency) (st : WalkState)
    (d : ServiceDefinition) (hd : resolvesTo E dep d)
    (hc : defaultValueCheck userInputsMap emptyMap dep.Org dep.URL = none) :
    checkDependentServicesLoop E serviceOrg serviceUrl serviceVersionExp userInputsMap emptyMap
        recurse (dep :: rest) st =
      match recurse d (walkStateAfter E serviceOrg serviceUrl serviceVersionExp dep st) with
      | none => none
      | some (_, false, err, st2) => some (st2.foundMatchService, false, err, st2)
      | some (_, true, _, st2) =>
        checkDependentServicesLoop E serviceOrg serviceUrl serviceVersionExp userInputsMap
          emptyMap recurse rest st2 := by
  unfold resolvesTo at hd
  rw [checkDependentServicesLoop]
  simp only [hd, hc]
  rfl

theorem checkDependentServices_succ {V VE : Type} (E : ValidationEnv V VE)
    (serviceOrg serviceUrl : String) (serviceVersionExp : VE)
    (userInputsMap patternUserInputsMap : List (String × policy.UserInput V))
    (emptyMap : List (String × List UserInput)) (n : Nat) (root : ServiceDefinition)
    (st : WalkState) (h : root.RequiredServices.length ≠ 0) :
    checkDependentServices E serviceOrg serviceUrl serviceVersionExp userInputsMap
        patternUserInputsMap emptyMap (n + 1) root st =
      checkDependentServicesLoop E serviceOrg serviceUrl serviceVersionExp userInputsMap emptyMap
        (fun d s =>
          checkDependentServices E serviceOrg serviceUrl serviceVersionExp userInputsMap
            patternUserInputsMap emptyMap n d s)
        root.RequiredServices st := by
  rw [checkDependentServices, if_neg h]

/-- C25: `checkDependentServices` applied to a service without required services, with
any fuel that allows one call, returns `(true, true, nil)` when the match flag
is already true, and `(false, true, error)` with the error `No dependent
service for service <owner>, <url>, <arch>, <version>` when it is false; the
state after the call is the state before it, so the flag is unchanged and the
resolver has not been called, and the result is the same for every resolver.
The maps are arguments that the function only reads. -/
theorem checkDependentServices_leaf {V VE : Type} (E : ValidationEnv V VE)
    (serviceOrg serviceUrl : String) (serviceVersionExp : VE)
    (userInputsMap patternUserInputsMap : List (String × policy.UserInput V))
    (emptyMap : List (String × List UserInput)) (fuel : Nat) (root : ServiceDefinition)
    (st : WalkState) (hleaf : root.RequiredServices = []) :
    (st.foundMatchService = true →
      checkDependentServices E serviceOrg serviceUrl serviceVersionExp userInputsMap
          patternUserInputsMap emptyMap (fuel + 1) root st = some (true, true, none, st)) ∧
    (st.foundMatchService = false →
      checkDependentServices E serviceOrg serviceUrl serviceVersionExp userInputsMap
          patternUserInputsMap emptyMap (fuel + 1) root st =
        some (false, true,
          some ("No dependent service for service " ++ root.Owner ++ ", " ++ root.URL ++ ", " ++
            root.Arch ++ ", " ++ root.Version), st)) ∧
    (∀ E2 : ValidationEnv V VE,
      checkDependentServices E2 serviceOrg serviceUrl serviceVersionExp userInputsMap
          patternUserInputsMap emptyMap (fuel + 1) root st =
        checkDependentServices E serviceOrg serviceUrl serviceVersionExp userInputsMap
          patternUserInputsMap emptyMap (fuel + 1) root st) := by
  have hlen : root.RequiredServices.length = 0 := by rw [hleaf]; rfl
  have hrun : ∀ E3 : ValidationEnv V VE,
      checkDependentServices E3 serviceOrg serviceUrl serviceVersionExp userInputsMap
          patternUserInputsMap emptyMap (fuel + 1) root st =
        if st.foundMatchService then some (true, true, none, st)
        else some (false, true,
          some ("No dependent service for service " ++ root.Owner ++ ", " ++ root.URL ++ ", " ++
            root.Arch ++ ", " ++ root.Version), st) := by
    intro E3
    rw [checkDependentServices, if_pos hlen]
  refine ⟨?_, ?_, ?_⟩
  · intro hf
    rw [hrun E, hf]
    rfl
  · intro hf
    rw [hrun E, hf]
    rfl
  · intro E2
    rw [hrun E2, hrun E]

/-- Witness of C25: the definition of `myorg/dep` has no required services. -/
theorem checkDependentServices_leaf_witness :
    checkDependentServices exampleEnv "myorg" "dep" exampleVersionExp_1_5_0 [] [] [] 1
        exampleDepDefinition { foundMatchService := true, resolverCalls := 7 } =
      some (true, true, none, { foundMatchService := true, resolverCalls := 7 }) ∧
    checkDependentServices exampleEnv "myorg" "dep" exampleVersionExp_1_5_0 [] [] [] 1
        exampleDepDefinition { foundMatchService := false, resolverCalls := 7 } =
      some (false, true, some "No dependent service for service myorg, dep, amd64, 1.5.0",
        { foundMatchService := false, resolverCalls := 7 }) :=
  ⟨(checkDependentServices_leaf exampleEnv "myorg" "dep" exampleVersionExp_1_5_0 [] [] [] 0
      exampleDepDefinition { foundMatchService := true, resolverCalls := 7 } rfl).1 rfl,
   (checkDependentServices_leaf exampleEnv "myorg" "dep" exampleVersionExp_1_5_0 [] [] [] 0
      exampleDepDefinition { foundMatchService := false, resolverCalls := 7 } rfl).2.1 rfl⟩

/-! ### Default-value coverage in the dependency walk -/

theorem cmdInputsContains_found {V : Type} (inputs : List (Input V)) (name : String)
    (h : name ∈ inputs.map (fun i => i.Name)) :
    cmdInputsContains inputs name = (true, none) := by
  induction inputs with
  | nil => exact absurd h (List.not_mem_nil _)
  | cons i rest ih =>
    unfold cmdInputsContains
    by_cases hi : i.Name = name
    · rw [if_pos hi]
    · rw [if_neg hi]
      apply ih
      rcases List.mem_cons.mp h with h1 | h1
      · exact absurd h1.symm hi
      · exact h1

theorem cmdInputsContains_missing {V : Type} (inputs : List (Input V)) (name : String)
    (h : name ∉ inputs.map (fun i => i.Name)) :
    cmdInputsContains inputs name =
      (false, some (name ++ " needs to be set in userInput because it has no default value.")) := by
  induction inputs with
  | nil => rfl
  | cons i rest ih =>
    unfold cmdInputsContains
    have hi : ¬ i.Name = name := fun h0 => h (by rw [← h0]; exact List.mem_cons_self _ _)
    rw [if_neg hi]
    exact ih (fun h0 => h (List.mem_cons_of_mem _ h0))

theorem emptyDefaultValuesLoop_first {V : Type} (inputs : List (Input V))
    (pre : List UserInput) (x : UserInput) (post : List UserInput)
    (hpre : ∀ y ∈ pre, y.Name ∈ inputs.map (fun i => i.Name))
    (hx : x.Name ∉ inputs.map (fun i => i.Name)) :
    emptyDefaultValuesLoop inputs (pre ++ x :: post) =
      some (x.Name ++ " needs to be set in userInput because it has no default value.") := by
  induction pre with
  | nil =>
    rw [List.nil_append]
    unfold emptyDefaultValuesLoop
    rw [cmdInputsContains_missing inputs x.Name hx]
    rfl
  | cons y pre ih =>
    rw [List.cons_append]
    unfold emptyDefaultValuesLoop
    rw [cmdInputsContains_found inputs y.Name (hpre y (List.mem_cons_self _ _))]
    exact ih (fun z hz => hpre z (List.mem_cons_of_mem _ hz))

theorem coverageFailureVisited_loop {V VE : Type} (E : ValidationEnv V VE)
    (serviceOrg serviceUrl : String) (serviceVersionExp : VE)
    (userInputsMap patternUserInputsMap : List (String × policy.UserInput V))
    (emptyMap : List (String × List UserInput)) (n : Nat) (ds : List ServiceDependency)
    (st : WalkState) (e : String)
    (h : CoverageFailureVisited E serviceOrg serviceUrl serviceVersionExp userInputsMap
      patternUserInputsMap emptyMap n ds st e) :
    ∃ st2, checkDependentServicesLoop E serviceOrg serviceUrl serviceVersionExp userInputsMap
        emptyMap
        (fun d s =>
          checkDependentServices E serviceOrg serviceUrl serviceVersionExp userInputsMap
            patternUserInputsMap emptyMap n d s)
        ds st = some (st2.foundMatchService, false, some e, st2) := by
  induction h with
  | atFirst n dep rest st d e hd hc =>
    rw [checkDependentServicesLoop_coverage E serviceOrg serviceUrl serviceVersionExp
      userInputsMap emptyMap _ dep rest st d e hd hc]
    exact ⟨{ st with resolverCalls := st.resolverCalls + 1 }, rfl⟩
  | belowFirst n dep rest st d e hd hc hlen _ ih =>
    obtain ⟨st2, h2⟩ := ih
    rw [checkDependentServicesLoop_recurse E serviceOrg serviceUrl serviceVersionExp
      userInputsMap emptyMap _ dep rest st d hd hc]
    rw [checkDependentServices_succ E serviceOrg serviceUrl serviceVersionExp userInputsMap
      patternUserInputsMap emptyMap n d _ hlen, h2]
    exact ⟨st2, rfl⟩
  | afterFirst n dep rest st d first err st2 e hd hc hwalk _ ih =>
    obtain ⟨st3, h3⟩ := ih
    rw [checkDependentServicesLoop_recurse E serviceOrg serviceUrl serviceVersionExp
      userInputsMap emptyMap _ dep rest st d hd hc]
    rw [hwalk]
    exact ⟨st3, h3⟩

theorem topLevelServicesLoop_walk_failure {V VE : Type} (E : ValidationEnv V VE) (fuel : Nat)
    (userInput : policy.UserInput V) (nodePattern : String) (vExp : VE) (warningMessage : String)
    (userInputsMap patternUserInputsMap : List (String × policy.UserInput V))
    (emptyMap : List (String × List UserInput)) (tl : ServiceReference)
    (rest : List ServiceReference) (s s2 : ServiceDefinition × Bool)
    (first : ServiceChoice) (vs : List ServiceChoice) (d0 : ServiceDefinition)
    (found : Bool) (err : Option String) (st2 : WalkState)
    (hvers : tl.ServiceVersions = first :: vs)
    (htl : E.serviceDefResolverHandler tl.ServiceURL tl.ServiceOrg first.Version tl.ServiceArch =
      (some d0, none))
    (hcov : defaultValueCheck userInputsMap emptyMap tl.ServiceOrg tl.ServiceURL = none)
    (hsel : (if userInput.ServiceOrgid = tl.ServiceOrg ∧ userInput.ServiceUrl = tl.ServiceURL then
        topLevelVersionsLoop E vExp tl tl.ServiceVersions s
      else Except.ok s) = Except.ok s2)
    (hwalk : checkDependentServices E userInput.ServiceOrgid userInput.ServiceUrl vExp
        userInputsMap patternUserInputsMap emptyMap fuel s2.1 { foundMatchService := false } =
      some (found, false, err, st2)) :
    topLevelServicesLoop E fuel userInput nodePattern vExp warningMessage userInputsMap
        patternUserInputsMap emptyMap (tl :: rest) s = some (false, warningMessage, err) := by
  rw [topLevelServicesLoop]
  simp only [hvers, htl, hcov]
  rw [hvers] at hsel
  simp only [hsel, hwalk]

/-- C26: default-value coverage in the dependency walk. For a required service whose
key `<org>/<url>` is in `userInputWithEmptyDefaultValueMap`, the check gives the
error `<org> <url> has userInput that need to be set because they have no
default value.` when the key is not in `userInputsMap`, and `<name> needs to be
set in userInput because it has no default value.` for the first recorded input
whose name is missing from the inputs of the key's entry in `userInputsMap`.
When the walk visits a required service whose check gives the error `e`,
`checkDependentServices` returns its second result false with the error `e`,
and `ValidateUserInput`, whose first top-level service passed its own checks,
returns `validated = false` with the error of such a walk. -/
theorem checkDependentServices_coverage {V VE : Type} (E : ValidationEnv V VE)
    (serviceOrg serviceUrl : String) (serviceVersionExp : VE)
    (userInputsMap patternUserInputsMap : List (String × policy.UserInput V))
    (emptyMap : List (String × List UserInput)) :
    (∀ (org url : String) (l : List UserInput),
      mapLookup emptyMap (org ++ "/" ++ url) = some l →
      mapLookup userInputsMap (org ++ "/" ++ url) = none →
      defaultValueCheck userInputsMap emptyMap org url =
        some (org ++ " " ++ url ++
          " has userInput that need to be set because they have no default value.")) ∧
    (∀ (org url : String) (u : policy.UserInput V) (pre : List UserInput) (x : UserInput)
      (post : List UserInput),
      mapLookup emptyMap (org ++ "/" ++ url) = some (pre ++ x :: post) →
      mapLookup userInputsMap (org ++ "/" ++ url) = some u →
      (∀ y ∈ pre, y.Name ∈ u.Inputs.map (fun i => i.Name)) →
      x.Name ∉ u.Inputs.map (fun i => i.Name) →
      defaultValueCheck userInputsMap emptyMap org url =
        some (x.Name ++ " needs to be set in userInput because it has no default value.")) ∧
    (∀ (n : Nat) (root : ServiceDefinition) (st : WalkState) (e : String),
      root.RequiredServices.length ≠ 0 →
      CoverageFailureVisited E serviceOrg serviceUrl serviceVersionExp userInputsMap
        patternUserInputsMap emptyMap n root.RequiredServices st e →
      ∃ st2, checkDependentServices E serviceOrg serviceUrl serviceVersionExp userInputsMap
          patternUserInputsMap emptyMap (n + 1) root st =
        some (st2.foundMatchService, false, some e, st2)) ∧
    (∀ (fuel : Nat) (userInput : policy.UserInput V) (nodePattern : String)
      (tl : ServiceReference) (rest : List ServiceReference) (vExp : VE)
      (sdef : ServiceDefinition) (w : Option String) (s2 : ServiceDefinition × Bool)
      (first : ServiceChoice) (vs : List ServiceChoice) (d0 : ServiceDefinition)
      (found : Bool) (err : Option String) (st2 : WalkState),
      E.sv.Version_Expression_Factory (normalizeVersionRange userInput.ServiceVersionRange) =
        Except.ok vExp →
      E.serviceDefResolverHandler userInput.ServiceUrl userInput.ServiceOrgid
        (normalizeVersionRange userInput.ServiceVersionRange) userInput.ServiceArch =
        (some sdef, none) →
      compareUserInput E.VerifyWorkloadVarTypes sdef.UserInputs userInput.Inputs = (true, w) →
      tl.ServiceVersions = first :: vs →
      E.serviceDefResolverHandler tl.ServiceURL tl.ServiceOrg first.Version tl.ServiceArch =
        (some d0, none) →
      defaultValueCheck userInputsMap emptyMap tl.ServiceOrg tl.ServiceURL = none →
      (if userInput.ServiceOrgid = tl.ServiceOrg ∧ userInput.ServiceUrl = tl.ServiceURL then
          topLevelVersionsLoop E vExp tl tl.ServiceVersions (sdef, false)
        else Except.ok (sdef, false)) = Except.ok s2 →
      checkDependentServices E userInput.ServiceOrgid userInput.ServiceUrl vExp
          userInputsMap patternUserInputsMap emptyMap fuel s2.1 { foundMatchService := false } =
        some (found, false, err, st2) →
      ValidateUserInput E fuel userInput nodePattern (tl :: rest) userInputsMap
          patternUserInputsMap emptyMap =
        some (false, compareWarningMessage userInput w, err)) := by
  refine ⟨?_, ?_, ?_, ?_⟩
  · intro org url l hl hu
    unfold defaultValueCheck
    rw [hl, hu]
  · intro org url u pre x post hl hu hpre hx
    unfold defaultValueCheck
    rw [hl, hu]
    exact emptyDefaultValuesLoop_first u.Inputs pre x post hpre hx
  · intro n root st e hlen hvisit
    rw [checkDependentServices_succ E serviceOrg serviceUrl serviceVersionExp userInputsMap
      patternUserInputsMap emptyMap n root st hlen]
    exact coverageFailureVisited_loop E serviceOrg serviceUrl serviceVersionExp userInputsMap
      patternUserInputsMap emptyMap n root.RequiredServices st e hvisit
  · intro fuel userInput nodePattern tl rest vExp sdef w s2 first vs d0 found err st2 hfac hres
      hcmp hvers htl hcov hsel hwalk
    unfold ValidateUserInput
    simp only [hfac, hres, hcmp]
    rw [if_pos (by simp)]
    exact topLevelServicesLoop_walk_failure E fuel userInput nodePattern vExp _ userInputsMap
      patternUserInputsMap emptyMap tl rest (sdef, false) s2 first vs d0 found err st2 hvers htl
      hcov hsel hwalk

/-- Witness of C26: `myorg/dep`, required by `myorg/top`, is recorded with the input
`key`, and no user input is supplied for it; the walk from `myorg/top` and
`ValidateUserInput` for the user input of `myorg/top` fail with the error of
the check. -/
theorem checkDependentServices_coverage_witness :
    (∃ st2, checkDependentServices exampleEnv "myorg" "top" exampleVersionExp_1_0_0
        [("myorg/top", exampleTopUserInput)] [] [("myorg/dep", [{ Name := "key" }])] (0 + 1)
        exampleTopDefinition { foundMatchService := false } =
      some (st2.foundMatchService, false,
        some "myorg dep has userInput that need to be set because they have no default value.",
        st2)) ∧
    ValidateUserInput exampleEnv 5 exampleTopUserInput "myorg/pat" exampleTopLevelServices
        [("myorg/top", exampleTopUserInput)] [] [("myorg/dep", [{ Name := "key" }])] =
      some (false,
        compareWarningMessage exampleTopUserInput
          (some "The following variables are not defined in userInput for service in its highest version: [key] \n"),
        some "myorg dep has userInput that need to be set because they have no default value.") :=
  ⟨(checkDependentServices_coverage exampleEnv "myorg" "top" exampleVersionExp_1_0_0
      [("myorg/top", exampleTopUserInput)] [] [("myorg/dep", [{ Name := "key" }])]).2.2.1 0
      exampleTopDefinition { foundMatchService := false }
      "myorg dep has userInput that need to be set because they have no default value."
      (by decide)
      (CoverageFailureVisited.atFirst 0 exampleDepDependency [] { foundMatchService := false }
        exampleDepDefinition _ (by unfold resolvesTo; decide) rfl),
   (checkDependentServices_coverage exampleEnv "myorg" "top" exampleVersionExp_1_0_0
      [("myorg/top", exampleTopUserInput)] [] [("myorg/dep", [{ Name := "key" }])]).2.2.2 5
      exampleTopUserInput "myorg/pat"
      { ServiceURL := "top", ServiceOrg := "myorg", ServiceArch := "amd64",
        ServiceVersions := [⟨"1.0.0"⟩] } [] exampleVersionExp_1_0_0 exampleTopDefinition
      (some "The following variables are not defined in userInput for service in its highest version: [key] \n")
      (exampleTopDefinition, true) ⟨"1.0.0"⟩ [] exampleTopDefinition false
      (some "myorg dep has userInput that need to be set because they have no default value.")
      { foundMatchService := false, resolverCalls := 1 }
      (by decide) (by decide) (by decide) rfl (by decide) rfl (by decide) (by decide)⟩

/-! ### Termination of the dependency walks -/

theorem checkDependentServicesLoop_calls {V VE : Type} (E : ValidationEnv V VE)
    (serviceOrg serviceUrl : String) (serviceVersionExp : VE)
    (userInputsMap : List (String × policy.UserInput V))
    (emptyMap : List (String × List UserInput))
    (recurse : ServiceDefinition → WalkState → Option (Bool × Bool × Option String × WalkState))
    (B : ServiceDefinition → Nat) (ds : List ServiceDependency)
    (hrec : ∀ dep ∈ ds, ∀ d, resolvesTo E dep d → ∀ s, ∃ r, recurse d s = some r ∧
      r.2.2.2.resolverCalls ≤ s.resolverCalls + B d)
    (st : WalkState) :
    ∃ r, checkDependentServicesLoop E serviceOrg serviceUrl serviceVersionExp userInputsMap
        emptyMap recurse ds st = some r ∧
      r.2.2.2.resolverCalls ≤ st.resolverCalls +
        (ds.map (fun dep =>
          1 + match E.serviceDefResolverHandler dep.URL dep.Org
                  (normalizeVersionRange dep.VersionRange) dep.Arch with
              | (some d, none) => B d
              | _ => 0)).sum := by
  induction ds generalizing st with
  | nil =>
    rw [checkDependentServicesLoop]
    split
    · exact ⟨_, rfl, by simp⟩
    · exact ⟨_, rfl, by simp⟩
  | cons dep rest ih =>
    have hrest := fun s => ih (fun x hx => hrec x (List.mem_cons_of_mem _ hx)) s
    rw [List.map_cons, List.sum_cons]
    by_cases hres : ∃ d, resolvesTo E dep d
    · obtain ⟨d, hd⟩ := hres
      have hd2 := hd
      unfold resolvesTo at hd2
      rw [hd2]
      simp only
      cases hc : defaultValueCheck userInputsMap emptyMap dep.Org dep.URL with
      | some e =>
        rw [checkDependentServicesLoop_coverage E serviceOrg serviceUrl serviceVersionExp
          userInputsMap emptyMap recurse dep rest st d e hd hc]
        refine ⟨_, rfl, ?_⟩
        simp only
        omega
      | none =>
        rw [checkDependentServicesLoop_recurse E serviceOrg serviceUrl serviceVersionExp
          userInputsMap emptyMap recurse dep rest st d hd hc]
        obtain ⟨r, hr, hcalls⟩ := hrec dep (List.mem_cons_self _ _) d hd
          (walkStateAfter E serviceOrg serviceUrl serviceVersionExp dep st)
        have hs0 : (walkStateAfter E serviceOrg serviceUrl serviceVersionExp dep st).resolverCalls =
            st.resolverCalls + 1 := rfl
        rw [hs0] at hcalls
        rw [hr]
        obtain ⟨f, b, err, st2⟩ := r
        cases b with
        | false =>
          refine ⟨_, rfl, ?_⟩
          simp only at hcalls ⊢
          omega
        | true =>
          simp only at hcalls ⊢
          obtain ⟨r3, hr3, hcalls3⟩ := hrest st2
          refine ⟨r3, hr3, ?_⟩
          omega
    · have hno : ∀ d, ¬ resolvesTo E dep d := fun d hd => hres ⟨d, hd⟩
      rw [checkDependentServicesLoop_unresolved E serviceOrg serviceUrl serviceVersionExp
        userInputsMap emptyMap recurse dep rest st hno]
      refine ⟨_, rfl, ?_⟩
      simp only
      omega

theorem checkDependentServices_calls {V VE : Type} (E : ValidationEnv V VE)
    (serviceOrg serviceUrl : String) (serviceVersionExp : VE)
    (userInputsMap patternUserInputsMap : List (String × policy.UserInput V))
    (emptyMap : List (String × List UserInput)) (n : Nat) :
    ∀ (root : ServiceDefinition) (st : WalkState), WalkDepth E n root →
      ∃ r, checkDependentServices E serviceOrg serviceUrl serviceVersionExp userInputsMap
          patternUserInputsMap emptyMap n root st = some r ∧
        r.2.2.2.resolverCalls ≤ st.resolverCalls + pathEdges E n root := by
  induction n with
  | zero =>
    intro root st h
    exact False.elim h
  | succ n ih =>
    intro root st hdepth
    by_cases hlen : root.RequiredServices.length = 0
    · rw [checkDependentServices, if_pos hlen]
      split
      · exact ⟨_, rfl, Nat.le_add_right _ _⟩
      · exact ⟨_, rfl, Nat.le_add_right _ _⟩
    · rw [checkDependentServices_succ E serviceOrg serviceUrl serviceVersionExp userInputsMap
        patternUserInputsMap emptyMap n root st hlen]
      exact checkDependentServicesLoop_calls E serviceOrg serviceUrl serviceVersionExp
        userInputsMap emptyMap _ (pathEdges E n) root.RequiredServices
        (fun dep hdep d hd s => ih d s (hdepth dep hdep d hd)) st

theorem pathEdges_stable {V VE : Type} (E : ValidationEnv V VE) (n : Nat) :
    ∀ (m : Nat) (root : ServiceDefinition), WalkDepth E n root → n ≤ m →
      pathEdges E m root = pathEdges E n root := by
  induction n with
  | zero =>
    intro m root h
    exact False.elim h
  | succ n ih =>
    intro m root hdepth hm
    cases m with
    | zero => exact absurd hm (Nat.not_succ_le_zero n)
    | succ m =>
      rw [pathEdges, pathEdges]
      congr 1
      apply List.map_congr_left
      intro dep hdep
      split
      · rename_i d hd
        rw [ih m d (hdepth dep hdep d hd) (Nat.le_of_succ_le_succ hm)]
      · rfl

theorem checkDependentServiceEmptyDefaultValueCountedLoop_erase {V : Type}
    (serviceHandler : String → String → String → String → Option ServiceDefinition × Option String)
    (patternUserInputsMap : List (String × policy.UserInput V))
    (recurseCounted : ServiceDefinition → List (String × List UserInput) → Nat →
      Option (List (String × List UserInput) × Option String × Nat))
    (recurse : ServiceDefinition → List (String × List UserInput) →
      Option (List (String × List UserInput) × Option String))
    (hrec : ∀ d m c, (recurseCounted d m c).map (fun r => (r.1, r.2.1)) = recurse d m)
    (ds : List ServiceDependency) (m : List (String × List UserInput)) (calls : Nat) :
    (checkDependentServiceEmptyDefaultValueCountedLoop serviceHandler patternUserInputsMap
        recurseCounted ds m calls).map (fun r => (r.1, r.2.1)) =
      checkDependentServiceEmptyDefaultValueLoop serviceHandler patternUserInputsMap recurse
        ds m := by
  induction ds generalizing m calls with
  | nil => rfl
  | cons dep rest ih =>
    rw [checkDependentServiceEmptyDefaultValueCountedLoop,
      checkDependentServiceEmptyDefaultValueLoop]
    split
    · rename_i d hd
      have h := hrec d
        (checkUserInputDefaultValueNotEmpty dep.Org (some d)
          (mapLookup patternUserInputsMap (dep.Org ++ "/" ++ dep.URL)) m) (calls + 1)
      cases hc : recurseCounted d
          (checkUserInputDefaultValueNotEmpty dep.Org (some d)
            (mapLookup patternUserInputsMap (dep.Org ++ "/" ++ dep.URL)) m) (calls + 1) with
      | none =>
        rw [hc] at h
        rw [← h]
        rfl
      | some r =>
        rw [hc] at h
        rw [← h]
        obtain ⟨m2, err, c2⟩ := r
        cases err with
        | some e => rfl
        | none => exact ih m2 c2
    · rfl

theorem checkDependentServiceEmptyDefaultValueCounted_erase {V : Type}
    (serviceHandler : String → String → String → String → Option ServiceDefinition × Option String)
    (patternUserInputsMap : List (String × policy.UserInput V)) (fuel : Nat) :
    ∀ (root : ServiceDefinition) (m : List (String × List UserInput)) (calls : Nat),
      (checkDependentServiceEmptyDefaultValueCounted serviceHandler patternUserInputsMap fuel
          root m calls).map (fun r => (r.1, r.2.1)) =
        checkDependentServiceEmptyDefaultValue serviceHandler patternUserInputsMap fuel root m := by
  induction fuel with
  | zero =>
    intro root m calls
    rfl
  | succ fuel ih =>
    intro root m calls
    rw [checkDependentServiceEmptyDefaultValueCounted, checkDependentServiceEmptyDefaultValue]
    split
    · rfl
    · exact checkDependentServiceEmptyDefaultValueCountedLoop_erase serviceHandler
        patternUserInputsMap _ _ (fun d m2 c => ih d m2 c) root.RequiredServices m calls

theorem checkDependentServiceEmptyDefaultValueCountedLoop_calls {V : Type}
    (serviceHandler : String → String → String → String → Option ServiceDefinition × Option String)
    (patternUserInputsMap : List (String × policy.UserInput V))
    (recurse : ServiceDefinition → List (String × List UserInput) → Nat →
      Option (List (String × List UserInput) × Option String × Nat))
    (B : ServiceDefinition → Nat) (ds : List ServiceDependency)
    (hrec : ∀ dep ∈ ds, ∀ d, handlerResolvesTo serviceHandler dep d → ∀ m c, ∃ r,
      recurse d m c = some r ∧ r.2.2 ≤ c + B d)
    (m : List (String × List UserInput)) (calls : Nat) :
    ∃ r, checkDependentServiceEmptyDefaultValueCountedLoop serviceHandler patternUserInputsMap
        recurse ds m calls = some r ∧
      r.2.2 ≤ calls +
        (ds.map (fun dep =>
          1 + match serviceHandler dep.URL dep.Org dep.VersionRange dep.Arch with
              | (some d, none) => B d
              | _ => 0)).sum := by
  induction ds generalizing m calls with
  | nil =>
    rw [checkDependentServiceEmptyDefaultValueCountedLoop]
    exact ⟨_, rfl, by simp⟩
  | cons dep rest ih =>
    have hrest := fun m2 c2 => ih (fun x hx => hrec x (List.mem_cons_of_mem _ hx)) m2 c2
    rw [List.map_cons, List.sum_cons, checkDependentServiceEmptyDefaultValueCountedLoop]
    split
    · rename_i d hd
      obtain ⟨r, hr, hcalls⟩ := hrec dep (List.mem_cons_self _ _) d hd
        (checkUserInputDefaultValueNotEmpty dep.Org (some d)
          (mapLookup patternUserInputsMap (dep.Org ++ "/" ++ dep.URL)) m) (calls + 1)
      rw [hr]
      obtain ⟨m2, err, c2⟩ := r
      cases err with
      | some e =>
        refine ⟨_, rfl, ?_⟩
        simp only at hcalls ⊢
        omega
      | none =>
        simp only at hcalls ⊢
        obtain ⟨r3, hr3, hcalls3⟩ := hrest m2 c2
        refine ⟨r3, hr3, ?_⟩
        omega
    · refine ⟨_, rfl, ?_⟩
      simp only
      omega

theorem checkDependentServiceEmptyDefaultValueCounted_calls {V : Type}
    (serviceHandler : String → String → String → String → Option ServiceDefinition × Option String)
    (patternUserInputsMap : List (String × policy.UserInput V)) (n : Nat) :
    ∀ (root : ServiceDefinition) (m : List (String × List UserInput)) (calls : Nat),
      HandlerWalkDepth serviceHandler n root →
      ∃ r, checkDependentServiceEmptyDefaultValueCounted serviceHandler patternUserInputsMap n
          root m calls = some r ∧
        r.2.2 ≤ calls + handlerPathEdges serviceHandler n root := by
  induction n with
  | zero =>
    intro root m calls h
    exact False.elim h
  | succ n ih =>
    intro root m calls hdepth
    rw [checkDependentServiceEmptyDefaultValueCounted]
    split
    · exact ⟨_, rfl, Nat.le_add_right _ _⟩
    · exact checkDependentServiceEmptyDefaultValueCountedLoop_calls serviceHandler
        patternUserInputsMap _ (handlerPathEdges serviceHandler n) root.RequiredServices
        (fun dep hdep d hd m2 c => ih d m2 c (hdepth dep hdep d hd)) m calls

theorem handlerWalkDepth_mono
    (serviceHandler : String → String → String → String → Option ServiceDefinition × Option String)
    (n : Nat) :
    ∀ (m : Nat) (root : ServiceDefinition), n ≤ m → HandlerWalkDepth serviceHandler n root →
      HandlerWalkDepth serviceHandler m root := by
  induction n with
  | zero =>
    intro m root _ h
    exact False.elim h
  | succ n ih =>
    intro m root hm h
    cases m with
    | zero => exact absurd hm (Nat.not_succ_le_zero n)
    | succ m =>
      intro dep hdep d hd
      exact ih m d (Nat.le_of_succ_le_succ hm) (h dep hdep d hd)

theorem handlerPathEdges_stable
    (serviceHandler : String → String → String → String → Option ServiceDefinition × Option String)
    (n : Nat) :
    ∀ (m : Nat) (root : ServiceDefinition), HandlerWalkDepth serviceHandler n root → n ≤ m →
      handlerPathEdges serviceHandler m root = handlerPathEdges serviceHandler n root := by
  induction n with
  | zero =>
    intro m root h
    exact False.elim h
  | succ n ih =>
    intro m root hdepth hm
    cases m with
    | zero => exact absurd hm (Nat.not_succ_le_zero n)
    | succ m =>
      rw [handlerPathEdges, handlerPathEdges]
      congr 1
      apply List.map_congr_left
      intro dep hdep
      split
      · rename_i d hd
        rw [ih m d (hdepth dep hdep d hd) (Nat.le_of_succ_le_succ hm)]
      · rfl

theorem checkDependentServices_cycle (fuel : Nat) :
    ∀ st : WalkState,
      checkDependentServices cyclicEnv "myorg" "loop" exampleVersionExp_1_0_0 [] [] [] fuel
        cyclicDefinition st = none := by
  induction fuel with
  | zero =>
    intro st
    rfl
  | succ fuel ih =>
    intro st
    rw [checkDependentServices_succ cyclicEnv "myorg" "loop" exampleVersionExp_1_0_0 [] [] [] fuel
      cyclicDefinition st (by decide)]
    have hd : resolvesTo cyclicEnv
        { URL := "loop", Org := "myorg", VersionRange := "1.0.0", Arch := "amd64" }
        cyclicDefinition := by
      unfold resolvesTo
      decide
    have hreq : cyclicDefinition.RequiredServices =
        [{ URL := "loop", Org := "myorg", VersionRange := "1.0.0", Arch := "amd64" }] := rfl
    rw [hreq, checkDependentServicesLoop_recurse cyclicEnv "myorg" "loop" exampleVersionExp_1_0_0
      [] [] _ _ [] st cyclicDefinition hd rfl]
    rw [ih]

theorem checkDependentServiceEmptyDefaultValue_cycle (fuel : Nat) :
    ∀ m : List (String × List UserInput),
      checkDependentServiceEmptyDefaultValue cyclicResolver
        ([] : List (String × policy.UserInput PropertyValue)) fuel cyclicDefinition m = none := by
  induction fuel with
  | zero =>
    intro m
    rfl
  | succ fuel ih =>
    intro m
    have hreq : cyclicDefinition.RequiredServices =
        [{ URL := "loop", Org := "myorg", VersionRange := "1.0.0", Arch := "amd64" }] := rfl
    have hh : cyclicResolver "loop" "myorg" "1.0.0" "amd64" = (some cyclicDefinition, none) := by
      decide
    rw [checkDependentServiceEmptyDefaultValue, if_neg (by decide), hreq,
      checkDependentServiceEmptyDefaultValueLoop]
    simp only [hh]
    rw [ih]

/-- C28: on a finite acyclic graph of required services (every chain from the root
ends within `n` steps) `checkDependentServices` returns for every fuel of at
least `n`, whatever resolves or fails on the way, and the number of resolver
calls it makes is at most the number of edges on the paths that start at the
root; likewise `checkDependentServiceEmptyDefaultValue` with the calls of the
service handler. Acyclicity is what the walks rely on, as they keep no visited
set: on the registry with a cycle neither of them returns, whatever the fuel. -/
theorem checkDependentServices_terminates {V VE : Type} :
    (∀ (E : ValidationEnv V VE) (serviceOrg serviceUrl : String) (serviceVersionExp : VE)
      (userInputsMap patternUserInputsMap : List (String × policy.UserInput V))
      (emptyMap : List (String × List UserInput)) (n : Nat) (root : ServiceDefinition)
      (st : WalkState) (fuel : Nat), WalkDepth E n root → n ≤ fuel →
      ∃ r, checkDependentServices E serviceOrg serviceUrl serviceVersionExp userInputsMap
          patternUserInputsMap emptyMap fuel root st = some r ∧
        r.2.2.2.resolverCalls ≤ st.resolverCalls + pathEdges E n root) ∧
    (∀ (serviceHandler : String → String → String → String →
        Option ServiceDefinition × Option String)
      (patternUserInputsMap : List (String × policy.UserInput V)) (n : Nat)
      (root : ServiceDefinition) (m : List (String × List UserInput)) (fuel : Nat),
      HandlerWalkDepth serviceHandler n root → n ≤ fuel →
      ∃ r, checkDependentServiceEmptyDefaultValueCounted serviceHandler patternUserInputsMap fuel
          root m 0 = some r ∧
        r.2.2 ≤ handlerPathEdges serviceHandler n root ∧
        checkDependentServiceEmptyDefaultValue serviceHandler patternUserInputsMap fuel root m =
          some (r.1, r.2.1)) ∧
    (∀ (fuel : Nat) (st : WalkState),
      checkDependentServices cyclicEnv "myorg" "loop" exampleVersionExp_1_0_0 [] [] [] fuel
        cyclicDefinition st = none) ∧
    (∀ (fuel : Nat) (m : List (String × List UserInput)),
      checkDependentServiceEmptyDefaultValue cyclicResolver
        ([] : List (String × policy.UserInput PropertyValue)) fuel cyclicDefinition m = none) := by
  refine ⟨?_, ?_, checkDependentServices_cycle, checkDependentServiceEmptyDefaultValue_cycle⟩
  · intro E serviceOrg serviceUrl serviceVersionExp userInputsMap patternUserInputsMap emptyMap n
      root st fuel hdepth hfuel
    obtain ⟨r, hr, hcalls⟩ := checkDependentServices_calls E serviceOrg serviceUrl
      serviceVersionExp userInputsMap patternUserInputsMap emptyMap fuel root st
      (walkDepth_mono E n fuel root hfuel hdepth)
    rw [pathEdges_stable E n fuel root hdepth hfuel] at hcalls
    exact ⟨r, hr, hcalls⟩
  · intro serviceHandler patternUserInputsMap n root m fuel hdepth hfuel
    obtain ⟨r, hr, hcalls⟩ := checkDependentServiceEmptyDefaultValueCounted_calls serviceHandler
      patternUserInputsMap fuel root m 0
      (handlerWalkDepth_mono serviceHandler n fuel root hfuel hdepth)
    rw [handlerPathEdges_stable serviceHandler n fuel root hdepth hfuel, Nat.zero_add] at hcalls
    refine ⟨r, hr, hcalls, ?_⟩
    rw [← checkDependentServiceEmptyDefaultValueCounted_erase serviceHandler patternUserInputsMap
      fuel root m 0, hr]
    rfl

theorem example_handlerWalkDepth : HandlerWalkDepth exampleResolver 2 exampleTopDefinition := by
  intro dep hdep d hd
  rw [List.mem_singleton.mp hdep] at hd
  have h : exampleResolver "dep" "myorg" "[1.0.0,2.0.0)" "amd64" =
      (some exampleDepDefinition, none) := by decide
  unfold handlerResolvesTo at hd
  simp only [h] at hd
  have hdd : d = exampleDepDefinition := by
    injection hd with h3 _
    injection h3 with h4
    exact h4.symm
  rw [hdd]
  intro x hx
  exact absurd hx (List.not_mem_nil _)

/-- Witness of C28 on the registry of the examples, where `myorg/top` requires
`myorg/dep` and nothing else is required: one edge, and at most one call. -/
theorem checkDependentServices_terminates_witness :
    pathEdges exampleEnv 2 exampleTopDefinition = 1 ∧
    handlerPathEdges exampleResolver 2 exampleTopDefinition = 1 ∧
    (∃ r, checkDependentServices exampleEnv "myorg" "dep" exampleVersionExp_1_5_0 [] [] [] 7
        exampleTopDefinition { foundMatchService := false, resolverCalls := 0 } = some r ∧
      r.2.2.2.resolverCalls ≤ 0 + pathEdges exampleEnv 2 exampleTopDefinition) ∧
    (∃ r, checkDependentServiceEmptyDefaultValueCounted exampleResolver
        ([] : List (String × policy.UserInput PropertyValue)) 7 exampleTopDefinition [] 0 =
          some r ∧
      r.2.2 ≤ handlerPathEdges exampleResolver 2 exampleTopDefinition ∧
      checkDependentServiceEmptyDefaultValue exampleResolver
        ([] : List (String × policy.UserInput PropertyValue)) 7 exampleTopDefinition [] =
          some (r.1, r.2.1)) :=
  ⟨by decide, by decide,
   (@checkDependentServices_terminates PropertyValue ExampleVersionExp).1 exampleEnv "myorg" "dep"
      exampleVersionExp_1_5_0 [] [] [] 2 exampleTopDefinition
      { foundMatchService := false, resolverCalls := 0 } 7 example_walkDepth (by decide),
   (@checkDependentServices_terminates PropertyValue ExampleVersionExp).2.1 exampleResolver [] 2
      exampleTopDefinition [] 7 example_handlerWalkDepth (by decide)⟩

/-! ### Required services that do not resolve -/

/-- Counterexample to C29 as stated: the user input is for `myorg/svc`, whose definition
requires a matching earlier `myorg/svc` and then `myorg/lost`; every default-value
check passes. When `myorg/lost` resolves, `ValidateUserInput` returns `validated =
true`; when it does not, the walk ends at it with its first result false, and
`ValidateUserInput` returns `validated = false`. -/
theorem ValidateUserInput_unresolved_dependency_counterexample :
    checkDependentServices (exampleSelfEnv false) "myorg" "svc" exampleVersionExp_1_5_0
        [("myorg/svc", exampleSvcUserInput)] [] [] 5
        { Owner := "myorg", URL := "svc", Version := "2.0.0", Arch := "amd64",
          RequiredServices :=
            [{ URL := "svc", Org := "myorg", VersionRange := "[1.0.0,2.0.0)", Arch := "amd64" },
             { URL := "lost", Org := "myorg", VersionRange := "1.0.0", Arch := "amd64" }] }
        { foundMatchService := false } =
      some (false, true, some "service does not exist myorg, lost, amd64, 1.0.0",
        { foundMatchService := true, resolverCalls := 2 }) ∧
    ValidateUserInput (exampleSelfEnv false) 5 exampleSvcUserInput "myorg/pat"
        exampleTopLevelServices [("myorg/svc", exampleSvcUserInput)] [] [] =
      some (false, "",
        some "Service myorg svc amd64 [1.5.0,INFINITY) in userInput is not defined in pattern myorg/pat or its dependent services") ∧
    ValidateUserInput (exampleSelfEnv true) 5 exampleSvcUserInput "myorg/pat"
        exampleTopLevelServices [("myorg/svc", exampleSvcUserInput)] [] [] =
      some (true, "", none) := by
  decide

theorem checkDependentServicesLoop_failure_cause {V VE : Type} (E : ValidationEnv V VE)
    (serviceOrg serviceUrl : String) (serviceVersionExp : VE)
    (userInputsMap : List (String × policy.UserInput V))
    (emptyMap : List (String × List UserInput))
    (recurse : ServiceDefinition → WalkState → Option (Bool × Bool × Option String × WalkState))
    (Q : ServiceDefinition → Option String → Prop)
    (hrec : ∀ d s r, recurse d s = some r → r.2.1 = false → Q d r.2.2.1)
    (ds : List ServiceDependency) (st : WalkState)
    (r : Bool × Bool × Option String × WalkState)
    (h : checkDependentServicesLoop E serviceOrg serviceUrl serviceVersionExp userInputsMap
      emptyMap recurse ds st = some r) (hfalse : r.2.1 = false) :
    ∃ dep ∈ ds,
      (∃ e, defaultValueCheck userInputsMap emptyMap dep.Org dep.URL = some e ∧
        r.2.2.1 = some e) ∨
      ∃ d, resolvesTo E dep d ∧ Q d r.2.2.1 := by
  induction ds generalizing st with
  | nil =>
    unfold checkDependentServicesLoop at h
    split at h <;> (cases h; exact Bool.noConfusion hfalse)
  | cons dep rest ih =>
    by_cases hres : ∃ d, resolvesTo E dep d
    · obtain ⟨d, hd⟩ := hres
      cases hc : defaultValueCheck userInputsMap emptyMap dep.Org dep.URL with
      | some e =>
        rw [checkDependentServicesLoop_coverage E serviceOrg serviceUrl serviceVersionExp
          userInputsMap emptyMap recurse dep rest st d e hd hc] at h
        cases h
        exact ⟨dep, List.mem_cons_self _ _, Or.inl ⟨e, hc, rfl⟩⟩
      | none =>
        rw [checkDependentServicesLoop_recurse E serviceOrg serviceUrl serviceVersionExp
          userInputsMap emptyMap recurse dep rest st d hd hc] at h
        split at h
        · exact Option.noConfusion h
        · rename_i hr
          cases h
          have hq := hrec _ _ _ hr rfl
          exact ⟨dep, List.mem_cons_self _ _, Or.inr ⟨d, hd, hq⟩⟩
        · obtain ⟨x, hx, hcase⟩ := ih _ h
          exact ⟨x, List.mem_cons_of_mem _ hx, hcase⟩
    · have hno : ∀ d, ¬ resolvesTo E dep d := fun d hd => hres ⟨d, hd⟩
      rw [checkDependentServicesLoop_unresolved E serviceOrg serviceUrl serviceVersionExp
        userInputsMap emptyMap recurse dep rest st hno] at h
      cases h
      exact Bool.noConfusion hfalse

theorem checkDependentServices_failure_cause {V VE : Type} (E : ValidationEnv V VE)
    (serviceOrg serviceUrl : String) (serviceVersionExp : VE)
    (userInputsMap patternUserInputsMap : List (String × policy.UserInput V))
    (emptyMap : List (String × List UserInput)) (fuel : Nat) :
    ∀ (root : ServiceDefinition) (st : WalkState) (r : Bool × Bool × Option String × WalkState),
      checkDependentServices E serviceOrg serviceUrl serviceVersionExp userInputsMap
        patternUserInputsMap emptyMap fuel root st = some r → r.2.1 = false →
      ∃ dep e, ReachableDependency E root dep ∧
        defaultValueCheck userInputsMap emptyMap dep.Org dep.URL = some e ∧
        r.2.2.1 = some e := by
  induction fuel with
  | zero =>
    intro root st r h
    unfold checkDependentServices at h
    exact Option.noConfusion h
  | succ fuel ih =>
    intro root st r h hfalse
    by_cases hlen : root.RequiredServices.length = 0
    · rw [checkDependentServices, if_pos hlen] at h
      split at h <;> (cases h; exact Bool.noConfusion hfalse)
    · rw [checkDependentServices_succ E serviceOrg serviceUrl serviceVersionExp userInputsMap
        patternUserInputsMap emptyMap fuel root st hlen] at h
      obtain ⟨dep, hdep, hcase⟩ := checkDependentServicesLoop_failure_cause E serviceOrg
        serviceUrl serviceVersionExp userInputsMap emptyMap _
        (fun d err => ∃ x e, ReachableDependency E d x ∧
          defaultValueCheck userInputsMap emptyMap x.Org x.URL = some e ∧ err = some e)
        (fun d s r2 hr2 hf2 => ih d s r2 hr2 hf2) root.RequiredServices st r h hfalse
      rcases hcase with ⟨e, hc, he⟩ | ⟨d, hd, x, e, hx, hc, he⟩
      · exact ⟨dep, e, ReachableDependency.direct root dep hdep, hc, he⟩
      · exact ⟨x, e, ReachableDependency.through root dep d x hdep hd hx, hc, he⟩

theorem topLevelServicesLoop_walk_passes {V VE : Type} (E : ValidationEnv V VE) (fuel : Nat)
    (userInput : policy.UserInput V) (nodePattern : String) (vExp : VE) (warningMessage : String)
    (userInputsMap patternUserInputsMap : List (String × policy.UserInput V))
    (emptyMap : List (String × List UserInput)) (tl : ServiceReference)
    (rest : List ServiceReference) (s s2 : ServiceDefinition × Bool)
    (first : ServiceChoice) (vs : List ServiceChoice) (d0 : ServiceDefinition)
    (found : Bool) (err : Option String) (st2 : WalkState)
    (hvers : tl.ServiceVersions = first :: vs)
    (htl : E.serviceDefResolverHandler tl.ServiceURL tl.ServiceOrg first.Version tl.ServiceArch =
      (some d0, none))
    (hcov : defaultValueCheck userInputsMap emptyMap tl.ServiceOrg tl.ServiceURL = none)
    (hsel : (if userInput.ServiceOrgid = tl.ServiceOrg ∧ userInput.ServiceUrl = tl.ServiceURL then
        topLevelVersionsLoop E vExp tl tl.ServiceVersions s
      else Except.ok s) = Except.ok s2)
    (hwalk : checkDependentServices E userInput.ServiceOrgid userInput.ServiceUrl vExp
        userInputsMap patternUserInputsMap emptyMap fuel s2.1 { foundMatchService := false } =
      some (found, true, err, st2)) :
    topLevelServicesLoop E fuel userInput nodePattern vExp warningMessage userInputsMap
        patternUserInputsMap emptyMap (tl :: rest) s =
      topLevelServicesLoop E fuel userInput nodePattern vExp warningMessage userInputsMap
        patternUserInputsMap emptyMap rest (s2.1, s2.2 || found) := by
  rw [topLevelServicesLoop]
  simp only [hvers, htl, hcov]
  rw [hvers] at hsel
  simp only [hsel, hwalk]

/-- C29 (amended): the second result of `checkDependentServices` is false only when the
default-value check failed at a required service reachable from the root, and
the error returned is then the non-nil error of that check. A required service
that the resolver does not find ends the loop over its siblings with the
results `(false, true, error)`. The caller of a recursive call that returned
its second result true goes on with the next required service, whatever the
first result and the error, and `ValidateUserInput`, after a walk that
returned its second result true, goes on with the next top-level service,
keeping the first result and not the error. -/
theorem checkDependentServices_unresolved_dependency {V VE : Type} (E : ValidationEnv V VE)
    (serviceOrg serviceUrl : String) (serviceVersionExp : VE)
    (userInputsMap patternUserInputsMap : List (String × policy.UserInput V))
    (emptyMap : List (String × List UserInput)) :
    (∀ (fuel : Nat) (root : ServiceDefinition) (st st2 : WalkState) (found : Bool)
      (err : Option String),
      checkDependentServices E serviceOrg serviceUrl serviceVersionExp userInputsMap
          patternUserInputsMap emptyMap fuel root st = some (found, false, err, st2) →
      ∃ dep e, ReachableDependency E root dep ∧
        defaultValueCheck userInputsMap emptyMap dep.Org dep.URL = some e ∧ err = some e) ∧
    (∀ (recurse : ServiceDefinition → WalkState →
        Option (Bool × Bool × Option String × WalkState))
      (dep : ServiceDependency) (rest : List ServiceDependency) (st : WalkState),
      (∀ d, ¬ resolvesTo E dep d) →
      checkDependentServicesLoop E serviceOrg serviceUrl serviceVersionExp userInputsMap emptyMap
          recurse (dep :: rest) st =
        some (false, true,
          some ("service does not exist " ++ dep.Org ++ ", " ++ dep.URL ++ ", " ++ dep.Arch ++
            ", " ++ normalizeVersionRange dep.VersionRange),
          { st with resolverCalls := st.resolverCalls + 1 })) ∧
    (∀ (recurse : ServiceDefinition → WalkState →
        Option (Bool × Bool × Option String × WalkState))
      (dep : ServiceDependency) (rest : List ServiceDependency) (st st2 : WalkState)
      (d : ServiceDefinition) (found : Bool) (err : Option String),
      resolvesTo E dep d →
      defaultValueCheck userInputsMap emptyMap dep.Org dep.URL = none →
      recurse d (walkStateAfter E serviceOrg serviceUrl serviceVersionExp dep st) =
        some (found, true, err, st2) →
      checkDependentServicesLoop E serviceOrg serviceUrl serviceVersionExp userInputsMap emptyMap
          recurse (dep :: rest) st =
        checkDependentServicesLoop E serviceOrg serviceUrl serviceVersionExp userInputsMap
          emptyMap recurse rest st2) ∧
    (∀ (fuel : Nat) (userInput : policy.UserInput V) (nodePattern : String)
      (warningMessage : String) (tl : ServiceReference) (rest : List ServiceReference)
      (s s2 : ServiceDefinition × Bool) (first : ServiceChoice) (vs : List ServiceChoice)
      (d0 : ServiceDefinition) (found : Bool) (err : Option String) (st2 : WalkState),
      tl.ServiceVersions = first :: vs →
      E.serviceDefResolverHandler tl.ServiceURL tl.ServiceOrg first.Version tl.ServiceArch =
        (some d0, none) →
      defaultValueCheck userInputsMap emptyMap tl.ServiceOrg tl.ServiceURL = none →
      (if userInput.ServiceOrgid = tl.ServiceOrg ∧ userInput.ServiceUrl = tl.ServiceURL then
          topLevelVersionsLoop E serviceVersionExp tl tl.ServiceVersions s
        else Except.ok s) = Except.ok s2 →
      checkDependentServices E userInput.ServiceOrgid userInput.ServiceUrl serviceVersionExp
          userInputsMap patternUserInputsMap emptyMap fuel s2.1 { foundMatchService := false } =
        some (found, true, err, st2) →
      topLevelServicesLoop E fuel userInput nodePattern serviceVersionExp warningMessage
          userInputsMap patternUserInputsMap emptyMap (tl :: rest) s =
        topLevelServicesLoop E fuel userInput nodePattern serviceVersionExp warningMessage
          userInputsMap patternUserInputsMap emptyMap rest (s2.1, s2.2 || found)) := by
  refine ⟨?_, ?_, ?_, ?_⟩
  · intro fuel root st st2 found err h
    exact checkDependentServices_failure_cause E serviceOrg serviceUrl serviceVersionExp
      userInputsMap patternUserInputsMap emptyMap fuel root st (found, false, err, st2) h rfl
  · intro recurse dep rest st h
    exact checkDependentServicesLoop_unresolved E serviceOrg serviceUrl serviceVersionExp
      userInputsMap emptyMap recurse dep rest st h
  · intro recurse dep rest st st2 d found err hd hc hr
    rw [checkDependentServicesLoop_recurse E serviceOrg serviceUrl serviceVersionExp
      userInputsMap emptyMap recurse dep rest st d hd hc, hr]
  · intro fuel userInput nodePattern warningMessage tl rest s s2 first vs d0 found err st2 hvers
      htl hcov hsel hwalk
    exact topLevelServicesLoop_walk_passes E fuel userInput nodePattern serviceVersionExp
      warningMessage userInputsMap patternUserInputsMap emptyMap tl rest s s2 first vs d0 found
      err st2 hvers htl hcov hsel hwalk

/-- Witness of C29 (amended): `myorg/lost` does not resolve and ends the loop with
`(false, true, error)`; and the walk from `myorg/top` that returns its second
result false does so for the default-value check of a reachable required
service. -/
theorem checkDependentServices_unresolved_dependency_witness :
    checkDependentServicesLoop (exampleSelfEnv false) "myorg" "svc" exampleVersionExp_1_5_0
        [("myorg/svc", exampleSvcUserInput)] []
        (fun _ _ => none)
        [{ URL := "lost", Org := "myorg", VersionRange := "1.0.0", Arch := "amd64" }]
        { foundMatchService := true, resolverCalls := 1 } =
      some (false, true,
        some ("service does not exist " ++ "myorg" ++ ", " ++ "lost" ++ ", " ++ "amd64" ++
          ", " ++ normalizeVersionRange "1.0.0"),
        { foundMatchService := true, resolverCalls := 1 + 1 }) ∧
    ∃ dep e, ReachableDependency exampleEnv exampleTopDefinition dep ∧
      defaultValueCheck [("myorg/top", exampleTopUserInput)] [("myorg/dep", [{ Name := "key" }])]
        dep.Org dep.URL = some e ∧
      some "myorg dep has userInput that need to be set because they have no default value." =
        some e :=
  ⟨(checkDependentServices_unresolved_dependency (exampleSelfEnv false) "myorg" "svc"
      exampleVersionExp_1_5_0 [("myorg/svc", exampleSvcUserInput)] [] []).2.1 (fun _ _ => none)
      { URL := "lost", Org := "myorg", VersionRange := "1.0.0", Arch := "amd64" } []
      { foundMatchService := true, resolverCalls := 1 }
      (fun d h => by
        have hr : (exampleSelfEnv false).serviceDefResolverHandler "lost" "myorg"
            (normalizeVersionRange "1.0.0") "amd64" =
            (none, some "unable to find the service myorg/lost") := by decide
        unfold resolvesTo at h
        rw [hr] at h
        injection h with h1 _
        exact Option.noConfusion h1),
   (checkDependentServices_unresolved_dependency exampleEnv "myorg" "top"
      exampleVersionExp_1_0_0 [("myorg/top", exampleTopUserInput)] []
      [("myorg/dep", [{ Name := "key" }])]).1 1 exampleTopDefinition
      { foundMatchService := false } { foundMatchService := false, resolverCalls := 1 } false
      (some "myorg dep has userInput that need to be set because they have no default value.")
      (by decide)⟩

/-! ### Inputs without a default value -/

theorem patternInputsContain_iff {V : Type} (patternUserInput : Option (policy.UserInput V))
    (name : String) :
    patternInputsContain patternUserInput name = false ↔
      ∀ p, patternUserInput = some p → name ∉ p.Inputs.map (fun i => i.Name) := by
  cases patternUserInput with
  | none =>
    unfold patternInputsContain
    simp
  | some p =>
    unfold patternInputsContain
    simp only [Option.some.injEq, forall_eq', List.mem_map, not_exists, not_and]
    rw [Bool.eq_false_iff]
    simp only [ne_eq, List.any_eq_true, decide_eq_true_eq, not_exists, not_and]

theorem checkUserInputDefaultValueNotEmpty_fold {V : Type} (key : String)
    (patternUserInput : Option (policy.UserInput V)) (inputs : List UserInput) :
    ∀ (m : List (String × List UserInput)),
      (∀ l, mapLookup m key = some l →
        mapLookup
          (inputs.foldl
            (fun m u =>
              if u.DefaultValue = "" ∧ patternInputsContain patternUserInput u.Name = false then
                match mapLookup m key with
                | some emptyDefaultValueNames => mapInsert m key (emptyDefaultValueNames ++ [u])
                | none => mapInsert m key []
              else m) m) key =
          some (l ++ inputs.filter
            (fun u => decide (u.DefaultValue = "" ∧
              ∀ p, patternUserInput = some p → u.Name ∉ p.Inputs.map (fun i => i.Name))))) ∧
      (mapLookup m key = none →
        mapLookup
          (inputs.foldl
            (fun m u =>
              if u.DefaultValue = "" ∧ patternInputsContain patternUserInput u.Name = false then
                match mapLookup m key with
                | some emptyDefaultValueNames => mapInsert m key (emptyDefaultValueNames ++ [u])
                | none => mapInsert m key []
              else m) m) key =
          match inputs.filter
            (fun u => decide (u.DefaultValue = "" ∧
              ∀ p, patternUserInput = some p → u.Name ∉ p.Inputs.map (fun i => i.Name))) with
          | [] => none
          | _ :: rest => some rest) := by
  induction inputs with
  | nil =>
    intro m
    constructor
    · intro l hl
      simp [hl]
    · intro hn
      simp [hn]
  | cons u rest ih =>
    intro m
    by_cases hu : u.DefaultValue = "" ∧ patternInputsContain patternUserInput u.Name = false
    · have hu2 : u.DefaultValue = "" ∧
          ∀ p, patternUserInput = some p → u.Name ∉ p.Inputs.map (fun i => i.Name) :=
        ⟨hu.1, (patternInputsContain_iff patternUserInput u.Name).mp hu.2⟩
      constructor
      · intro l hl
        rw [List.foldl_cons, if_pos hu]
        simp only [hl]
        rw [(ih (mapInsert m key (l ++ [u]))).1 (l ++ [u])
          (by rw [mapLookup_mapInsert, if_pos rfl])]
        rw [List.filter_cons_of_pos (by simpa using hu2)]
        simp
      · intro hn
        rw [List.foldl_cons, if_pos hu]
        simp only [hn]
        rw [(ih (mapInsert m key [])).1 [] (by rw [mapLookup_mapInsert, if_pos rfl])]
        rw [List.filter_cons_of_pos (by simpa using hu2)]
        simp
    · have hu2 : ¬ (u.DefaultValue = "" ∧
          ∀ p, patternUserInput = some p → u.Name ∉ p.Inputs.map (fun i => i.Name)) := by
        intro h
        exact hu ⟨h.1, (patternInputsContain_iff patternUserInput u.Name).mpr h.2⟩
      constructor
      · intro l hl
        rw [List.foldl_cons, if_neg hu, (ih m).1 l hl]
        rw [List.filter_cons_of_neg (by simpa using hu2)]
      · intro hn
        rw [List.foldl_cons, if_neg hu, (ih m).2 hn]
        rw [List.filter_cons_of_neg (by simpa using hu2)]

/-- What `checkUserInputDefaultValueNotEmpty` records, starting from a map without an
entry for `<org>/<url>`: no entry when no declared input needs a command-line
value, and otherwise the inputs that need one except the first of them. -/
theorem checkUserInputDefaultValueNotEmpty_entry {V : Type} (org : String)
    (sdef : ServiceDefinition) (patternUserInput : Option (policy.UserInput V))
    (m : List (String × List UserInput))
    (hm : mapLookup m (org ++ "/" ++ sdef.URL) = none) :
    mapLookup (checkUserInputDefaultValueNotEmpty org (some sdef) patternUserInput m)
        (org ++ "/" ++ sdef.URL) =
      match inputsWithoutDefault sdef patternUserInput with
      | [] => none
      | _ :: rest => some rest := by
  unfold checkUserInputDefaultValueNotEmpty inputsWithoutDefault
  exact (checkUserInputDefaultValueNotEmpty_fold (org ++ "/" ++ sdef.URL) patternUserInput
    sdef.UserInputs m).2 hm

/-- C24, the code at the failing input: `myorg/dep` declares the input `key` without a
default value, the pattern supplies no input for it, and the map has no entry
for `myorg/dep`; `checkUserInputDefaultValueNotEmpty` creates the entry with an
empty list, so `key` is not recorded. Of the two inputs `key` and `token` of
`myorg/two` only `token` is recorded. For the pattern whose top-level service is
`myorg/dep`, the map that `getUserInputWithEmptyDefaultValue` gives then lets
`ValidateUserInput` accept a user input for `myorg/dep` that does not set `key`,
which it rejects with the map that records `key`. -/
theorem checkUserInputDefaultValueNotEmpty_first_input_dropped :
    inputsWithoutDefault exampleDepDefinition (none : Option (policy.UserInput PropertyValue)) =
      [{ Name := "key", Type_ := "string" }] ∧
    checkUserInputDefaultValueNotEmpty "myorg" (some exampleDepDefinition)
        (none : Option (policy.UserInput PropertyValue)) [] = [("myorg/dep", [])] ∧
    inputsWithoutDefault exampleTwoInputsDefinition
        (none : Option (policy.UserInput PropertyValue)) =
      [{ Name := "key" }, { Name := "token" }] ∧
    checkUserInputDefaultValueNotEmpty "myorg" (some exampleTwoInputsDefinition)
        (none : Option (policy.UserInput PropertyValue)) [] =
      [("myorg/two", [{ Name := "token" }])] ∧
    getUserInputWithEmptyDefaultValue exampleResolver 5
        ([] : List (String × policy.UserInput PropertyValue)) exampleDepTopLevelServices [] =
      some ([("myorg/dep", [])], none) ∧
    ValidateUserInput exampleEnv 5 exampleDepUserInputWithoutKey "myorg/pat"
        exampleDepTopLevelServices [("myorg/dep", exampleDepUserInputWithoutKey)] []
        [("myorg/dep", [])] = some (true, "", none) ∧
    ValidateUserInput exampleEnv 5 exampleDepUserInputWithoutKey "myorg/pat"
        exampleDepTopLevelServices [("myorg/dep", exampleDepUserInputWithoutKey)] []
        [("myorg/dep", [{ Name := "key", Type_ := "string" }])] =
      some (false, "",
        some "key needs to be set in userInput because it has no default value.") := by
  decide

/-- C30: `Helm3DeploymentConfigPlugin.Validate` answers owned = false with a nil error
when `dep` is not nil, when `cdep` is not a map with string keys, and when the map
lacks `chartArchive` or `releaseName`; in every other case it answers owned = true,
and its error is nil exactly when both values are strings of non-zero length. The
plugin's own `DefaultClusterConfig` is owned and rejected. -/
theorem Helm3DeploymentConfigPlugin_Validate_spec :
    (∀ dep cdep : GoValue, dep ≠ GoValue.nil →
      Helm3DeploymentConfigPlugin.Validate dep cdep = (false, none)) ∧
    (∀ cdep : GoValue, (∀ dc, cdep ≠ GoValue.map dc) →
      Helm3DeploymentConfigPlugin.Validate GoValue.nil cdep = (false, none)) ∧
    (∀ dc : List (String × GoValue),
      mapLookup dc "chartArchive" = none ∨ mapLookup dc "releaseName" = none →
      Helm3DeploymentConfigPlugin.Validate GoValue.nil (GoValue.map dc) = (false, none)) ∧
    (∀ (dc : List (String × GoValue)) (c r : GoValue),
      mapLookup dc "chartArchive" = some c → mapLookup dc "releaseName" = some r →
      (Helm3DeploymentConfigPlugin.Validate GoValue.nil (GoValue.map dc)).1 = true ∧
      ((Helm3DeploymentConfigPlugin.Validate GoValue.nil (GoValue.map dc)).2 = none ↔
        ∃ ca rn, c = GoValue.str ca ∧ r = GoValue.str rn ∧
          ca.length ≠ 0 ∧ rn.length ≠ 0)) ∧
    Helm3DeploymentConfigPlugin.Validate GoValue.nil
        Helm3DeploymentConfigPlugin.DefaultClusterConfig =
      (true, some "chartArchive and releaseName must be non-empty strings") := by
  refine ⟨?_, ?_, ?_, ?_, ?_⟩
  · intro dep cdep hdep
    cases dep <;> first | exact absurd rfl hdep | rfl
  · intro cdep hc
    cases cdep <;> first | exact absurd rfl (hc _) | rfl
  · intro dc h
    unfold Helm3DeploymentConfigPlugin.Validate
    rcases h with h | h
    · simp only [h]
    · simp only [h]
      cases mapLookup dc "chartArchive" <;> rfl
  · intro dc c r hc hr
    unfold Helm3DeploymentConfigPlugin.Validate
    simp only [hc, hr]
    cases c with
    | str ca =>
      cases r with
      | str rn =>
        by_cases h : ca.length = 0 ∨ rn.length = 0
        · dsimp only
          rw [if_pos h]
          refine ⟨rfl, ?_⟩
          constructor
          · intro h2; cases h2
          · rintro ⟨ca2, rn2, h1, h2, h3, h4⟩
            cases h1; cases h2
            rcases h with h | h
            · exact absurd h h3
            · exact absurd h h4
        · dsimp only
          rw [if_neg h]
          refine ⟨rfl, ?_⟩
          constructor
          · intro _
            exact ⟨ca, rn, rfl, rfl, fun h2 => h (Or.inl h2), fun h2 => h (Or.inr h2)⟩
          · intro _; rfl
      | _ =>
        refine ⟨rfl, ?_⟩
        constructor
        · intro h2; cases h2
        · rintro ⟨ca2, rn2, _, h2, _, _⟩
          cases h2
    | _ =>
      refine ⟨rfl, ?_⟩
      constructor
      · intro h2; cases h2
      · rintro ⟨ca2, rn2, h1, _, _, _⟩
        cases h1
  · rfl

/-- Witness for C30: a cluster configuration naming a chart archive and a release is
owned and accepted, one whose release name is a number is owned and rejected, and a
native deployment configuration is left to another plugin. -/
theorem Helm3DeploymentConfigPlugin_Validate_spec_witness :
    Helm3DeploymentConfigPlugin.Validate GoValue.nil
        (GoValue.map [("chartArchive", GoValue.str "chart.tgz"),
          ("releaseName", GoValue.str "rel")]) = (true, none) ∧
    Helm3DeploymentConfigPlugin.Validate GoValue.nil
        (GoValue.map [("chartArchive", GoValue.str "chart.tgz"),
          ("releaseName", GoValue.num 7)]) =
      (true, some "releaseName must have a string type value, has float64") ∧
    Helm3DeploymentConfigPlugin.Validate (GoValue.map [])
        Helm3DeploymentConfigPlugin.DefaultClusterConfig = (false, none) :=
  ⟨by rfl, by rfl,
    Helm3DeploymentConfigPlugin_Validate_spec.1 (GoValue.map [])
      Helm3DeploymentConfigPlugin.DefaultClusterConfig (by intro h; cases h)⟩

/-! ### Node shutdown -/

/-- `completedWithError` puts one message on the bus: the shutdown-complete message
with the error text. -/
theorem completedWithError_messages {D : Type} (X : ShutdownEnv D) (w : GovernanceWorker)
    (e : String) :
    (completedWithError X w e).Messages =
      w.Messages ++ [BusMessage.NewNodeShutdownCompleteMessage EventId.UNCONFIGURE_COMPLETE e] := by
  unfold completedWithError GovernanceWorker.send
  by_cases h : e ≠ ""
  · simp only [if_pos h]
  · simp only [if_neg h]

/-- `continueWithError` leaves the bus as it is. -/
theorem continueWithError_messages {D : Type} (X : ShutdownEnv D) (w : GovernanceWorker)
    (e : String) : (continueWithError X w e).Messages = w.Messages := by
  unfold continueWithError
  by_cases h : e ≠ ""
  · simp only [if_pos h]
  · simp only [if_neg h]

/-- The last part of `nodeShutdown` ends with the shutdown-complete message. -/
theorem nodeShutdownLocalCleanup_messages {D : Type} (X : ShutdownEnv D)
    (w : GovernanceWorker) (errorMessage : String) :
    ∃ e, (nodeShutdownLocalCleanup X w errorMessage).Messages =
      w.Messages ++ [BusMessage.NewNodeShutdownCompleteMessage EventId.UNCONFIGURE_COMPLETE e] := by
  unfold nodeShutdownLocalCleanup
  repeat' split
  all_goals first
    | exact ⟨_, completedWithError_messages X w _⟩
    | exact ⟨_, rfl⟩

/-- C23 (evaluation): after a pattern change, when the Exchange refuses the PATCH of
the new pattern, `nodeShutdown` returns, the error is in the log, and the bus holds
the messaging-shutdown message only: no shutdown-complete message was sent. -/
theorem nodeShutdown_pattern_patch_failure :
    ∀ fuel : Nat, ∃ w : GovernanceWorker,
      nodeShutdown examplePatternChangeShutdown (fuel + 1) = some w ∧
      w.Messages = [BusMessage.NewMessagingShutdownMessage EventId.MESSAGE_STOP] ∧
      w.errorLog = ["GovernanceWorker: node shutdown continuing after encountering error: " ++
        "GovernanceWorker: status: 500"] ∧
      ∀ event e, BusMessage.NewNodeShutdownCompleteMessage event e ∉ w.Messages := by
  intro fuel
  refine ⟨⟨[BusMessage.NewMessagingShutdownMessage EventId.MESSAGE_STOP],
    ["GovernanceWorker: node shutdown continuing after encountering error: " ++
      "GovernanceWorker: status: 500"]⟩, ?_, rfl, rfl, ?_⟩
  · rfl
  · intro event e h
    simp at h

/-- Every run of `nodeShutDownForPattenChanged` that returns has either sent the
shutdown-complete message last, or has met an error of `patchNodePattern`. -/
theorem nodeShutDownForPattenChanged_complete_or_patch_failure {D : Type}
    (X : ShutdownEnv D) (w0 : GovernanceWorker) (dev : D) (new_pattern : String)
    (fuel : Nat) (w : GovernanceWorker)
    (h : nodeShutDownForPattenChanged X w0 dev new_pattern fuel = some w) :
    (∃ pre e, w.Messages =
      pre ++ [BusMessage.NewNodeShutdownCompleteMessage EventId.UNCONFIGURE_COMPLETE e]) ∨
    (∃ e, patchNodePattern X new_pattern fuel = some (some e)) := by
  unfold nodeShutDownForPattenChanged at h
  repeat' split at h
  all_goals first
    | (right; exact ⟨_, by assumption⟩)
    | (left; cases h; exact ⟨_, _, completedWithError_messages X _ _⟩)
    | (left; cases h; exact ⟨_, _, rfl⟩)
    | cases h

/-- Every run of `nodeShutdown` that returns has either sent the shutdown-complete
message last, or has taken the path of a pattern change and met an error of
`patchNodePattern` there. -/
theorem nodeShutdown_complete_or_patch_failure {D : Type} (X : ShutdownEnv D) (fuel : Nat)
    (w : GovernanceWorker) (h : nodeShutdown X fuel = some w) :
    (∃ pre e, w.Messages =
      pre ++ [BusMessage.NewNodeShutdownCompleteMessage EventId.UNCONFIGURE_COMPLETE e]) ∨
    (X.FindSavedNodeExchPattern.1 ≠ "" ∧
      ∃ e, patchNodePattern X X.FindSavedNodeExchPattern.1 fuel = some (some e)) := by
  unfold nodeShutdown at h
  split at h
  · left; cases h; exact ⟨_, _, completedWithError_messages X _ _⟩
  · left; cases h; exact ⟨_, _, completedWithError_messages X _ _⟩
  · split at h
    · left; cases h; exact ⟨_, _, completedWithError_messages X _ _⟩
    · rename_i new_pattern hp
      split at h
      · rename_i hne
        rcases nodeShutDownForPattenChanged_complete_or_patch_failure X _ _ _ _ _ h with
          hc | hc
        · exact Or.inl hc
        · right
          rw [hp]
          exact ⟨hne, hc⟩
      · left
        repeat' split at h
        all_goals first
          | (cases h; exact ⟨_, _, completedWithError_messages X _ _⟩)
          | (cases h
             obtain ⟨e, he⟩ := nodeShutdownLocalCleanup_messages X _ _
             exact ⟨_, _, he⟩)
          | cases h

/-- On the path of a pattern change, when the agreements have ended and
`patchNodePattern` returns an error, `nodeShutDownForPattenChanged` returns with the
bus holding what the helpers have put there and nothing more. -/
theorem nodeShutDownForPattenChanged_patch_failure {D : Type} (X : ShutdownEnv D)
    (w0 : GovernanceWorker) (dev : D) (new_pattern : String) (fuel : Nat)
    (m1 m2 m3 : List BusMessage) (err1 err3 : Option String) (e : String)
    (h1 : X.clearNodePatternAndMS true = some (m1, err1))
    (h2 : X.terminateAllAgreements TermReason.TERM_REASON_NODE_PATTERN_CHANGED =
      some (m2, none))
    (h3 : X.patchNodeKey HTTPFactory.worker = some (m3, err3))
    (h4 : patchNodePattern X new_pattern fuel = some (some e)) :
    ∃ w, nodeShutDownForPattenChanged X w0 dev new_pattern fuel = some w ∧
      w.Messages = w0.Messages ++ m1 ++ m2 ++ m3 := by
  unfold nodeShutDownForPattenChanged
  simp only [h1, h2, h3, h4]
  refine ⟨_, rfl, ?_⟩
  rw [continueWithError_messages]
  cases err1 <;> cases err3 <;>
    simp only [continueWithError_messages, GovernanceWorker.send]

/-- Without a pattern change, when the removal of the node from the Exchange fails,
`nodeShutdown` goes on and ends with the shutdown-complete message, which carries
the error. -/
theorem nodeShutdown_remove_node_failure (fuel : Nat) :
    (nodeShutdown exampleRemoveNodeShutdown fuel).map GovernanceWorker.Messages =
      some [BusMessage.NewMessagingShutdownMessage EventId.MESSAGE_STOP,
        BusMessage.NewAllBlockchainShutdownMessage EventId.ALL_STOP,
        BusMessage.NewNodeShutdownCompleteMessage EventId.UNCONFIGURE_COMPLETE
          ("Unable to delete the node from the Exchange. Please use \x27hzn exchange node " ++
            "remove myorg/node1\x27 to remove it. The error was: status: 500")] := by
  rfl

end Anax
